import Mathlib

/-!
# GridwiseGemmToBlockwise: coordinate maps, copy shapes and the software pipeline

A shallow embedding of `mlir/lib/Dialect/Rock/Transforms/GridwiseGemmToBlockwise.cpp`.

* Extents, tuning parameters and indices (`int64_t` / `uint32_t` in the source) are
  shapes, counts and coordinates: they are never negative and stay far below `2^63`, so
  they are embedded as natural numbers.  `/` is the quotient rounded down, which is what
  C++ `/` computes on non-negative operands; a division by zero (undefined in C++)
  yields `0`.
* A coordinate map built with `TopDownTMBuilder` / `BottomUpTMBuilder` is embedded as the
  function it denotes, from the upper (logical) coordinates to the lower ones.
* The operations emitted for the software pipeline are embedded as a list of statements
  together with their unrolled execution.
-/

namespace Rock

set_option linter.unusedVariables false

/-! ## Coordinate-transform primitives -/

/-- Modelled from the spec: the `merge` step of the coordinate-transform builder, whose
implementation (`TransformMapBuilder`) is outside this file.  One upper index is split
into one digit per listed extent by radix decomposition, the last digit moving fastest:
each digit is the running remainder divided by the stride of its position, and the
leading digit is not reduced modulo its extent. -/
def merge : List Nat → Nat → List Nat
  | [], _ => []
  | _ :: ls, x => (x / ls.prod) :: merge ls (x % ls.prod)

/-- Modelled from the spec: the `unmerge` step of the coordinate-transform builder
(the inverse of `merge`): the listed upper digits are recombined into one lower index,
each digit weighted by the product of the extents to its right. -/
def unmerge : List Nat → List Nat → Nat
  | _ :: ls, c :: cs => c * ls.prod + unmerge ls cs
  | _, _ => 0

/-- Value of the coordinate called `name` among the coordinates `names`, whose values
are `vals` (position by position). -/
def lookupDim : List String → List Nat → String → Nat
  | n :: ns, v :: vs, name => if n = name then v else lookupDim ns vs name
  | _, _, _ => 0

/-- The two axes of a `G x K x D` matrix along which a copy can be vectorized. -/
inductive GemmDimension
  | K
  | MorN
  deriving DecidableEq, Repr

/-! ## Global-load and LDS-store views -/

/-- The view built by `wrapMatrixForGlobalLoad`: it fails unless `dName` is `m` or `n`;
otherwise the coordinates `(k_loop, bid, tid, iter)` are sent to the `(g, k, d)`
coordinate of the `G x K x D` matrix (`kGlobal`, `dGlobal` are `matrixShape[1]` and
`matrixShape[2]`). -/
def wrapMatrixForGlobalLoad (kGlobal dGlobal : Nat) (dName : String)
    (bidGridOrder : List String) (bidGridLengths : List Nat)
    (gridSize blockSize kPerBlock dPerBlock kPerThread dPerThread : Nat)
    (vectorDim : GemmDimension) (k_loop bid tid iter : Nat) : Option (Nat × Nat × Nat) :=
  if dName ≠ "m" ∧ dName ≠ "n" then none
  else
    let thisBlockDim := if dName = "m" then "m_block" else "n_block"
    let kThreads := kPerBlock / kPerThread
    let dThreads := dPerBlock / dPerThread
    -- splitId
    let bidParts := merge bidGridLengths bid
    let tidParts := merge [dThreads, kThreads] tid
    let d_thread := tidParts.getD 0 0
    let k_thread := tidParts.getD 1 0
    let iterParts :=
      if vectorDim = GemmDimension.K then merge [dPerThread, kPerThread] iter
      else merge [kPerThread, dPerThread] iter
    let d_iter := if vectorDim = GemmDimension.K then iterParts.getD 0 0 else iterParts.getD 1 0
    let k_iter := if vectorDim = GemmDimension.K then iterParts.getD 1 0 else iterParts.getD 0 0
    -- toGlobalIdx
    let g := lookupDim bidGridOrder bidParts "g_block"
    let k := unmerge [kGlobal / kPerBlock, kThreads, kPerThread] [k_loop, k_thread, k_iter]
    let d := unmerge [dGlobal / dPerBlock, dThreads, dPerThread]
      [lookupDim bidGridOrder bidParts thisBlockDim, d_thread, d_iter]
    some (g, k, d)

/-- The view built by `wrapLDSBufferForStore`: it fails unless the buffer has rank 3;
for a `kOuter x d x kpack` buffer the coordinates `(tid, iter)` are sent to the
`(k_outer, d, kpack)` coordinate of the buffer.  The argument `dName` of the source only
names the coordinates and is left out. -/
def wrapLDSBufferForStore (bufferShape : List Nat) (kPerThread dPerThread : Nat)
    (tid iter : Nat) : Option (Nat × Nat × Nat) :=
  match bufferShape with
  | [kOuter, d, kpack] =>
    let kpackPerThread := min kPerThread kpack
    let kOuterPerThread := kPerThread / kpackPerThread
    -- tidIter
    let tidParts := merge [d / dPerThread, kOuter / kOuterPerThread, kpack / kpackPerThread] tid
    let d_thread := tidParts.getD 0 0
    let k_thread := tidParts.getD 1 0
    let kpack_thread := tidParts.getD 2 0
    let iterParts := merge [kOuterPerThread, dPerThread, kpackPerThread] iter
    let k_iter := iterParts.getD 0 0
    let d_iter := iterParts.getD 1 0
    let kpack_iter := iterParts.getD 2 0
    -- tidIterSplit
    some (unmerge [kOuter / kOuterPerThread, kOuterPerThread] [k_thread, k_iter],
          unmerge [d / dPerThread, dPerThread] [d_thread, d_iter],
          unmerge [kpack / kpackPerThread, kpackPerThread] [kpack_thread, kpack_iter])
  | _ => none

/-- The map built by `globalVectorLayout`: the load iteration `iter` is sent to the
index `raw` of the per-thread vector of loaded values.  The argument `dName` of the
source only names the coordinates and is left out. -/
def globalVectorLayout (kPerThread dPerThread kpack : Nat) (vectorDim : GemmDimension)
    (iter : Nat) : Nat :=
  let kpackPerThread := min kPerThread kpack
  let kOuter := kPerThread / kpackPerThread
  let parts :=
    if vectorDim = GemmDimension.K then merge [dPerThread, kOuter, kpackPerThread] iter
    else merge [kOuter, kpackPerThread, dPerThread] iter
  let d := if vectorDim = GemmDimension.K then parts.getD 0 0 else parts.getD 2 0
  let k := if vectorDim = GemmDimension.K then parts.getD 1 0 else parts.getD 0 0
  let kpack_thread := if vectorDim = GemmDimension.K then parts.getD 2 0 else parts.getD 1 0
  unmerge [kOuter, dPerThread, kpackPerThread] [k, d, kpack_thread]

/-- The map built by `ldsVectorLayout`: `tid` is ignored and the store iteration is
passed through as the index `raw` of the vector of values to store. -/
def ldsVectorLayout (_dataPerThread : Nat) (_tid iter : Nat) : Nat :=
  iter

/-! ## Generic write-back -/

/-- Tuning parameters of the generic (non-xdlops) gridwise gemm (`GeneralGemmParamsAttr`). -/
structure GeneralGemmParams where
  blockSize : Nat
  kPerBlock : Nat
  mPerBlock : Nat
  nPerBlock : Nat
  kpack : Nat
  mPerThread : Nat
  nPerThread : Nat
  deriving DecidableEq, Repr

/-- Thread layout of a block (`GeneralGemmBlockStructure`), obtained in the source from
`deriveGeneralGemmBlockStructure(blockSize)`, which is outside this file. -/
structure GeneralGemmBlockStructure where
  mThreadsPerCuwave : Nat
  nThreadsPerCuwave : Nat
  mCuwavesPerBlock : Nat
  nCuwavesPerBlock : Nat
  deriving DecidableEq, Repr

/-- The value `gemmMRepeat` of `GridwiseGemmRewritePattern::matchAndRewrite`. -/
def gemmMRepeat (p : GeneralGemmParams) (s : GeneralGemmBlockStructure) : Nat :=
  p.mPerBlock / (p.mPerThread * s.mThreadsPerCuwave * s.mCuwavesPerBlock)

/-- The value `gemmNRepeat` of `GridwiseGemmRewritePattern::matchAndRewrite`. -/
def gemmNRepeat (p : GeneralGemmParams) (s : GeneralGemmBlockStructure) : Nat :=
  p.nPerBlock / (p.nPerThread * s.nThreadsPerCuwave * s.nCuwavesPerBlock)

/-- The value `threadCNumRegisters` of `GridwiseGemmRewritePattern::matchAndRewrite`: the number of
accumulator registers of one thread. -/
def threadCNumRegisters (p : GeneralGemmParams) (s : GeneralGemmBlockStructure) : Nat :=
  let threadCNumM := gemmMRepeat p s * p.mPerThread
  let threadCNumN := gemmNRepeat p s * p.nPerThread
  threadCNumM * threadCNumN

/-- The lower coordinates of the `splitMemoryCoords` map, by name. -/
structure SplitMemoryCoords where
  g : Nat
  m_block : Nat
  n_block : Nat
  m_cuwaves : Nat
  n_cuwaves : Nat
  m_cuwave : Nat
  n_cuwave : Nat
  m_repeat : Nat
  m_thread : Nat
  n_repeat : Nat
  n_thread : Nat
  deriving DecidableEq, Repr

/-- The map `splitMemoryCoords` of the generic write-back: `bid`, `tid` and `iter` are
each split by `merge`. -/
def splitMemoryCoords (G M N : Nat) (p : GeneralGemmParams) (s : GeneralGemmBlockStructure)
    (bid tid iter : Nat) : SplitMemoryCoords :=
  let mBlocks := M / p.mPerBlock
  let nBlocks := N / p.nPerBlock
  let b := merge [G, mBlocks, nBlocks] bid
  let t := merge [s.mCuwavesPerBlock, s.nCuwavesPerBlock, s.mThreadsPerCuwave,
    s.nThreadsPerCuwave] tid
  let i := merge [gemmMRepeat p s, p.mPerThread, gemmNRepeat p s, p.nPerThread] iter
  { g := b.getD 0 0, m_block := b.getD 1 0, n_block := b.getD 2 0,
    m_cuwaves := t.getD 0 0, n_cuwaves := t.getD 1 0, m_cuwave := t.getD 2 0,
    n_cuwave := t.getD 3 0,
    m_repeat := i.getD 0 0, m_thread := i.getD 1 0, n_repeat := i.getD 2 0,
    n_thread := i.getD 3 0 }

/-- The map `toMatrixC` of the generic write-back, from the split coordinates to
`(gemmG, gemmM, gemmN)`. -/
def toMatrixC (M N : Nat) (p : GeneralGemmParams) (s : GeneralGemmBlockStructure)
    (c : SplitMemoryCoords) : Nat × Nat × Nat :=
  (c.g,
   unmerge [M / p.mPerBlock, gemmMRepeat p s, s.mCuwavesPerBlock, s.mThreadsPerCuwave,
       p.mPerThread]
     [c.m_block, c.m_repeat, c.m_cuwaves, c.m_cuwave, c.m_thread],
   unmerge [N / p.nPerBlock, gemmNRepeat p s, s.nCuwavesPerBlock, s.nThreadsPerCuwave,
       p.nPerThread]
     [c.n_block, c.n_repeat, c.n_cuwaves, c.n_cuwave, c.n_thread])

/-- The composed write-back map `idToMatrixCMaps = [splitMemoryCoords, toMatrixC]`, from
`(bid, tid, iter)` to `(gemmG, gemmM, gemmN)`. -/
def idToMatrixC (G M N : Nat) (p : GeneralGemmParams) (s : GeneralGemmBlockStructure)
    (x : Nat × Nat × Nat) : Nat × Nat × Nat :=
  toMatrixC M N p s (splitMemoryCoords G M N p s x.1 x.2.1 x.2.2)

/-! ## The software pipeline -/

/-- The two rewrite patterns of the file: `GridwiseGemmRewritePattern` and
`GridwiseGemmV2RewritePattern`. -/
inductive Variant
  | gridwiseGemm
  | gridwiseGemmV2
  deriving DecidableEq, Repr

/-- The operand a copy loop moves. -/
inductive Operand
  | A
  | B
  deriving DecidableEq, Repr

/-- The `k_loop` upper coordinate given to a global-load loop: the constant zero of the
loops created by `createGlobalLoadLoop`, or the induction variable set on their clones
inside the pipeline loop. -/
inductive KLoop
  | zero
  | iv
  deriving DecidableEq, Repr

/-- The operations of the pipeline.  `globalLoad x k` is the load loop of operand `x`
(`blockwiseLoadA/B` for `k = zero`, its clone for `k = iv`); `ldsStore x k` is the store
loop of operand `x` that stores the result of `globalLoad x k` (`blockwiseStoreA/B`, and
its clone with the loaded value remapped to the result of the cloned load);
`blockwiseGemm v` is `BlockwiseGemmOp` or `BlockwiseGemmV2Op`. -/
inductive Op
  | globalLoad (x : Operand) (k_loop : KLoop)
  | ldsStore (x : Operand) (src : KLoop)
  | ldsBarrier
  | blockwiseGemm (v : Variant)
  deriving DecidableEq, Repr

/-- A statement of the emitted code: a single operation or an `AffineForOp` with constant
bounds around a list of operations. -/
inductive Stmt
  | op (o : Op)
  | affineFor (lb ub step : Nat) (body : List Op)
  deriving DecidableEq, Repr

/-- The load loops, store loops and pipeline emitted by `matchAndRewrite` of both
patterns (lines 695-784 and 1070-1324), in the order of emission; what is emitted in
between (allocations, index arithmetic, register fills) is left out.  The `AffineForOp`
created from `1` to `nIterations` is erased again when `nIterations <= 1`. -/
def emitPipeline (v : Variant) (K kPerBlock : Nat) : List Stmt :=
  let blockwiseLoadA := Op.globalLoad Operand.A KLoop.zero
  let blockwiseLoadB := Op.globalLoad Operand.B KLoop.zero
  let blockwiseStoreA := Op.ldsStore Operand.A KLoop.zero
  let blockwiseStoreB := Op.ldsStore Operand.B KLoop.zero
  let nIterations := K / kPerBlock
  let loopOp := Stmt.affineFor 1 nIterations 1
    [Op.globalLoad Operand.A KLoop.iv, Op.globalLoad Operand.B KLoop.iv,
     Op.ldsBarrier,
     Op.blockwiseGemm v,
     Op.ldsBarrier,
     Op.ldsStore Operand.A KLoop.iv, Op.ldsStore Operand.B KLoop.iv]
  [Stmt.op blockwiseLoadA, Stmt.op blockwiseLoadB,
   Stmt.op blockwiseStoreA, Stmt.op blockwiseStoreB]
    ++ (if nIterations ≤ 1 then [] else [loopOp])
    ++ [Stmt.op Op.ldsBarrier, Stmt.op (Op.blockwiseGemm v)]

/-- The values the induction variable of `affine.for lb to ub step s` takes. -/
def affineForIvs (lb ub step : Nat) : List Nat :=
  List.range' lb ((ub - lb + (step - 1)) / step) step

/-- The induction values for which the body of a loop of the code is executed. -/
def steadyIvs : List Stmt → List Nat
  | [] => []
  | Stmt.op _ :: rest => steadyIvs rest
  | Stmt.affineFor lb ub step _ :: rest => affineForIvs lb ub step ++ steadyIvs rest

/-- The executed operations, in order: every operation comes with the value of the
induction variable of the loop iteration it is executed in (`none` outside a loop). -/
def unroll : List Stmt → List (Option Nat × Op)
  | [] => []
  | Stmt.op o :: rest => (none, o) :: unroll rest
  | Stmt.affineFor lb ub step body :: rest =>
      (affineForIvs lb ub step).flatMap (fun i => body.map (fun o => (some i, o)))
        ++ unroll rest

/-- What one thread block holds while the pipeline runs: the reduction tile held by the
result of each load loop (`loadA0`, `loadB0`: the loops before the pipeline loop;
`loadAiv`, `loadBiv`: their clones) and the reduction tile staged in each LDS region. -/
structure ExecState where
  loadA0 : Option Nat
  loadB0 : Option Nat
  loadAiv : Option Nat
  loadBiv : Option Nat
  ldsA : Option Nat
  ldsB : Option Nat
  deriving DecidableEq, Repr

/-- Nothing loaded and nothing staged. -/
def ExecState.init : ExecState :=
  { loadA0 := none, loadB0 := none, loadAiv := none, loadBiv := none,
    ldsA := none, ldsB := none }

/-- What an executed operation does: a load of reduction tile `tile`, a store of the
tile held by the stored value, a compute step on the tiles staged in LDS, a barrier. -/
inductive Event
  | loaded (x : Operand) (tile : Nat)
  | stored (x : Operand) (tile : Option Nat)
  | computed (a b : Option Nat)
  | barrier
  deriving DecidableEq, Repr

/-- Execution of one operation.  A load with `k_loop = zero` reads reduction tile `0`,
one with `k_loop = iv` the tile numbered by the induction variable. -/
def step (s : ExecState) : Option Nat × Op → ExecState × Event
  | (_, Op.globalLoad Operand.A KLoop.zero) => ({ s with loadA0 := some 0 }, Event.loaded Operand.A 0)
  | (_, Op.globalLoad Operand.B KLoop.zero) => ({ s with loadB0 := some 0 }, Event.loaded Operand.B 0)
  | (i, Op.globalLoad Operand.A KLoop.iv) =>
      ({ s with loadAiv := some (i.getD 0) }, Event.loaded Operand.A (i.getD 0))
  | (i, Op.globalLoad Operand.B KLoop.iv) =>
      ({ s with loadBiv := some (i.getD 0) }, Event.loaded Operand.B (i.getD 0))
  | (_, Op.ldsStore Operand.A KLoop.zero) => ({ s with ldsA := s.loadA0 }, Event.stored Operand.A s.loadA0)
  | (_, Op.ldsStore Operand.B KLoop.zero) => ({ s with ldsB := s.loadB0 }, Event.stored Operand.B s.loadB0)
  | (_, Op.ldsStore Operand.A KLoop.iv) => ({ s with ldsA := s.loadAiv }, Event.stored Operand.A s.loadAiv)
  | (_, Op.ldsStore Operand.B KLoop.iv) => ({ s with ldsB := s.loadBiv }, Event.stored Operand.B s.loadBiv)
  | (_, Op.ldsBarrier) => (s, Event.barrier)
  | (_, Op.blockwiseGemm _) => (s, Event.computed s.ldsA s.ldsB)

/-- Execution of a sequence of operations from a state: the events, in order. -/
def events : ExecState → List (Option Nat × Op) → List Event
  | _, [] => []
  | s, d :: rest => (step s d).2 :: events (step s d).1 rest

/-- The reduction tiles loaded for operand `x`, in order. -/
def loadedTiles (x : Operand) (es : List Event) : List Nat :=
  es.filterMap (fun e => match e with
    | Event.loaded y t => if y = x then some t else none
    | _ => none)

/-- The reduction tiles stored to the LDS region of operand `x`, in order. -/
def storedTiles (x : Operand) (es : List Event) : List (Option Nat) :=
  es.filterMap (fun e => match e with
    | Event.stored y t => if y = x then some t else none
    | _ => none)

/-- The pairs of tiles the compute steps read, in order. -/
def computedTiles (es : List Event) : List (Option Nat × Option Nat) :=
  es.filterMap (fun e => match e with
    | Event.computed a b => some (a, b)
    | _ => none)

/-- Execution of a sequence of operations from a state: the state reached. -/
def run : ExecState → List (Option Nat × Op) → ExecState
  | s, [] => s
  | s, d :: rest => run (step s d).1 rest

/-- A global load of operand `x`. -/
def Op.isGlobalLoad (x : Operand) : Op → Bool
  | Op.globalLoad y _ => decide (y = x)
  | _ => false

/-- An operation that writes LDS. -/
def Op.isLdsStore : Op → Bool
  | Op.ldsStore _ _ => true
  | _ => false

/-- An operation that reads LDS. -/
def Op.isCompute : Op → Bool
  | Op.blockwiseGemm _ => true
  | _ => false

/-- What has touched LDS since the last barrier: nothing, stores, or compute steps. -/
inductive LdsPhase
  | quiet
  | storing
  | computing
  deriving DecidableEq, Repr

/-- The phase after an operation, or `none` when the operation reads what was stored, or
overwrites what was read, since the last barrier. -/
def LdsPhase.next : LdsPhase → Op → Option LdsPhase
  | _, Op.ldsBarrier => some LdsPhase.quiet
  | p, Op.globalLoad _ _ => some p
  | LdsPhase.computing, Op.ldsStore _ _ => none
  | _, Op.ldsStore _ _ => some LdsPhase.storing
  | LdsPhase.storing, Op.blockwiseGemm _ => none
  | _, Op.blockwiseGemm _ => some LdsPhase.computing

/-- The phase after a sequence of operations, or `none` when one of them is refused. -/
def LdsPhase.after : LdsPhase → List Op → Option LdsPhase
  | p, [] => some p
  | p, o :: rest =>
    match p.next o with
    | none => none
    | some q => q.after rest

/-! ## Vectorization and per-thread copy shape -/

/-- The function `bestVectorization`.  The contiguity query `getMaxVectorization(transforms, dim,
dataPerThread, tensorShape)` on the untransformed matrix is outside this file; it is the
parameter `getMaxVectorization`, a function of the axis and of the per-thread quota. -/
def bestVectorization (getMaxVectorization : GemmDimension → Nat → Nat) (dataPerThread : Nat)
    (tiebreaker : GemmDimension) (kPerBlock dPerBlock : Nat) : GemmDimension × Nat :=
  let kVectorLen := getMaxVectorization GemmDimension.K dataPerThread
  let kVectorLen := min kVectorLen kPerBlock
  let dVectorLen := getMaxVectorization GemmDimension.MorN dataPerThread
  let dVectorLen := min dVectorLen dPerBlock
  if kVectorLen > dVectorLen then (GemmDimension.K, kVectorLen)
  else if dVectorLen > kVectorLen then (GemmDimension.MorN, dVectorLen)
  else (tiebreaker, kVectorLen)

/-- The per-block extent along an axis: `kPerBlock` along `K`, `dPerBlock` along `M`/`N`. -/
def perBlockExtent (dim : GemmDimension) (kPerBlock dPerBlock : Nat) : Nat :=
  match dim with
  | GemmDimension.K => kPerBlock
  | GemmDimension.MorN => dPerBlock

/-- The two errors `computeCopyPerThread` reports: "gemmA copy size too small" and
"gemmA per thread copy smaller than per block copy, incohereant tuning parameters". -/
inductive CopyError
  | copySizeTooSmall
  | incoherentTuning
  deriving DecidableEq, Repr

/-- The function `computeCopyPerThread`: the per-thread copy shape `(copyKPerThread, copyDPerThread)`
or one of its two errors. -/
def computeCopyPerThread (dim : GemmDimension) (vectorLen copyPerThread kPerBlock
    dPerBlock : Nat) : Except CopyError (Nat × Nat) :=
  let copyKPerThread := if dim = GemmDimension.K then vectorLen else copyPerThread / vectorLen
  let copyDPerThread := if dim = GemmDimension.K then copyPerThread / vectorLen else vectorLen
  if copyKPerThread = 0 ∨ copyDPerThread = 0 then
    Except.error CopyError.copySizeTooSmall
  else if kPerBlock < copyKPerThread ∨ dPerBlock < copyDPerThread then
    Except.error CopyError.incoherentTuning
  else
    Except.ok (copyKPerThread, copyDPerThread)

/-! ## Element types and the accumulator type -/

/-- Signedness of an integer type (`IntegerType::SignednessSemantics`). -/
inductive Signedness
  | signless
  | signed
  | unsigned
  deriving DecidableEq, Repr

/-- An element type (`mlir::Type`): the float types the file tests for, the integer
types, and any other type, told apart by a number. -/
inductive Ty
  | f16
  | bf16
  | f32
  | integer (width : Nat) (signedness : Signedness)
  | other (id : Nat)
  deriving DecidableEq, Repr

/-- The test `Type::isF16`. -/
def Ty.isF16 : Ty → Bool
  | Ty.f16 => true
  | _ => false

/-- The test `Type::isBF16`. -/
def Ty.isBF16 : Ty → Bool
  | Ty.bf16 => true
  | _ => false

/-- The test `Type::isInteger(width)`: an integer type of that width, of any
signedness. -/
def Ty.isInteger (t : Ty) (width : Nat) : Bool :=
  match t with
  | Ty.integer w _ => decide (w = width)
  | _ => false

/-- The type `b.getF32Type()`. -/
def getF32Type : Ty := Ty.f32

/-- The type `b.getI32Type()`: the signless 32-bit integer. -/
def getI32Type : Ty := Ty.integer 32 Signedness.signless

/-- The function `obtainAccumulatorType`. -/
def obtainAccumulatorType (elementType destType : Ty) : Ty :=
  let accumulatorType := destType
  if elementType.isF16 || elementType.isBF16 then getF32Type
  else if elementType.isInteger 8 then getI32Type
  else accumulatorType

/-! ## Operations and shared-memory sizes -/

/-- A memref type: its shape and element type. -/
structure MemRefType where
  shape : List Nat
  elementType : Ty
  deriving DecidableEq, Repr

/-- The operation `rock.gridwise_gemm`: the types of its operands `A`, `B`, `C`, its grid
size and its tuning parameters. -/
structure GridwiseGemmOp where
  a : MemRefType
  b : MemRefType
  c : MemRefType
  gridSize : Nat
  params : GeneralGemmParams
  deriving DecidableEq, Repr

/-- Tuning parameters of the xdlops gridwise gemm (`XdlopsGemmParamsAttr`). -/
structure XdlopsGemmParams where
  kPerBlock : Nat
  mPerBlock : Nat
  nPerBlock : Nat
  kpack : Nat
  mPerWave : Nat
  nPerWave : Nat
  deriving DecidableEq, Repr

/-- The operation `rock.gridwise_gemm_v2`. -/
structure GridwiseGemmV2Op where
  a : MemRefType
  b : MemRefType
  c : MemRefType
  blockSize : Nat
  gridSize : Nat
  params : XdlopsGemmParams
  deriving DecidableEq, Repr

/-- The two values of `LogicalResult`. -/
inductive LogicalResult
  | success
  | failure
  deriving DecidableEq, Repr

/-- Modelled from the spec: the helper `math_util::integer_divide_ceil` of
`utility/math.h`, which is outside this file: the quotient rounded up. -/
def integer_divide_ceil (a b : Nat) : Nat :=
  (a + b - 1) / b

/-- Modelled from the spec: the helper `math_util::integer_least_multiple` of
`utility/math.h`, which is outside this file: `a` padded to a multiple of the
alignment `b`. -/
def integer_least_multiple (a b : Nat) : Nat :=
  b * integer_divide_ceil a b

/-- Modelled from the spec: the helper `math_util::lcm` of `utility/math.h`, which is
outside this file: the least common multiple. -/
def lcm (a b : Nat) : Nat :=
  Nat.lcm a b

/-- The size of a `float` in bytes. -/
def sizeofFloat : Nat := 4

/-- What `computeLDSBlockSizes` leaves in its three output arguments, and its result. -/
structure LDSBlockSizes where
  a_block_space : Nat
  b_block_space : Nat
  block_space : Nat
  result : LogicalResult
  deriving DecidableEq, Repr

/-- The function `GridwiseGemmRewritePattern::computeLDSBlockSizes`. -/
def GridwiseGemmRewritePattern.computeLDSBlockSizes (op : GridwiseGemmOp) (kpack : Nat) :
    LDSBlockSizes :=
  let tuningParams := op.params
  let ThreadGemmAThreadCopySrcDataPerRead_M := tuningParams.mPerThread
  let ThreadGemmBThreadCopySrcDataPerRead_N := tuningParams.nPerThread
  let max_lds_align :=
    lcm ThreadGemmAThreadCopySrcDataPerRead_M ThreadGemmBThreadCopySrcDataPerRead_N
  let kPerBlock := tuningParams.kPerBlock
  let mPerBlock := tuningParams.mPerBlock
  let nPerBlock := tuningParams.nPerBlock
  let alignedNperBlock := max_lds_align * integer_divide_ceil nPerBlock max_lds_align
  let alignedMperBlock := max_lds_align * integer_divide_ceil mPerBlock max_lds_align
  let a_block_space :=
    integer_least_multiple (kPerBlock * alignedMperBlock) max_lds_align * kpack
  let b_block_space :=
    integer_least_multiple (kPerBlock * alignedNperBlock) max_lds_align * kpack
  let block_space := a_block_space + b_block_space
  { a_block_space := a_block_space, b_block_space := b_block_space,
    block_space := block_space,
    result := if block_space * sizeofFloat > 64 * 1024 then LogicalResult.failure
              else LogicalResult.success }

/-- The function `GridwiseGemmV2RewritePattern::computeLDSBlockSizes`. -/
def GridwiseGemmV2RewritePattern.computeLDSBlockSizes (op : GridwiseGemmV2Op) (kpack : Nat) :
    LDSBlockSizes :=
  let max_lds_align := 1
  let tuningParams := op.params
  let kPerBlock := tuningParams.kPerBlock
  let mPerBlock := tuningParams.mPerBlock
  let nPerBlock := tuningParams.nPerBlock
  let alignedNperBlock := max_lds_align * integer_divide_ceil nPerBlock max_lds_align
  let alignedMperBlock := max_lds_align * integer_divide_ceil mPerBlock max_lds_align
  let a_block_space :=
    integer_least_multiple (kPerBlock * alignedMperBlock) max_lds_align * kpack
  let b_block_space :=
    integer_least_multiple (kPerBlock * alignedNperBlock) max_lds_align * kpack
  let total_block_space := a_block_space + b_block_space
  { a_block_space := a_block_space, b_block_space := b_block_space,
    block_space := total_block_space,
    result := if total_block_space * sizeofFloat > 64 * 1024 then LogicalResult.failure
              else LogicalResult.success }

/-- The range `[start, end)` of the buffer that `sliceBufferSubview` slices out. -/
def sliceBufferSubview (start length : Nat) : Nat × Nat :=
  let end_ := start + length
  (start, end_)

/-! ## The two rewrites -/

/-- The ways `matchAndRewrite` of the two patterns fails: the four shape diagnostics of
the generic pattern, the failure of `computeLDSBlockSizes`, "Block size too large,
rejecting as invalid", an error of `computeCopyPerThread`, a failure of
`wrapMatrixForGlobalLoad` or of `wrapLDSBufferForStore`, and "XdlopsCodeSelection is not
valid". -/
inductive RewriteError
  | mismatchedG
  | mismatchedM
  | mismatchedK
  | mismatchedN
  | ldsBlockSizes
  | blockSizeTooLarge
  | copyPerThread (e : CopyError)
  | wrapMatrix
  | wrapLDSBuffer
  | xdlopsCodeSelection
  deriving DecidableEq, Repr

/-- What a successful `matchAndRewrite` has derived and emitted: the accumulator type,
the LDS allocation with the two slices `[start, end)` of the operands, the per-thread
quotas and copy shapes `(K, D)` with the vectorization of the global loads, and the
load/store loops and pipeline. -/
structure Lowered where
  accumulatorType : Ty
  ldsBlockSize : Nat
  ldsBlockASubview : Nat × Nat
  ldsBlockBSubview : Nat × Nat
  aCopyPerThread : Nat
  bCopyPerThread : Nat
  aVectorization : GemmDimension × Nat
  bVectorization : GemmDimension × Nat
  aCopyShape : Nat × Nat
  bCopyShape : Nat × Nat
  pipeline : List Stmt
  deriving DecidableEq, Repr

/-- The function `GridwiseGemmRewritePattern::matchAndRewrite`, up to the emission of
the pipeline (the write-back that follows cannot fail).  Outside this file, and
parameters here: the contiguity queries on `A` and `B` and the block structure
`deriveGeneralGemmBlockStructure(blockSize)`.  A failure of `wrapMatrixForGlobalLoad` or
`wrapLDSBufferForStore` does not depend on the coordinates; it is read at the origin. -/
def GridwiseGemmRewritePattern.matchAndRewrite
    (getMaxVectorizationA getMaxVectorizationB : GemmDimension → Nat → Nat)
    (blockStructure : GeneralGemmBlockStructure) (op : GridwiseGemmOp) :
    Except RewriteError Lowered :=
  let elementType := op.b.elementType
  let destType := op.c.elementType
  let accumulatorType := obtainAccumulatorType elementType destType
  let aShape := op.a.shape
  let bShape := op.b.shape
  let cShape := op.c.shape
  let G := aShape.getD 0 0
  let K := aShape.getD 1 0
  let M := aShape.getD 2 0
  let N := bShape.getD 2 0
  if bShape.getD 0 0 ≠ G ∨ cShape.getD 0 0 ≠ G then Except.error RewriteError.mismatchedG
  else if cShape.getD 1 0 ≠ M then Except.error RewriteError.mismatchedM
  else if bShape.getD 1 0 ≠ K then Except.error RewriteError.mismatchedK
  else if cShape.getD 2 0 ≠ N then Except.error RewriteError.mismatchedN
  else
    let gridSize := op.gridSize
    let tuningParams := op.params
    let kpack := tuningParams.kpack
    let blockSize := tuningParams.blockSize
    let kpacksPerBlock := tuningParams.kPerBlock
    let mPerBlock := tuningParams.mPerBlock
    let nPerBlock := tuningParams.nPerBlock
    let kPerBlock := kpacksPerBlock * kpack
    let mBlocks := M / mPerBlock
    let nBlocks := N / nPerBlock
    let res := GridwiseGemmRewritePattern.computeLDSBlockSizes op kpack
    if res.result = LogicalResult.failure then Except.error RewriteError.ldsBlockSizes
    else
      let ldsBlockAOffset := 0
      let ldsBlockASubviewOp := sliceBufferSubview ldsBlockAOffset res.a_block_space
      let ldsBlockBOffset := res.a_block_space
      let ldsBlockBSubviewOp := sliceBufferSubview ldsBlockBOffset res.b_block_space
      let bidGridOrder := ["g_block", "m_block", "n_block"]
      let bidGridLengths := [G, mBlocks, nBlocks]
      let aCopyPerThread := kPerBlock * mPerBlock / blockSize
      let bCopyPerThread := kPerBlock * nPerBlock / blockSize
      if aCopyPerThread = 0 ∨ bCopyPerThread = 0 then
        Except.error RewriteError.blockSizeTooLarge
      else
        let vectorTiebreaker := if kpack > 1 then GemmDimension.K else GemmDimension.MorN
        let aVec := bestVectorization getMaxVectorizationA aCopyPerThread vectorTiebreaker
          kPerBlock mPerBlock
        let bVec := bestVectorization getMaxVectorizationB bCopyPerThread vectorTiebreaker
          kPerBlock nPerBlock
        match computeCopyPerThread aVec.1 aVec.2 aCopyPerThread kPerBlock mPerBlock with
        | Except.error e => Except.error (RewriteError.copyPerThread e)
        | Except.ok (aCopyKPerThread, copyMPerThread) =>
        match computeCopyPerThread bVec.1 bVec.2 bCopyPerThread kPerBlock nPerBlock with
        | Except.error e => Except.error (RewriteError.copyPerThread e)
        | Except.ok (bCopyKPerThread, copyNPerThread) =>
        if (wrapMatrixForGlobalLoad (aShape.getD 1 0) (aShape.getD 2 0) "m" bidGridOrder
            bidGridLengths gridSize blockSize kPerBlock mPerBlock aCopyKPerThread
            copyMPerThread aVec.1 0 0 0 0).isNone then
          Except.error RewriteError.wrapMatrix
        else if (wrapMatrixForGlobalLoad (bShape.getD 1 0) (bShape.getD 2 0) "n" bidGridOrder
            bidGridLengths gridSize blockSize kPerBlock nPerBlock bCopyKPerThread
            copyNPerThread bVec.1 0 0 0 0).isNone then
          Except.error RewriteError.wrapMatrix
        else if (wrapLDSBufferForStore [kpacksPerBlock, mPerBlock, kpack] aCopyKPerThread
            copyMPerThread 0 0).isNone then
          Except.error RewriteError.wrapLDSBuffer
        else if (wrapLDSBufferForStore [kpacksPerBlock, nPerBlock, kpack] bCopyKPerThread
            copyNPerThread 0 0).isNone then
          Except.error RewriteError.wrapLDSBuffer
        else
          Except.ok
            { accumulatorType := accumulatorType,
              ldsBlockSize := res.block_space,
              ldsBlockASubview := ldsBlockASubviewOp,
              ldsBlockBSubview := ldsBlockBSubviewOp,
              aCopyPerThread := aCopyPerThread,
              bCopyPerThread := bCopyPerThread,
              aVectorization := aVec,
              bVectorization := bVec,
              aCopyShape := (aCopyKPerThread, copyMPerThread),
              bCopyShape := (bCopyKPerThread, copyNPerThread),
              pipeline := emitPipeline Variant.gridwiseGemm K kPerBlock }

/-- The function `GridwiseGemmV2RewritePattern::matchAndRewrite`, up to the emission of
the pipeline (the write-back that follows cannot fail).  Outside this file, and
parameters here: the contiguity queries on `A` and `B`, and the validity
`XdlopsCodeSelection::get(elementType, mPerWave, nPerWave).isValid(kpack, kPerBlock)`
as the function `xcsIsValid` of these five values. -/
def GridwiseGemmV2RewritePattern.matchAndRewrite
    (getMaxVectorizationA getMaxVectorizationB : GemmDimension → Nat → Nat)
    (xcsIsValid : Ty → Nat → Nat → Nat → Nat → Bool) (op : GridwiseGemmV2Op) :
    Except RewriteError Lowered :=
  let elementType := op.b.elementType
  let aShape := op.a.shape
  let bShape := op.b.shape
  let G := aShape.getD 0 0
  let K := aShape.getD 1 0
  let M := aShape.getD 2 0
  let N := bShape.getD 2 0
  let blockSize := op.blockSize
  let gridSize := op.gridSize
  let tuningParams := op.params
  let kpack := tuningParams.kpack
  let kpacksPerBlock := tuningParams.kPerBlock
  let mPerBlock := tuningParams.mPerBlock
  let nPerBlock := tuningParams.nPerBlock
  let mBlocks := M / mPerBlock
  let nBlocks := N / nPerBlock
  let kPerBlock := kpacksPerBlock * kpack
  let bidGridOrder := ["g_block", "m_block", "n_block"]
  let bidGridLengths := [G, mBlocks, nBlocks]
  let aCopyPerThread := kPerBlock * mPerBlock / blockSize
  let bCopyPerThread := kPerBlock * nPerBlock / blockSize
  if aCopyPerThread = 0 ∨ bCopyPerThread = 0 then
    Except.error RewriteError.blockSizeTooLarge
  else
    let vectorTiebreaker := if kpack > 1 then GemmDimension.K else GemmDimension.MorN
    let aVec := bestVectorization getMaxVectorizationA aCopyPerThread vectorTiebreaker
      kPerBlock mPerBlock
    let bVec := bestVectorization getMaxVectorizationB bCopyPerThread vectorTiebreaker
      kPerBlock nPerBlock
    match computeCopyPerThread aVec.1 aVec.2 aCopyPerThread kPerBlock mPerBlock with
    | Except.error e => Except.error (RewriteError.copyPerThread e)
    | Except.ok (aCopyKPerThread, copyMPerThread) =>
    match computeCopyPerThread bVec.1 bVec.2 bCopyPerThread kPerBlock nPerBlock with
    | Except.error e => Except.error (RewriteError.copyPerThread e)
    | Except.ok (bCopyKPerThread, copyNPerThread) =>
    if (wrapMatrixForGlobalLoad (aShape.getD 1 0) (aShape.getD 2 0) "m" bidGridOrder
        bidGridLengths gridSize blockSize kPerBlock mPerBlock aCopyKPerThread
        copyMPerThread aVec.1 0 0 0 0).isNone then
      Except.error RewriteError.wrapMatrix
    else if (wrapMatrixForGlobalLoad (bShape.getD 1 0) (bShape.getD 2 0) "n" bidGridOrder
        bidGridLengths gridSize blockSize kPerBlock nPerBlock bCopyKPerThread
        copyNPerThread bVec.1 0 0 0 0).isNone then
      Except.error RewriteError.wrapMatrix
    else
      let mPerWave := tuningParams.mPerWave
      let nPerWave := tuningParams.nPerWave
      let res := GridwiseGemmV2RewritePattern.computeLDSBlockSizes op kpack
      if res.result = LogicalResult.failure then Except.error RewriteError.ldsBlockSizes
      else
        let ldsBlockAOffset := 0
        let ldsBlockASubviewOp := sliceBufferSubview ldsBlockAOffset res.a_block_space
        let ldsBlockBOffset := res.a_block_space
        let ldsBlockBSubviewOp := sliceBufferSubview ldsBlockBOffset res.b_block_space
        if (wrapLDSBufferForStore [kpacksPerBlock, mPerBlock, kpack] aCopyKPerThread
            copyMPerThread 0 0).isNone then
          Except.error RewriteError.wrapLDSBuffer
        else if (wrapLDSBufferForStore [kpacksPerBlock, nPerBlock, kpack] bCopyKPerThread
            copyNPerThread 0 0).isNone then
          Except.error RewriteError.wrapLDSBuffer
        else if ¬ xcsIsValid elementType mPerWave nPerWave kpack kPerBlock then
          Except.error RewriteError.xdlopsCodeSelection
        else
          let destType := op.c.elementType
          let accumulatorType := obtainAccumulatorType elementType destType
          Except.ok
            { accumulatorType := accumulatorType,
              ldsBlockSize := res.block_space,
              ldsBlockASubview := ldsBlockASubviewOp,
              ldsBlockBSubview := ldsBlockBSubviewOp,
              aCopyPerThread := aCopyPerThread,
              bCopyPerThread := bCopyPerThread,
              aVectorization := aVec,
              bVectorization := bVec,
              aCopyShape := (aCopyKPerThread, copyMPerThread),
              bCopyShape := (bCopyKPerThread, copyNPerThread),
              pipeline := emitPipeline Variant.gridwiseGemmV2 K kPerBlock }

/-! ## Output swizzle of the matrix-core write-back -/

/-- Modelled from the spec: the `embed` step of the coordinate-transform builder, whose
implementation (`TransformMapBuilder`) is outside this file.  The lower index is the
affine combination of the listed upper coordinates with the stated per-axis strides. -/
def embed : List Nat → List Nat → Nat
  | c :: cs, u :: us => c * u + embed cs us
  | _, _ => 0

/-- The constant `swizzleGroup` of `GridwiseGemmV2RewritePattern::matchAndRewrite`. -/
def swizzleGroup : Nat := 4

/-- The map `indexSplit` of the output swizzle: `bid` is passed through, `tid` is split
into `(tid_group, tid_item)` and `iter` into `(vec_group, vec_item)`, both by `merge`
with a last extent of `4`.  The result is
`(bid, tid_group, tid_item, vec_group, vec_item)`. -/
def indexSplit (blockSize numElements : Nat) (bid tid iter : Nat) :
    Nat × Nat × Nat × Nat × Nat :=
  let tidParts := merge [blockSize / 4, 4] tid
  let iterParts := merge [numElements / 4, 4] iter
  (bid, tidParts.getD 0 0, tidParts.getD 1 0, iterParts.getD 0 0, iterParts.getD 1 0)

/-- The map `indexCombine` of the output swizzle, below `indexSplit`: `bid` is passed
through, `tid` is embedded from `(tid_group, vec_item)` and `iter` from
`(vec_group, tid_item)`, both with the strides `(4, 1)`: the positions of `tid_item` and
`vec_item` are switched. -/
def indexCombine (c : Nat × Nat × Nat × Nat × Nat) : Nat × Nat × Nat :=
  let bid := c.1
  let tid_group := c.2.1
  let tid_item := c.2.2.1
  let vec_group := c.2.2.2.1
  let vec_item := c.2.2.2.2
  (bid, embed [4, 1] [tid_group, vec_item], embed [4, 1] [vec_group, tid_item])

/-- What the write-back of the matrix-core rewrite settles before its store loop: whether
the output swizzle is emitted, the store width `tensorCDataPerCopy` (the stride of the
store loop and the length of each `GlobalStoreOp`), and the composed map
`idToTensorCMaps` from `(bid, tid, iter)` to the coordinates of the output tensor. -/
structure OutputStore (γ : Type) where
  enableOutSwizzles : Bool
  tensorCDataPerCopy : Nat
  idToTensorCMaps : Nat × Nat × Nat → γ

/-- The decision on the output swizzle in `GridwiseGemmV2RewritePattern::matchAndRewrite`
(lines 1397-1433).  The contiguity query `getMaxVectorization(idToTensorCMaps, dim, len,
tensorCShape)` on the output maps is outside this file; it is the parameter
`getMaxVectorization`, a function of `dim` and `len`.  When the swizzle is enabled,
`indexSplit` and `indexCombine` are put in front of the maps. -/
def GridwiseGemmV2RewritePattern.outputStore {γ : Type}
    (getMaxVectorization : Nat → Nat → Nat) (blockSize numElements : Nat)
    (idToTensorCMaps : Nat × Nat × Nat → γ) : OutputStore γ :=
  let tensorCDataPerCopy := getMaxVectorization 2 numElements
  let threadsWithConsecutiveElems := getMaxVectorization 1 swizzleGroup
  let enableOutSwizzles :=
    (tensorCDataPerCopy == 1) && (threadsWithConsecutiveElems == swizzleGroup)
  if enableOutSwizzles then
    { enableOutSwizzles := true,
      tensorCDataPerCopy := threadsWithConsecutiveElems,
      idToTensorCMaps := fun x =>
        idToTensorCMaps (indexCombine (indexSplit blockSize numElements x.1 x.2.1 x.2.2)) }
  else
    { enableOutSwizzles := false,
      tensorCDataPerCopy := tensorCDataPerCopy,
      idToTensorCMaps := idToTensorCMaps }

/-! # Theorems -/

/-! ## Arithmetic of radix decomposition -/

theorem merge_length (ls : List Nat) (x : Nat) : (merge ls x).length = ls.length := by
  induction ls generalizing x with
  | nil => rfl
  | cons l ls ih => simp [merge, ih]

theorem unmerge_merge (ls : List Nat) (x : Nat) (h : ls ≠ []) : unmerge ls (merge ls x) = x := by
  induction ls generalizing x with
  | nil => exact absurd rfl h
  | cons l ls ih =>
    rcases ls with _ | ⟨l', ls'⟩
    · simp [merge, unmerge]
    · have := ih (x % (l' :: ls').prod) (by simp)
      simp only [merge, unmerge] at this ⊢
      rw [this]
      exact Nat.div_add_mod' _ _

theorem unmerge_lt (ls cs : List Nat) (h : List.Forall₂ (· < ·) cs ls) :
    unmerge ls cs < ls.prod := by
  induction h with
  | nil => simp [unmerge]
  | @cons c l cs ls hcl _ ih =>
    simp only [unmerge, List.prod_cons]
    calc c * ls.prod + unmerge ls cs < c * ls.prod + ls.prod := by omega
      _ = (c + 1) * ls.prod := by ring
      _ ≤ l * ls.prod := Nat.mul_le_mul_right _ hcl

theorem merge_unmerge (ls cs : List Nat) (h : List.Forall₂ (· < ·) cs ls) :
    merge ls (unmerge ls cs) = cs := by
  induction h with
  | nil => rfl
  | @cons c l cs ls hcl hrest ih =>
    have hlt := unmerge_lt ls cs hrest
    have hpos : 0 < ls.prod := by omega
    simp only [merge, unmerge]
    rw [Nat.add_comm, Nat.add_mul_div_right _ _ hpos, Nat.div_eq_of_lt hlt, Nat.zero_add,
      Nat.add_mul_mod_self_right, Nat.mod_eq_of_lt hlt, ih]

theorem merge_bounds (ls : List Nat) (x : Nat) (h : x < ls.prod) :
    List.Forall₂ (· < ·) (merge ls x) ls := by
  induction ls generalizing x with
  | nil => exact List.Forall₂.nil
  | cons l ls ih =>
    simp only [List.prod_cons] at h
    have hpos : 0 < ls.prod := by
      rcases Nat.eq_zero_or_pos ls.prod with h0 | h0
      · rw [h0] at h; simp at h
      · exact h0
    refine List.Forall₂.cons ?_ (ih _ (Nat.mod_lt _ hpos))
    apply Nat.div_lt_of_lt_mul
    rw [Nat.mul_comm]; exact h



theorem forall₂_lt_two {l : List Nat} {a b : Nat}
    (h : List.Forall₂ (· < ·) l [a, b]) :
    ∃ x y, l = [x, y] ∧ x < a ∧ y < b := by
  simp only [List.forall₂_cons_right_iff, List.forall₂_nil_right_iff] at h
  obtain ⟨x, _, hx, ⟨y, _, hy, rfl, rfl⟩, rfl⟩ := h
  exact ⟨x, y, rfl, hx, hy⟩


theorem forall₂_lt_three {l : List Nat} {a b c : Nat}
    (h : List.Forall₂ (· < ·) l [a, b, c]) :
    ∃ x y z, l = [x, y, z] ∧ x < a ∧ y < b ∧ z < c := by
  simp only [List.forall₂_cons_right_iff, List.forall₂_nil_right_iff] at h
  obtain ⟨x, _, hx, ⟨y, _, hy, ⟨z, _, hz, rfl, rfl⟩, rfl⟩, rfl⟩ := h
  exact ⟨x, y, z, rfl, hx, hy, hz⟩

theorem forall₂_lt_four {l : List Nat} {a b c d : Nat}
    (h : List.Forall₂ (· < ·) l [a, b, c, d]) :
    ∃ x y z w, l = [x, y, z, w] ∧ x < a ∧ y < b ∧ z < c ∧ w < d := by
  simp only [List.forall₂_cons_right_iff, List.forall₂_nil_right_iff] at h
  obtain ⟨x, _, hx, ⟨y, _, hy, ⟨z, _, hz, ⟨w, _, hw, rfl, rfl⟩, rfl⟩, rfl⟩, rfl⟩ := h
  exact ⟨x, y, z, w, rfl, hx, hy, hz, hw⟩

theorem forall₂_lt_five {l : List Nat} {a b c d e : Nat}
    (h : List.Forall₂ (· < ·) l [a, b, c, d, e]) :
    ∃ x y z w v, l = [x, y, z, w, v] ∧ x < a ∧ y < b ∧ z < c ∧ w < d ∧ v < e := by
  simp only [List.forall₂_cons_right_iff, List.forall₂_nil_right_iff] at h
  obtain ⟨x, _, hx, ⟨y, _, hy, ⟨z, _, hz, ⟨w, _, hw, ⟨v, _, hv, rfl, rfl⟩, rfl⟩, rfl⟩, rfl⟩, rfl⟩ := h
  exact ⟨x, y, z, w, v, rfl, hx, hy, hz, hw, hv⟩


/-! ## Load/store grouping (C1) -/

theorem div_mul_add_lt (a p r : Nat) (h : r < p) : (a * p + r) / p = a := by
  have hp : 0 < p := by omega
  rw [Nat.add_comm, Nat.add_mul_div_right _ _ hp, Nat.div_eq_of_lt h, Nat.zero_add]

theorem mod_mul_add_lt (a p r : Nat) (h : r < p) : (a * p + r) % p = r := by
  rw [Nat.add_comm, Nat.add_mul_mod_self_right, Nat.mod_eq_of_lt h]

theorem div_mul_mul_add (t c p r : Nat) (h : r < p) : (t * p + r) / (c * p) = t / c := by
  rw [Nat.mul_comm c p, ← Nat.div_div_eq_div_mul, div_mul_add_lt _ _ _ h]

theorem mod_mul_mul_add (t c p r : Nat) (h : r < p) :
    (t * p + r) % (c * p) = t % c * p + r := by
  rw [Nat.mul_comm c p, Nat.mod_mul, mod_mul_add_lt _ _ _ h, div_mul_add_lt _ _ _ h]
  ring

theorem mul_add_lt_mul (d p dv pv : Nat) (hd : dv < d) (hp : pv < p) : dv * p + pv < d * p := by
  calc dv * p + pv < dv * p + p := by omega
    _ = (dv + 1) * p := by ring
    _ ≤ d * p := Nat.mul_le_mul_right p hd

/-- closed form of the LDS store view -/
theorem wrapLDSBufferForStore_eq (kOuter d kpack kPerThread dPerThread tid iter : Nat) :
    wrapLDSBufferForStore [kOuter, d, kpack] kPerThread dPerThread tid iter =
      some (tid % (kOuter / (kPerThread / min kPerThread kpack) * (kpack / min kPerThread kpack))
              / (kpack / min kPerThread kpack) * (kPerThread / min kPerThread kpack)
              + iter / (dPerThread * min kPerThread kpack),
            tid / (kOuter / (kPerThread / min kPerThread kpack) * (kpack / min kPerThread kpack))
              * dPerThread + iter % (dPerThread * min kPerThread kpack) / min kPerThread kpack,
            tid % (kOuter / (kPerThread / min kPerThread kpack) * (kpack / min kPerThread kpack))
              % (kpack / min kPerThread kpack) * min kPerThread kpack
              + iter % (dPerThread * min kPerThread kpack) % min kPerThread kpack) := by
  simp [wrapLDSBufferForStore, merge, unmerge]

theorem globalVectorLayout_K (kPerThread dPerThread kpack iter : Nat) :
    globalVectorLayout kPerThread dPerThread kpack GemmDimension.K iter =
      iter % (kPerThread / min kPerThread kpack * min kPerThread kpack) / min kPerThread kpack
          * (dPerThread * min kPerThread kpack)
        + (iter / (kPerThread / min kPerThread kpack * min kPerThread kpack) * min kPerThread kpack
          + iter % (kPerThread / min kPerThread kpack * min kPerThread kpack) % min kPerThread kpack) := by
  simp [globalVectorLayout, merge, unmerge]

theorem globalVectorLayout_MorN (kPerThread dPerThread kpack iter : Nat) :
    globalVectorLayout kPerThread dPerThread kpack GemmDimension.MorN iter =
      iter / (min kPerThread kpack * dPerThread) * (dPerThread * min kPerThread kpack)
        + (iter % (min kPerThread kpack * dPerThread) % dPerThread * min kPerThread kpack
          + iter % (min kPerThread kpack * dPerThread) / dPerThread) := by
  simp [globalVectorLayout, merge, unmerge]

theorem wrapMatrixForGlobalLoad_eq (kGlobal dGlobal : Nat) (dName : String)
    (bidGridOrder : List String) (bidGridLengths : List Nat)
    (gridSize blockSize kPerBlock dPerBlock kPerThread dPerThread : Nat)
    (vectorDim : GemmDimension) (k_loop bid tid iter : Nat) (h : dName = "m" ∨ dName = "n") :
    wrapMatrixForGlobalLoad kGlobal dGlobal dName bidGridOrder bidGridLengths gridSize blockSize
        kPerBlock dPerBlock kPerThread dPerThread vectorDim k_loop bid tid iter =
      some (lookupDim bidGridOrder (merge bidGridLengths bid) "g_block",
        k_loop * (kPerBlock / kPerThread * kPerThread)
          + (tid % (kPerBlock / kPerThread) * kPerThread
            + (if vectorDim = GemmDimension.K then iter % kPerThread else iter / dPerThread)),
        lookupDim bidGridOrder (merge bidGridLengths bid)
            (if dName = "m" then "m_block" else "n_block") * (dPerBlock / dPerThread * dPerThread)
          + (tid / (kPerBlock / kPerThread) * dPerThread
            + (if vectorDim = GemmDimension.K then iter / kPerThread else iter % dPerThread))) := by
  have h1 : ¬ (dName ≠ "m" ∧ dName ≠ "n") := by
    rcases h with h | h <;> simp [h]
  unfold wrapMatrixForGlobalLoad
  rw [if_neg h1]
  cases vectorDim <;> simp [merge, unmerge]

theorem merge3_unmerge3 (d p kv dv pv : Nat) (hd : dv < d) (hp : pv < p) :
    (kv * (d * p) + (dv * p + pv)) / (d * p) = kv ∧
    (kv * (d * p) + (dv * p + pv)) % (d * p) / p = dv ∧
    (kv * (d * p) + (dv * p + pv)) % (d * p) % p = pv := by
  have hlt : dv * p + pv < d * p := mul_add_lt_mul d p dv pv hd hp
  rw [div_mul_add_lt _ _ _ hlt, mod_mul_add_lt _ _ _ hlt, div_mul_add_lt _ _ _ hp,
    mod_mul_add_lt _ _ _ hp]
  exact ⟨rfl, rfl, rfl⟩

theorem vector_digits (kPerThread dPerThread kpack : Nat) (v : GemmDimension) (i p o : Nat)
    (hp : min kPerThread kpack = p) (hop : o * p = kPerThread) (hp0 : 0 < p)
    (hi : i < kPerThread * dPerThread) :
    ∃ kv dv pv, dv < dPerThread ∧ pv < p ∧ kv < o ∧
      globalVectorLayout kPerThread dPerThread kpack v i = kv * (dPerThread * p) + (dv * p + pv) ∧
      (if v = GemmDimension.K then i % kPerThread else i / dPerThread) = kv * p + pv ∧
      (if v = GemmDimension.K then i / kPerThread else i % dPerThread) = dv := by
  have ho : kPerThread / p = o := by rw [← hop, Nat.mul_div_cancel _ hp0]
  have hd0 : 0 < dPerThread := by
    rcases Nat.eq_zero_or_pos dPerThread with h | h
    · subst h; simp at hi
    · exact h
  cases v
  · refine ⟨i % kPerThread / p, i / kPerThread, i % kPerThread % p, ?_, Nat.mod_lt _ hp0, ?_, ?_, ?_, ?_⟩
    · exact Nat.div_lt_of_lt_mul hi
    · apply Nat.div_lt_of_lt_mul
      rw [Nat.mul_comm, hop]
      exact Nat.mod_lt _ (by rw [← hop]; exact Nat.mul_pos (Nat.pos_of_ne_zero (by rintro rfl; simp at hop; omega)) hp0)
    · rw [globalVectorLayout_K, hp, ho, hop]
    · simp only [if_true]
      exact (Nat.div_add_mod' _ _).symm
    · simp
  · refine ⟨i / (p * dPerThread), i % dPerThread, i % (p * dPerThread) / dPerThread, Nat.mod_lt _ hd0, ?_, ?_, ?_, ?_, ?_⟩
    · apply Nat.div_lt_of_lt_mul
      rw [Nat.mul_comm dPerThread p]
      exact Nat.mod_lt _ (Nat.mul_pos hp0 hd0)
    · apply Nat.div_lt_of_lt_mul
      have hprod : p * dPerThread * o = kPerThread * dPerThread := by rw [← hop]; ring
      rw [hprod]
      exact hi
    · rw [globalVectorLayout_MorN, hp, Nat.mod_mul_left_mod]
    · simp only [reduceCtorEq, if_false]
      rw [Nat.mod_mul_left_div_self, Nat.mul_comm p dPerThread, ← Nat.div_div_eq_div_mul]
      exact (Nat.div_add_mod' _ _).symm
    · simp

/-- store of a vector slot, written with the thread grid `B x C` and the per-thread
shape `o x dPerThread x p` -/
theorem lds_store_slot (B C o p D dPerThread tid kv dv pv : Nat)
    (hmin : min (o * p) (C * p) = p) (hp0 : 0 < p) (ho0 : 0 < o) (hC0 : 0 < C)
    (hd : dv < dPerThread) (hp : pv < p) :
    wrapLDSBufferForStore [B * o, D, C * p] (o * p) dPerThread tid
        (kv * (dPerThread * p) + (dv * p + pv)) =
      some (tid % (B * C) / C * o + kv, tid / (B * C) * dPerThread + dv,
        tid % (B * C) % C * p + pv) := by
  obtain ⟨h1, h2, h3⟩ := merge3_unmerge3 dPerThread p kv dv pv hd hp
  rw [wrapLDSBufferForStore_eq, hmin, Nat.mul_div_cancel _ hp0, Nat.mul_div_cancel _ hp0,
    Nat.mul_div_cancel _ ho0, h1, h2, h3]

/-- Claim C1 (load/store grouping consistency).  For `kpack >= 1`,
`kPerBlock = kpacksPerBlock * kpack`, a per-thread shape with
`kPerThread * dPerThread = kPerBlock * dPerBlock / blockSize`, `kPerThread` dividing
`kPerBlock`, `dPerThread` dividing `dPerBlock`, `kpack` dividing `kPerThread` or the
other way round, for both vectorization axes and both operands, and for every
`tid < blockSize` and load iteration `i < kPerThread * dPerThread`: the global-load view
sends `(k_loop, bid, tid, i)` to some `(g, k, d)` inside the block's tile
(`k_loop * kPerBlock <= k`, block offset `<= d`), and every store iteration `r` whose
vector slot (`ldsVectorLayout`) is the slot `globalVectorLayout` gives to `i` is sent by
the LDS-store view, for the same `tid`, to `(k' / kpack, d', k' % kpack)`, where
`k' = k - k_loop * kPerBlock` and `d'` is `d` minus the block's offset: a thread stores
each value it loaded at the LDS position of the same logical element. -/
theorem C1_load_store_grouping
    (kpack kpacksPerBlock dPerBlock blockSize kPerThread dPerThread : Nat)
    (kGlobal dGlobal gridSize : Nat) (dName : String)
    (bidGridOrder : List String) (bidGridLengths : List Nat) (vectorDim : GemmDimension)
    (k_loop bid tid i : Nat)
    (hkpack : 1 ≤ kpack)
    (hname : dName = "m" ∨ dName = "n")
    (hquota : kPerThread * dPerThread = kpacksPerBlock * kpack * dPerBlock / blockSize)
    (hk : kPerThread ∣ kpacksPerBlock * kpack)
    (hd : dPerThread ∣ dPerBlock)
    (hkp : kpack ∣ kPerThread ∨ kPerThread ∣ kpack)
    (htid : tid < blockSize)
    (hi : i < kPerThread * dPerThread) :
    ∃ g k d,
      wrapMatrixForGlobalLoad kGlobal dGlobal dName bidGridOrder bidGridLengths gridSize
          blockSize (kpacksPerBlock * kpack) dPerBlock kPerThread dPerThread vectorDim
          k_loop bid tid i = some (g, k, d) ∧
      k_loop * (kpacksPerBlock * kpack) ≤ k ∧
      lookupDim bidGridOrder (merge bidGridLengths bid)
          (if dName = "m" then "m_block" else "n_block") * dPerBlock ≤ d ∧
      ∀ r, ldsVectorLayout (kPerThread * dPerThread) tid r
            = globalVectorLayout kPerThread dPerThread kpack vectorDim i →
        wrapLDSBufferForStore [kpacksPerBlock, dPerBlock, kpack] kPerThread dPerThread tid r =
          some ((k - k_loop * (kpacksPerBlock * kpack)) / kpack,
            d - lookupDim bidGridOrder (merge bidGridLengths bid)
                  (if dName = "m" then "m_block" else "n_block") * dPerBlock,
            (k - k_loop * (kpacksPerBlock * kpack)) % kpack) := by
  have hkPT0 : 0 < kPerThread := by
    rcases Nat.eq_zero_or_pos kPerThread with h | h
    · subst h; simp at hi
    · exact h
  rw [wrapMatrixForGlobalLoad_eq _ _ _ _ _ _ _ _ _ _ _ _ _ _ _ _ hname,
    Nat.div_mul_cancel hk, Nat.div_mul_cancel hd]
  refine ⟨_, _, _, rfl, Nat.le_add_right _ _, Nat.le_add_right _ _, ?_⟩
  intro r hr
  rw [Nat.add_sub_cancel_left, Nat.add_sub_cancel_left]
  unfold ldsVectorLayout at hr
  subst hr
  rcases hkp with ⟨o, ho⟩ | ⟨C, hC⟩
  · -- kpack divides kPerThread: each thread owns whole kpack groups
    have ho0 : 0 < o := by
      rcases Nat.eq_zero_or_pos o with h | h
      · subst h; simp at ho; omega
      · exact h
    have hop : o * kpack = kPerThread := by rw [ho, Nat.mul_comm]
    have hmin : min kPerThread kpack = kpack := by
      apply Nat.min_eq_right
      rw [ho]; exact Nat.le_mul_of_pos_right _ ho0
    obtain ⟨B, hB⟩ : o ∣ kpacksPerBlock := by
      apply Nat.dvd_of_mul_dvd_mul_right hkpack
      rw [hop]; exact hk
    obtain ⟨kv, dv, pv, hdv, hpv, hkv, hvec, hkit, hdit⟩ :=
      vector_digits kPerThread dPerThread kpack vectorDim i kpack o hmin hop hkpack hi
    have hT : kpacksPerBlock * kpack / kPerThread = B := by
      rw [hB, ← hop]
      rw [show o * B * kpack = B * (o * kpack) by ring]
      exact Nat.mul_div_cancel _ (Nat.mul_pos ho0 hkpack)
    have hstore := lds_store_slot B 1 o kpack dPerBlock dPerThread tid kv dv pv
      (by rw [Nat.one_mul, hop]; exact hmin) hkpack ho0 Nat.one_pos hdv hpv
    rw [hvec, hkit, hdit, hT]
    rw [Nat.one_mul, hop, Nat.mul_comm B o, ← hB] at hstore
    rw [hstore]
    simp only [Nat.mul_one, Nat.div_one, Nat.mod_one, Nat.zero_mul, Nat.zero_add]
    have e1 : tid % B * kPerThread + (kv * kpack + pv) = (tid % B * o + kv) * kpack + pv := by
      rw [← hop]; ring
    rw [e1, div_mul_add_lt _ _ _ hpv, mod_mul_add_lt _ _ _ hpv]
  · -- kPerThread divides kpack: several threads share one kpack group
    have hC0 : 0 < C := by
      rcases Nat.eq_zero_or_pos C with h | h
      · subst h; simp at hC; omega
      · exact h
    have hCp : C * kPerThread = kpack := by rw [hC, Nat.mul_comm]
    have hmin : min kPerThread kpack = kPerThread := by
      apply Nat.min_eq_left
      rw [hC]; exact Nat.le_mul_of_pos_right _ hC0
    obtain ⟨kv, dv, pv, hdv, hpv, hkv, hvec, hkit, hdit⟩ :=
      vector_digits kPerThread dPerThread kpack vectorDim i kPerThread 1 hmin (Nat.one_mul _)
        hkPT0 hi
    have hkv0 : kv = 0 := by omega
    subst hkv0
    have hT : kpacksPerBlock * kpack / kPerThread = kpacksPerBlock * C := by
      rw [← hCp, ← Nat.mul_assoc]
      exact Nat.mul_div_cancel _ hkPT0
    have hstore := lds_store_slot kpacksPerBlock C 1 kPerThread dPerBlock dPerThread tid 0 dv pv
      (by rw [Nat.one_mul, hCp]; exact hmin) hkPT0 Nat.one_pos hC0 hdv hpv
    rw [hvec, hkit, hdit, hT]
    rw [Nat.one_mul, hCp, Nat.mul_one] at hstore
    rw [hstore]
    simp only [Nat.mul_one, Nat.zero_mul, Nat.zero_add, Nat.add_zero]
    rw [← hCp, div_mul_mul_add _ _ _ _ hpv, mod_mul_mul_add _ _ _ _ hpv]

/-! ## Generic write-back (C2) -/

/-- Every in-range `(bid, tid, iter)` splits into in-range digits, from which it is
recovered by `unmerge`. -/
theorem splitMemoryCoords_spec (G M N : Nat) (p : GeneralGemmParams)
    (s : GeneralGemmBlockStructure) (bid tid iter : Nat)
    (hb : bid < G * (M / p.mPerBlock) * (N / p.nPerBlock))
    (ht : tid < s.mCuwavesPerBlock * s.nCuwavesPerBlock * s.mThreadsPerCuwave
      * s.nThreadsPerCuwave)
    (hi : iter < threadCNumRegisters p s) :
    ∃ c : SplitMemoryCoords, splitMemoryCoords G M N p s bid tid iter = c ∧
      c.g < G ∧ c.m_block < M / p.mPerBlock ∧ c.n_block < N / p.nPerBlock ∧
      c.m_cuwaves < s.mCuwavesPerBlock ∧ c.n_cuwaves < s.nCuwavesPerBlock ∧
      c.m_cuwave < s.mThreadsPerCuwave ∧ c.n_cuwave < s.nThreadsPerCuwave ∧
      c.m_repeat < gemmMRepeat p s ∧ c.m_thread < p.mPerThread ∧
      c.n_repeat < gemmNRepeat p s ∧ c.n_thread < p.nPerThread ∧
      unmerge [G, M / p.mPerBlock, N / p.nPerBlock] [c.g, c.m_block, c.n_block] = bid ∧
      unmerge [s.mCuwavesPerBlock, s.nCuwavesPerBlock, s.mThreadsPerCuwave,
          s.nThreadsPerCuwave] [c.m_cuwaves, c.n_cuwaves, c.m_cuwave, c.n_cuwave] = tid ∧
      unmerge [gemmMRepeat p s, p.mPerThread, gemmNRepeat p s, p.nPerThread]
          [c.m_repeat, c.m_thread, c.n_repeat, c.n_thread] = iter := by
  have Hb := merge_bounds [G, M / p.mPerBlock, N / p.nPerBlock] bid
    (by simp only [List.prod_cons, List.prod_nil, Nat.mul_one]; rw [← Nat.mul_assoc]; exact hb)
  have Ht := merge_bounds [s.mCuwavesPerBlock, s.nCuwavesPerBlock, s.mThreadsPerCuwave,
    s.nThreadsPerCuwave] tid
    (by simp only [List.prod_cons, List.prod_nil, Nat.mul_one]
        rw [← Nat.mul_assoc, ← Nat.mul_assoc]; exact ht)
  have Hi := merge_bounds [gemmMRepeat p s, p.mPerThread, gemmNRepeat p s, p.nPerThread] iter
    (by simp only [List.prod_cons, List.prod_nil, Nat.mul_one]
        unfold threadCNumRegisters at hi
        rw [← Nat.mul_assoc]; exact hi)
  have Ub := unmerge_merge [G, M / p.mPerBlock, N / p.nPerBlock] bid (by simp)
  have Ut := unmerge_merge [s.mCuwavesPerBlock, s.nCuwavesPerBlock, s.mThreadsPerCuwave,
    s.nThreadsPerCuwave] tid (by simp)
  have Ui := unmerge_merge [gemmMRepeat p s, p.mPerThread, gemmNRepeat p s, p.nPerThread]
    iter (by simp)
  obtain ⟨b0, b1, b2, eb, hb0, hb1, hb2⟩ := forall₂_lt_three Hb
  obtain ⟨t0, t1, t2, t3, et, ht0, ht1, ht2, ht3⟩ := forall₂_lt_four Ht
  obtain ⟨i0, i1, i2, i3, ei, hi0, hi1, hi2, hi3⟩ := forall₂_lt_four Hi
  rw [eb] at Ub
  rw [et] at Ut
  rw [ei] at Ui
  refine ⟨⟨b0, b1, b2, t0, t1, t2, t3, i0, i1, i2, i3⟩, ?_, hb0, hb1, hb2, ht0, ht1, ht2, ht3,
    hi0, hi1, hi2, hi3, Ub, Ut, Ui⟩
  simp only [splitMemoryCoords, eb, et, ei]
  rfl


/-- Claim C2 (the generic write-back is a bijection onto the output).  With
`mPerBlock | M`, `nPerBlock | N`, `gridSize = G * (M / mPerBlock) * (N / nPerBlock)`,
`blockSize` the product of the four block-structure extents, and `mPerBlock`,
`nPerBlock` the products of repeat count, cu-waves, threads per cu-wave and per-thread
extent, the composed map `splitMemoryCoords` then `toMatrixC` is a bijection from
`[0, gridSize) x [0, blockSize) x [0, threadCNumRegisters)` onto
`[0, G) x [0, M) x [0, N)`: it maps into the output, is injective, and reaches every
output element. -/
theorem C2_writeback_bijective (G M N gridSize : Nat) (p : GeneralGemmParams)
    (s : GeneralGemmBlockStructure)
    (hM : p.mPerBlock ∣ M) (hN : p.nPerBlock ∣ N)
    (hgrid : gridSize = G * (M / p.mPerBlock) * (N / p.nPerBlock))
    (hblock : p.blockSize = s.mCuwavesPerBlock * s.nCuwavesPerBlock * s.mThreadsPerCuwave
      * s.nThreadsPerCuwave)
    (hmpb : p.mPerBlock = gemmMRepeat p s * s.mCuwavesPerBlock * s.mThreadsPerCuwave
      * p.mPerThread)
    (hnpb : p.nPerBlock = gemmNRepeat p s * s.nCuwavesPerBlock * s.nThreadsPerCuwave
      * p.nPerThread) :
    Set.BijOn (idToMatrixC G M N p s)
      {x | x.1 < gridSize ∧ x.2.1 < p.blockSize ∧ x.2.2 < threadCNumRegisters p s}
      {y | y.1 < G ∧ y.2.1 < M ∧ y.2.2 < N} := by
  have prodM : [M / p.mPerBlock, gemmMRepeat p s, s.mCuwavesPerBlock, s.mThreadsPerCuwave,
      p.mPerThread].prod = M := by
    simp only [List.prod_cons, List.prod_nil, Nat.mul_one]
    rw [← Nat.mul_assoc (gemmMRepeat p s), ← Nat.mul_assoc (gemmMRepeat p s * _), ← hmpb]
    exact Nat.div_mul_cancel hM
  have prodN : [N / p.nPerBlock, gemmNRepeat p s, s.nCuwavesPerBlock, s.nThreadsPerCuwave,
      p.nPerThread].prod = N := by
    simp only [List.prod_cons, List.prod_nil, Nat.mul_one]
    rw [← Nat.mul_assoc (gemmNRepeat p s), ← Nat.mul_assoc (gemmNRepeat p s * _), ← hnpb]
    exact Nat.div_mul_cancel hN
  subst hgrid
  rw [hblock]
  refine ⟨?_, ?_, ?_⟩
  · -- the image lies in the output
    rintro ⟨bid, tid, iter⟩ ⟨hb, ht, hi⟩
    obtain ⟨c, hc, h0, h1, h2, h3, h4, h5, h6, h7, h8, h9, h10, -, -, -⟩ :=
      splitMemoryCoords_spec G M N p s bid tid iter hb ht hi
    have hm := unmerge_lt _ _ (show List.Forall₂ (· < ·)
      [c.m_block, c.m_repeat, c.m_cuwaves, c.m_cuwave, c.m_thread]
      [M / p.mPerBlock, gemmMRepeat p s, s.mCuwavesPerBlock, s.mThreadsPerCuwave, p.mPerThread]
      by simp [h1, h7, h3, h5, h8])
    have hn := unmerge_lt _ _ (show List.Forall₂ (· < ·)
      [c.n_block, c.n_repeat, c.n_cuwaves, c.n_cuwave, c.n_thread]
      [N / p.nPerBlock, gemmNRepeat p s, s.nCuwavesPerBlock, s.nThreadsPerCuwave, p.nPerThread]
      by simp [h2, h9, h4, h6, h10])
    rw [prodM] at hm
    rw [prodN] at hn
    simp only [Set.mem_setOf_eq, idToMatrixC, hc, toMatrixC]
    exact ⟨h0, hm, hn⟩
  · -- distinct triples write distinct elements
    rintro ⟨bid, tid, iter⟩ ⟨hb, ht, hi⟩ ⟨bid', tid', iter'⟩ ⟨hb', ht', hi'⟩ heq
    obtain ⟨c, hc, h0, h1, h2, h3, h4, h5, h6, h7, h8, h9, h10, ub, ut, ui⟩ :=
      splitMemoryCoords_spec G M N p s bid tid iter hb ht hi
    obtain ⟨c', hc', h0', h1', h2', h3', h4', h5', h6', h7', h8', h9', h10', ub', ut', ui'⟩ :=
      splitMemoryCoords_spec G M N p s bid' tid' iter' hb' ht' hi'
    simp only [idToMatrixC, hc, hc', toMatrixC, Prod.mk.injEq] at heq
    obtain ⟨eg, em, en⟩ := heq
    have dm := merge_unmerge _ _ (show List.Forall₂ (· < ·)
      [c.m_block, c.m_repeat, c.m_cuwaves, c.m_cuwave, c.m_thread]
      [M / p.mPerBlock, gemmMRepeat p s, s.mCuwavesPerBlock, s.mThreadsPerCuwave, p.mPerThread]
      by simp [h1, h7, h3, h5, h8])
    have dm' := merge_unmerge _ _ (show List.Forall₂ (· < ·)
      [c'.m_block, c'.m_repeat, c'.m_cuwaves, c'.m_cuwave, c'.m_thread]
      [M / p.mPerBlock, gemmMRepeat p s, s.mCuwavesPerBlock, s.mThreadsPerCuwave, p.mPerThread]
      by simp [h1', h7', h3', h5', h8'])
    have dn := merge_unmerge _ _ (show List.Forall₂ (· < ·)
      [c.n_block, c.n_repeat, c.n_cuwaves, c.n_cuwave, c.n_thread]
      [N / p.nPerBlock, gemmNRepeat p s, s.nCuwavesPerBlock, s.nThreadsPerCuwave, p.nPerThread]
      by simp [h2, h9, h4, h6, h10])
    have dn' := merge_unmerge _ _ (show List.Forall₂ (· < ·)
      [c'.n_block, c'.n_repeat, c'.n_cuwaves, c'.n_cuwave, c'.n_thread]
      [N / p.nPerBlock, gemmNRepeat p s, s.nCuwavesPerBlock, s.nThreadsPerCuwave, p.nPerThread]
      by simp [h2', h9', h4', h6', h10'])
    rw [em, dm'] at dm
    rw [en, dn'] at dn
    simp only [List.cons.injEq, and_true] at dm dn
    obtain ⟨m1, m2, m3, m4, m5⟩ := dm
    obtain ⟨n1, n2, n3, n4, n5⟩ := dn
    rw [← ub, ← ut, ← ui, ← ub', ← ut', ← ui', eg, m1, m2, m3, m4, m5, n1, n2, n3, n4, n5]
  · -- every output element is written
    rintro ⟨g, m, n⟩ ⟨hg, hm, hn⟩
    simp only at hg hm hn
    rw [← prodM] at hm
    rw [← prodN] at hn
    have Um := unmerge_merge [M / p.mPerBlock, gemmMRepeat p s, s.mCuwavesPerBlock,
      s.mThreadsPerCuwave, p.mPerThread] m (by simp)
    have Un := unmerge_merge [N / p.nPerBlock, gemmNRepeat p s, s.nCuwavesPerBlock,
      s.nThreadsPerCuwave, p.nPerThread] n (by simp)
    obtain ⟨m0, m1, m2, m3, m4, em, hm0, hm1, hm2, hm3, hm4⟩ :=
      forall₂_lt_five (merge_bounds _ _ hm)
    obtain ⟨n0, n1, n2, n3, n4, en, hn0, hn1, hn2, hn3, hn4⟩ :=
      forall₂_lt_five (merge_bounds _ _ hn)
    rw [em] at Um
    rw [en] at Un
    have Fb : List.Forall₂ (· < ·) [g, m0, n0] [G, M / p.mPerBlock, N / p.nPerBlock] := by
      simp [hg, hm0, hn0]
    have Ft : List.Forall₂ (· < ·) [m2, n2, m3, n3] [s.mCuwavesPerBlock, s.nCuwavesPerBlock,
        s.mThreadsPerCuwave, s.nThreadsPerCuwave] := by
      simp [hm2, hn2, hm3, hn3]
    have Fi : List.Forall₂ (· < ·) [m1, m4, n1, n4]
        [gemmMRepeat p s, p.mPerThread, gemmNRepeat p s, p.nPerThread] := by
      simp [hm1, hm4, hn1, hn4]
    refine ⟨(unmerge [G, M / p.mPerBlock, N / p.nPerBlock] [g, m0, n0],
      unmerge [s.mCuwavesPerBlock, s.nCuwavesPerBlock, s.mThreadsPerCuwave,
        s.nThreadsPerCuwave] [m2, n2, m3, n3],
      unmerge [gemmMRepeat p s, p.mPerThread, gemmNRepeat p s, p.nPerThread]
        [m1, m4, n1, n4]), ⟨?_, ?_, ?_⟩, ?_⟩
    · have := unmerge_lt _ _ Fb
      simp only [List.prod_cons, List.prod_nil, Nat.mul_one] at this
      rw [← Nat.mul_assoc] at this
      exact this
    · have := unmerge_lt _ _ Ft
      simp only [List.prod_cons, List.prod_nil, Nat.mul_one] at this
      rw [← Nat.mul_assoc, ← Nat.mul_assoc] at this
      exact this
    · have := unmerge_lt _ _ Fi
      simp only [List.prod_cons, List.prod_nil, Nat.mul_one] at this
      rw [← Nat.mul_assoc] at this
      exact this
    · simp only [idToMatrixC, splitMemoryCoords, merge_unmerge _ _ Fb, merge_unmerge _ _ Ft,
        merge_unmerge _ _ Fi, toMatrixC, List.getD_cons_zero, List.getD_cons_succ, Um, Un]

/-! ## LDS store view (C3) -/

/-- Every in-range `(tid, iter)` of the LDS store view splits into in-range digits. -/
theorem wrapLDSBufferForStore_spec (kOuter D kpack kPerThread dPerThread tid iter : Nat)
    (ht : tid < D / dPerThread * (kOuter / (kPerThread / min kPerThread kpack))
      * (kpack / min kPerThread kpack))
    (hi : iter < kPerThread / min kPerThread kpack * dPerThread * min kPerThread kpack) :
    ∃ dt kt pt ki di pi, dt < D / dPerThread ∧
      kt < kOuter / (kPerThread / min kPerThread kpack) ∧ pt < kpack / min kPerThread kpack ∧
      ki < kPerThread / min kPerThread kpack ∧ di < dPerThread ∧ pi < min kPerThread kpack ∧
      wrapLDSBufferForStore [kOuter, D, kpack] kPerThread dPerThread tid iter =
        some (unmerge [kOuter / (kPerThread / min kPerThread kpack),
                kPerThread / min kPerThread kpack] [kt, ki],
              unmerge [D / dPerThread, dPerThread] [dt, di],
              unmerge [kpack / min kPerThread kpack, min kPerThread kpack] [pt, pi]) ∧
      unmerge [D / dPerThread, kOuter / (kPerThread / min kPerThread kpack),
          kpack / min kPerThread kpack] [dt, kt, pt] = tid ∧
      unmerge [kPerThread / min kPerThread kpack, dPerThread, min kPerThread kpack]
          [ki, di, pi] = iter := by
  have Ht := merge_bounds [D / dPerThread, kOuter / (kPerThread / min kPerThread kpack),
    kpack / min kPerThread kpack] tid
    (by simp only [List.prod_cons, List.prod_nil, Nat.mul_one]; rw [← Nat.mul_assoc]; exact ht)
  have Hi := merge_bounds [kPerThread / min kPerThread kpack, dPerThread,
    min kPerThread kpack] iter
    (by simp only [List.prod_cons, List.prod_nil, Nat.mul_one]; rw [← Nat.mul_assoc]; exact hi)
  have Ut := unmerge_merge [D / dPerThread, kOuter / (kPerThread / min kPerThread kpack),
    kpack / min kPerThread kpack] tid (by simp)
  have Ui := unmerge_merge [kPerThread / min kPerThread kpack, dPerThread,
    min kPerThread kpack] iter (by simp)
  obtain ⟨dt, kt, pt, et, h0, h1, h2⟩ := forall₂_lt_three Ht
  obtain ⟨ki, di, pi, ei, h3, h4, h5⟩ := forall₂_lt_three Hi
  rw [et] at Ut
  rw [ei] at Ui
  refine ⟨dt, kt, pt, ki, di, pi, h0, h1, h2, h3, h4, h5, ?_, Ut, Ui⟩
  simp only [wrapLDSBufferForStore, et, ei]
  rfl


theorem unmerge_two_inj (a b x y x' y' : Nat) (hx : x < a) (hy : y < b) (hx' : x' < a)
    (hy' : y' < b) (h : unmerge [a, b] [x, y] = unmerge [a, b] [x', y']) : x = x' ∧ y = y' := by
  have d := merge_unmerge [a, b] [x, y] (by simp [hx, hy])
  have d' := merge_unmerge [a, b] [x', y'] (by simp [hx', hy'])
  rw [h, d'] at d
  simp only [List.cons.injEq, and_true] at d
  exact ⟨d.1.symm, d.2.symm⟩

theorem unmerge_two_surj (a b n : Nat) (h : n < a * b) :
    ∃ x y, x < a ∧ y < b ∧ unmerge [a, b] [x, y] = n := by
  have U := unmerge_merge [a, b] n (by simp)
  obtain ⟨x, y, e, hx, hy⟩ := forall₂_lt_two (merge_bounds [a, b] n (by simpa using h))
  rw [e] at U
  exact ⟨x, y, hx, hy, U⟩

theorem unmerge_two_lt (a b x y : Nat) (hx : x < a) (hy : y < b) :
    unmerge [a, b] [x, y] < a * b := by
  have := unmerge_lt [a, b] [x, y] (by simp [hx, hy])
  simpa using this

/-- Claim C3 (the shared-store view covers the staging tile exactly once).  For an LDS
buffer `kOuter x D x kpack` and a per-thread shape with `dPerThread | D`,
`kpackPerThread = min kPerThread kpack` dividing `kPerThread` and `kpack`, and
`kPerThread / kpackPerThread` dividing `kOuter`, the view of `wrapLDSBufferForStore`
is a bijection from the pairs `(tid, iter)` with
`tid < (D / dPerThread) * (kOuter / kOuterPerThread) * (kpack / kpackPerThread)` and
`iter < kPerThread * dPerThread` onto the coordinates `(k_outer, d, kpack)` of
`[0, kOuter) x [0, D) x [0, kpack)` (on these pairs the view does not fail). -/
theorem C3_lds_store_bijective (kOuter D kpack kPerThread dPerThread : Nat)
    (hd : dPerThread ∣ D)
    (hp1 : min kPerThread kpack ∣ kPerThread) (hp2 : min kPerThread kpack ∣ kpack)
    (ho : kPerThread / min kPerThread kpack ∣ kOuter) :
    Set.BijOn
      (fun x : Nat × Nat => wrapLDSBufferForStore [kOuter, D, kpack] kPerThread dPerThread x.1 x.2)
      {x | x.1 < D / dPerThread * (kOuter / (kPerThread / min kPerThread kpack))
              * (kpack / min kPerThread kpack) ∧
           x.2 < kPerThread * dPerThread}
      (Set.image some {y : Nat × Nat × Nat | y.1 < kOuter ∧ y.2.1 < D ∧ y.2.2 < kpack}) := by
  have eK : kOuter / (kPerThread / min kPerThread kpack) * (kPerThread / min kPerThread kpack)
      = kOuter := Nat.div_mul_cancel ho
  have eD : D / dPerThread * dPerThread = D := Nat.div_mul_cancel hd
  have eP : kpack / min kPerThread kpack * min kPerThread kpack = kpack :=
    Nat.div_mul_cancel hp2
  have eI : kPerThread / min kPerThread kpack * dPerThread * min kPerThread kpack
      = kPerThread * dPerThread := by
    rw [Nat.mul_assoc, Nat.mul_comm dPerThread, ← Nat.mul_assoc, Nat.div_mul_cancel hp1]
  refine ⟨?_, ?_, ?_⟩
  · rintro ⟨tid, iter⟩ ⟨ht, hi⟩
    rw [← eI] at hi
    obtain ⟨dt, kt, pt, ki, di, pi, h0, h1, h2, h3, h4, h5, hw, -, -⟩ :=
      wrapLDSBufferForStore_spec kOuter D kpack kPerThread dPerThread tid iter ht hi
    refine ⟨_, ⟨?_, ?_, ?_⟩, hw.symm⟩
    · have := unmerge_two_lt _ _ _ _ h1 h3
      rw [eK] at this; exact this
    · have := unmerge_two_lt _ _ _ _ h0 h4
      rw [eD] at this; exact this
    · have := unmerge_two_lt _ _ _ _ h2 h5
      rw [eP] at this; exact this
  · rintro ⟨tid, iter⟩ ⟨ht, hi⟩ ⟨tid', iter'⟩ ⟨ht', hi'⟩ heq
    rw [← eI] at hi hi'
    obtain ⟨dt, kt, pt, ki, di, pi, h0, h1, h2, h3, h4, h5, hw, ut, ui⟩ :=
      wrapLDSBufferForStore_spec kOuter D kpack kPerThread dPerThread tid iter ht hi
    obtain ⟨dt', kt', pt', ki', di', pi', h0', h1', h2', h3', h4', h5', hw', ut', ui'⟩ :=
      wrapLDSBufferForStore_spec kOuter D kpack kPerThread dPerThread tid' iter' ht' hi'
    simp only [hw, hw', Option.some.injEq, Prod.mk.injEq] at heq
    obtain ⟨e1, e2, e3⟩ := heq
    obtain ⟨a1, a2⟩ := unmerge_two_inj _ _ _ _ _ _ h1 h3 h1' h3' e1
    obtain ⟨b1, b2⟩ := unmerge_two_inj _ _ _ _ _ _ h0 h4 h0' h4' e2
    obtain ⟨c1, c2⟩ := unmerge_two_inj _ _ _ _ _ _ h2 h5 h2' h5' e3
    rw [← ut, ← ui, ← ut', ← ui', a1, a2, b1, b2, c1, c2]
  · rintro _ ⟨⟨k, d, q⟩, ⟨hk, hdd, hq⟩, rfl⟩
    simp only at hk hdd hq
    rw [← eK] at hk
    rw [← eD] at hdd
    rw [← eP] at hq
    obtain ⟨kt, ki, hkt, hki, ek⟩ := unmerge_two_surj _ _ _ hk
    obtain ⟨dt, di, hdt, hdi, ed⟩ := unmerge_two_surj _ _ _ hdd
    obtain ⟨pt, pi, hpt, hpi, ep⟩ := unmerge_two_surj _ _ _ hq
    have Ft : List.Forall₂ (· < ·) [dt, kt, pt] [D / dPerThread,
        kOuter / (kPerThread / min kPerThread kpack), kpack / min kPerThread kpack] := by
      simp [hdt, hkt, hpt]
    have Fi : List.Forall₂ (· < ·) [ki, di, pi] [kPerThread / min kPerThread kpack, dPerThread,
        min kPerThread kpack] := by
      simp [hki, hdi, hpi]
    refine ⟨(unmerge [D / dPerThread, kOuter / (kPerThread / min kPerThread kpack),
        kpack / min kPerThread kpack] [dt, kt, pt],
      unmerge [kPerThread / min kPerThread kpack, dPerThread, min kPerThread kpack]
        [ki, di, pi]), ⟨?_, ?_⟩, ?_⟩
    · have := unmerge_lt _ _ Ft
      simp only [List.prod_cons, List.prod_nil, Nat.mul_one] at this
      rw [← Nat.mul_assoc] at this
      exact this
    · have := unmerge_lt _ _ Fi
      simp only [List.prod_cons, List.prod_nil, Nat.mul_one] at this
      rw [← Nat.mul_assoc, eI] at this
      exact this
    · simp only [wrapLDSBufferForStore, merge_unmerge _ _ Ft, merge_unmerge _ _ Fi,
        List.getD_cons_zero, List.getD_cons_succ, ek, ed, ep]

/-! ## The software pipeline: lemmas -/

theorem affineForIvs_one (n : Nat) : affineForIvs 1 n 1 = List.range' 1 (n - 1) := by
  simp [affineForIvs]

/-- the pipeline when the loop is kept -/
theorem emitPipeline_loop (v : Variant) (K kPerBlock : Nat) (h : ¬ K / kPerBlock ≤ 1) :
    emitPipeline v K kPerBlock =
      [Stmt.op (Op.globalLoad Operand.A KLoop.zero), Stmt.op (Op.globalLoad Operand.B KLoop.zero),
       Stmt.op (Op.ldsStore Operand.A KLoop.zero), Stmt.op (Op.ldsStore Operand.B KLoop.zero),
       Stmt.affineFor 1 (K / kPerBlock) 1
        [Op.globalLoad Operand.A KLoop.iv, Op.globalLoad Operand.B KLoop.iv, Op.ldsBarrier,
         Op.blockwiseGemm v, Op.ldsBarrier,
         Op.ldsStore Operand.A KLoop.iv, Op.ldsStore Operand.B KLoop.iv],
       Stmt.op Op.ldsBarrier, Stmt.op (Op.blockwiseGemm v)] := by
  simp [emitPipeline, h]

/-- the pipeline when the loop is erased -/
theorem emitPipeline_erased (v : Variant) (K kPerBlock : Nat) (h : K / kPerBlock ≤ 1) :
    emitPipeline v K kPerBlock =
      [Stmt.op (Op.globalLoad Operand.A KLoop.zero), Stmt.op (Op.globalLoad Operand.B KLoop.zero),
       Stmt.op (Op.ldsStore Operand.A KLoop.zero), Stmt.op (Op.ldsStore Operand.B KLoop.zero),
       Stmt.op Op.ldsBarrier, Stmt.op (Op.blockwiseGemm v)] := by
  simp [emitPipeline, h]

theorem steadyIvs_emitPipeline (v : Variant) (K kPerBlock : Nat) :
    steadyIvs (emitPipeline v K kPerBlock) = List.range' 1 (K / kPerBlock - 1) := by
  by_cases h : K / kPerBlock ≤ 1
  · rw [emitPipeline_erased v K kPerBlock h]
    have : K / kPerBlock - 1 = 0 := by omega
    simp [steadyIvs, this]
  · rw [emitPipeline_loop v K kPerBlock h]
    simp [steadyIvs, affineForIvs_one]

/-- the executed operations of the pipeline -/
theorem unroll_emitPipeline (v : Variant) (K kPerBlock : Nat) :
    unroll (emitPipeline v K kPerBlock) =
      [(none, Op.globalLoad Operand.A KLoop.zero), (none, Op.globalLoad Operand.B KLoop.zero),
       (none, Op.ldsStore Operand.A KLoop.zero), (none, Op.ldsStore Operand.B KLoop.zero)]
      ++ (List.range' 1 (K / kPerBlock - 1)).flatMap (fun i =>
          [Op.globalLoad Operand.A KLoop.iv, Op.globalLoad Operand.B KLoop.iv, Op.ldsBarrier,
           Op.blockwiseGemm v, Op.ldsBarrier,
           Op.ldsStore Operand.A KLoop.iv, Op.ldsStore Operand.B KLoop.iv].map
            (fun o => (some i, o)))
      ++ [(none, Op.ldsBarrier), (none, Op.blockwiseGemm v)] := by
  by_cases h : K / kPerBlock ≤ 1
  · rw [emitPipeline_erased v K kPerBlock h]
    have : K / kPerBlock - 1 = 0 := by omega
    simp [unroll, this]
  · rw [emitPipeline_loop v K kPerBlock h]
    simp [unroll, affineForIvs_one]

theorem filter_flatMap_body (ivs : List Nat) (body : List Op) (p : Option Nat × Op → Bool)
    (c : Nat) (h : ∀ i, ((body.map (fun o => (some i, o))).filter p).length = c) :
    ((ivs.flatMap (fun i => body.map (fun o => (some i, o)))).filter p).length
      = ivs.length * c := by
  induction ivs with
  | nil => simp
  | cons i ivs ih =>
    rw [List.flatMap_cons, List.filter_append, List.length_append, ih, h i, List.length_cons]
    ring

/-- Claim C4 (pipeline iteration counts), for both rewrite patterns.  With
`kPerBlock = kpacksPerBlock * kpack` dividing `K` and `n = K / kPerBlock >= 1`: the body
of the steady loop is executed for the induction values `1, ..., n - 1`, that is `n - 1`
times; the drain compute step is emitted once, and executed once outside the loop; each
operand is loaded `n` times, once before the loop and `n - 1` times inside it; and for
`n = 1` the loop is erased, leaving the two loads, the two stores, one barrier and one
compute step. -/
theorem C4_pipeline_iteration_counts (v : Variant) (K kpacksPerBlock kpack : Nat)
    (hdiv : kpacksPerBlock * kpack ∣ K) (hn : 1 ≤ K / (kpacksPerBlock * kpack)) :
    steadyIvs (emitPipeline v K (kpacksPerBlock * kpack))
        = List.range' 1 (K / (kpacksPerBlock * kpack) - 1) ∧
    (steadyIvs (emitPipeline v K (kpacksPerBlock * kpack))).length
        = K / (kpacksPerBlock * kpack) - 1 ∧
    (emitPipeline v K (kpacksPerBlock * kpack)).count (Stmt.op (Op.blockwiseGemm v)) = 1 ∧
    ((unroll (emitPipeline v K (kpacksPerBlock * kpack))).filter
        (fun d => d.1.isNone && d.2.isCompute)).length = 1 ∧
    (∀ x : Operand,
      ((unroll (emitPipeline v K (kpacksPerBlock * kpack))).filter
          (fun d => d.2.isGlobalLoad x)).length = K / (kpacksPerBlock * kpack) ∧
      ((unroll (emitPipeline v K (kpacksPerBlock * kpack))).filter
          (fun d => d.1.isNone && d.2.isGlobalLoad x)).length = 1 ∧
      ((unroll (emitPipeline v K (kpacksPerBlock * kpack))).filter
          (fun d => d.1.isSome && d.2.isGlobalLoad x)).length
        = K / (kpacksPerBlock * kpack) - 1) ∧
    (K / (kpacksPerBlock * kpack) = 1 →
      emitPipeline v K (kpacksPerBlock * kpack) =
        [Stmt.op (Op.globalLoad Operand.A KLoop.zero),
         Stmt.op (Op.globalLoad Operand.B KLoop.zero),
         Stmt.op (Op.ldsStore Operand.A KLoop.zero),
         Stmt.op (Op.ldsStore Operand.B KLoop.zero),
         Stmt.op Op.ldsBarrier, Stmt.op (Op.blockwiseGemm v)]) := by
  refine ⟨steadyIvs_emitPipeline v K _, ?_, ?_, ?_, ?_, ?_⟩
  · rw [steadyIvs_emitPipeline, List.length_range']
  · by_cases h : K / (kpacksPerBlock * kpack) ≤ 1
    · rw [emitPipeline_erased v K _ h]; cases v <;> decide
    · rw [emitPipeline_loop v K _ h]
      cases v <;> simp [List.count_cons]
  · rw [unroll_emitPipeline]
    simp only [List.filter_append, List.length_append]
    rw [filter_flatMap_body _ _ _ 0 (by intro i; simp [Op.isCompute])]
    simp [Op.isCompute]
  · intro x
    rw [unroll_emitPipeline]
    simp only [List.filter_append, List.length_append]
    rw [filter_flatMap_body _ _ _ 1 (by intro i; cases x <;> simp [Op.isGlobalLoad]),
      filter_flatMap_body _ _ _ 0 (by intro i; cases x <;> simp [Op.isGlobalLoad]),
      filter_flatMap_body _ _ _ 1 (by intro i; cases x <;> simp [Op.isGlobalLoad]),
      List.length_range']
    cases x <;> simp [Op.isGlobalLoad] <;> omega
  · intro h
    exact emitPipeline_erased v K _ (by omega)


/-! ### Barriers -/

theorem LdsPhase.after_append (p : LdsPhase) (l1 l2 : List Op) :
    p.after (l1 ++ l2) = (p.after l1).bind (fun q => LdsPhase.after q l2) := by
  induction l1 generalizing p with
  | nil => simp [LdsPhase.after]
  | cons o l1 ih =>
    simp only [List.cons_append, LdsPhase.after]
    cases p.next o with
    | none => rfl
    | some q => exact ih q

/-- accepted from any phase, the rest is accepted from some phase -/
theorem LdsPhase.after_suffix (p : LdsPhase) (l1 l2 : List Op) (r : LdsPhase)
    (h : p.after (l1 ++ l2) = some r) : ∃ q : LdsPhase, q.after l2 = some r := by
  rw [LdsPhase.after_append] at h
  cases h1 : p.after l1 with
  | none => rw [h1] at h; simp at h
  | some q => rw [h1] at h; exact ⟨q, h⟩

/-- after a store, a compute step is accepted only behind a barrier -/
theorem LdsPhase.storing_compute (ys zs : List Op) (b : Op) (r : LdsPhase)
    (hb : b.isCompute = true) (h : LdsPhase.storing.after (ys ++ b :: zs) = some r) :
    Op.ldsBarrier ∈ ys := by
  induction ys with
  | nil =>
    cases b <;> simp [Op.isCompute] at hb
    simp [LdsPhase.after, LdsPhase.next] at h
  | cons y ys ih =>
    cases y with
    | ldsBarrier => simp
    | globalLoad x k =>
      simp only [List.cons_append, LdsPhase.after, LdsPhase.next] at h
      simp [ih h]
    | ldsStore x k =>
      simp only [List.cons_append, LdsPhase.after, LdsPhase.next] at h
      simp [ih h]
    | blockwiseGemm v =>
      simp [LdsPhase.after, LdsPhase.next] at h

/-- after a compute step, a store is accepted only behind a barrier -/
theorem LdsPhase.computing_store (ys zs : List Op) (b : Op) (r : LdsPhase)
    (hb : b.isLdsStore = true) (h : LdsPhase.computing.after (ys ++ b :: zs) = some r) :
    Op.ldsBarrier ∈ ys := by
  induction ys with
  | nil =>
    cases b <;> simp [Op.isLdsStore] at hb
    simp [LdsPhase.after, LdsPhase.next] at h
  | cons y ys ih =>
    cases y with
    | ldsBarrier => simp
    | globalLoad x k =>
      simp only [List.cons_append, LdsPhase.after, LdsPhase.next] at h
      simp [ih h]
    | blockwiseGemm v =>
      simp only [List.cons_append, LdsPhase.after, LdsPhase.next] at h
      simp [ih h]
    | ldsStore x k =>
      simp [LdsPhase.after, LdsPhase.next] at h

/-- an accepted sequence has a barrier between a store and a later compute step, and
between a compute step and a later store -/
theorem LdsPhase.accepted_sound (p r : LdsPhase) (l : List Op) (h : p.after l = some r)
    (xs ys zs : List Op) (a b : Op) (hl : l = xs ++ a :: (ys ++ b :: zs))
    (hab : (a.isLdsStore = true ∧ b.isCompute = true) ∨
      (a.isCompute = true ∧ b.isLdsStore = true)) :
    Op.ldsBarrier ∈ ys := by
  subst hl
  obtain ⟨q, hq⟩ := LdsPhase.after_suffix p xs _ r h
  rcases hab with ⟨ha, hb⟩ | ⟨ha, hb⟩
  · cases a <;> simp [Op.isLdsStore] at ha
    cases q <;> simp only [LdsPhase.after, LdsPhase.next] at hq
    · exact LdsPhase.storing_compute ys zs b r hb hq
    · exact LdsPhase.storing_compute ys zs b r hb hq
    · simp at hq
  · cases a <;> simp [Op.isCompute] at ha
    cases q <;> simp only [LdsPhase.after, LdsPhase.next] at hq
    · exact LdsPhase.computing_store ys zs b r hb hq
    · simp at hq
    · exact LdsPhase.computing_store ys zs b r hb hq

/-- the steady iterations are accepted after stores and end after stores -/
theorem LdsPhase.after_steady (v : Variant) (ivs : List Nat) :
    LdsPhase.storing.after ((ivs.flatMap (fun i =>
      [Op.globalLoad Operand.A KLoop.iv, Op.globalLoad Operand.B KLoop.iv, Op.ldsBarrier,
       Op.blockwiseGemm v, Op.ldsBarrier,
       Op.ldsStore Operand.A KLoop.iv, Op.ldsStore Operand.B KLoop.iv].map
        (fun o => (some i, o)))).map Prod.snd) = some LdsPhase.storing := by
  induction ivs with
  | nil => rfl
  | cons i ivs ih =>
    rw [List.flatMap_cons, List.map_append, LdsPhase.after_append]
    simp only [List.map_cons, List.map_nil, LdsPhase.after, LdsPhase.next, Option.bind]
    exact ih

theorem LdsPhase.after_emitPipeline (v : Variant) (K kPerBlock : Nat) :
    LdsPhase.quiet.after ((unroll (emitPipeline v K kPerBlock)).map Prod.snd)
      = some LdsPhase.computing := by
  have hP : LdsPhase.quiet.after (List.map Prod.snd
      [((none : Option Nat), Op.globalLoad Operand.A KLoop.zero),
       (none, Op.globalLoad Operand.B KLoop.zero),
       (none, Op.ldsStore Operand.A KLoop.zero), (none, Op.ldsStore Operand.B KLoop.zero)])
      = some LdsPhase.storing := rfl
  rw [unroll_emitPipeline, List.map_append, List.map_append, LdsPhase.after_append,
    LdsPhase.after_append, hP, Option.some_bind, LdsPhase.after_steady, Option.some_bind]
  rfl

/-- Claim C5 (barrier placement), for both rewrite patterns and every `K`, `kPerBlock`.
A loop of the emitted code has the body [load A, load B, barrier, compute, barrier,
store A, store B], with two barriers, and this loop is emitted when `K / kPerBlock >= 2`;
the code ends with the drain [barrier, compute], which follows the initial loads and
stores, or the loop.  In the executed sequence of
operations, between an LDS store and any later compute step, and between a compute step
and any later LDS store, there is a barrier. -/
theorem C5_barrier_placement (v : Variant) (K kPerBlock : Nat) :
    (∀ lb ub step body, Stmt.affineFor lb ub step body ∈ emitPipeline v K kPerBlock →
      body = [Op.globalLoad Operand.A KLoop.iv, Op.globalLoad Operand.B KLoop.iv,
              Op.ldsBarrier, Op.blockwiseGemm v, Op.ldsBarrier,
              Op.ldsStore Operand.A KLoop.iv, Op.ldsStore Operand.B KLoop.iv] ∧
      body.count Op.ldsBarrier = 2) ∧
    (2 ≤ K / kPerBlock →
      Stmt.affineFor 1 (K / kPerBlock) 1
        [Op.globalLoad Operand.A KLoop.iv, Op.globalLoad Operand.B KLoop.iv,
         Op.ldsBarrier, Op.blockwiseGemm v, Op.ldsBarrier,
         Op.ldsStore Operand.A KLoop.iv, Op.ldsStore Operand.B KLoop.iv]
        ∈ emitPipeline v K kPerBlock) ∧
    (∃ pre, emitPipeline v K kPerBlock
        = pre ++ [Stmt.op Op.ldsBarrier, Stmt.op (Op.blockwiseGemm v)] ∧
      (pre = [Stmt.op (Op.globalLoad Operand.A KLoop.zero),
              Stmt.op (Op.globalLoad Operand.B KLoop.zero),
              Stmt.op (Op.ldsStore Operand.A KLoop.zero),
              Stmt.op (Op.ldsStore Operand.B KLoop.zero)] ∨
       ∃ body, pre = [Stmt.op (Op.globalLoad Operand.A KLoop.zero),
              Stmt.op (Op.globalLoad Operand.B KLoop.zero),
              Stmt.op (Op.ldsStore Operand.A KLoop.zero),
              Stmt.op (Op.ldsStore Operand.B KLoop.zero),
              Stmt.affineFor 1 (K / kPerBlock) 1 body])) ∧
    (∀ (xs ys zs : List Op) (a b : Op),
      (unroll (emitPipeline v K kPerBlock)).map Prod.snd = xs ++ a :: (ys ++ b :: zs) →
      (a.isLdsStore = true ∧ b.isCompute = true) ∨ (a.isCompute = true ∧ b.isLdsStore = true) →
      Op.ldsBarrier ∈ ys) := by
  refine ⟨?_, ?_, ?_, ?_⟩
  · intro lb ub step body hmem
    by_cases h : K / kPerBlock ≤ 1
    · rw [emitPipeline_erased v K kPerBlock h] at hmem
      simp at hmem
    · rw [emitPipeline_loop v K kPerBlock h] at hmem
      simp at hmem
      obtain ⟨-, -, -, rfl⟩ := hmem
      cases v <;> simp [List.count_cons]
  · intro h
    rw [emitPipeline_loop v K kPerBlock (by omega)]
    simp
  · by_cases h : K / kPerBlock ≤ 1
    · exact ⟨_, by rw [emitPipeline_erased v K kPerBlock h]; rfl, Or.inl rfl⟩
    · exact ⟨_, by rw [emitPipeline_loop v K kPerBlock h]; rfl, Or.inr ⟨_, rfl⟩⟩
  · intro xs ys zs a b hl hab
    exact LdsPhase.accepted_sound _ _ _ (LdsPhase.after_emitPipeline v K kPerBlock)
      xs ys zs a b hl hab


/-! ### Data flow -/

theorem events_append (s : ExecState) (l1 l2 : List (Option Nat × Op)) :
    events s (l1 ++ l2) = events s l1 ++ events (run s l1) l2 := by
  induction l1 generalizing s with
  | nil => rfl
  | cons d l1 ih => simp [events, run, ih]

theorem run_append (s : ExecState) (l1 l2 : List (Option Nat × Op)) :
    run s (l1 ++ l2) = run (run s l1) l2 := by
  induction l1 generalizing s with
  | nil => rfl
  | cons d l1 ih => simp [run, ih]

/-- one steady iteration: it computes on the staged tile and stages the tile it loads -/
theorem steady_iteration (v : Variant) (s : ExecState) (i : Nat) :
    events s ([Op.globalLoad Operand.A KLoop.iv, Op.globalLoad Operand.B KLoop.iv,
        Op.ldsBarrier, Op.blockwiseGemm v, Op.ldsBarrier,
        Op.ldsStore Operand.A KLoop.iv, Op.ldsStore Operand.B KLoop.iv].map
          (fun o => (some i, o)))
      = [Event.loaded Operand.A i, Event.loaded Operand.B i, Event.barrier,
         Event.computed s.ldsA s.ldsB, Event.barrier,
         Event.stored Operand.A (some i), Event.stored Operand.B (some i)] ∧
    (run s ([Op.globalLoad Operand.A KLoop.iv, Op.globalLoad Operand.B KLoop.iv,
        Op.ldsBarrier, Op.blockwiseGemm v, Op.ldsBarrier,
        Op.ldsStore Operand.A KLoop.iv, Op.ldsStore Operand.B KLoop.iv].map
          (fun o => (some i, o)))).ldsA = some i ∧
    (run s ([Op.globalLoad Operand.A KLoop.iv, Op.globalLoad Operand.B KLoop.iv,
        Op.ldsBarrier, Op.blockwiseGemm v, Op.ldsBarrier,
        Op.ldsStore Operand.A KLoop.iv, Op.ldsStore Operand.B KLoop.iv].map
          (fun o => (some i, o)))).ldsB = some i := by
  simp [events, run, step]

/-- the steady iterations from induction value `t + 1` on, when tile `t` is staged -/
theorem steady_loop (v : Variant) (m : Nat) :
    ∀ (t : Nat) (s : ExecState), s.ldsA = some t → s.ldsB = some t →
      events s ((List.range' (t + 1) m).flatMap (fun i =>
          [Op.globalLoad Operand.A KLoop.iv, Op.globalLoad Operand.B KLoop.iv,
           Op.ldsBarrier, Op.blockwiseGemm v, Op.ldsBarrier,
           Op.ldsStore Operand.A KLoop.iv, Op.ldsStore Operand.B KLoop.iv].map
            (fun o => (some i, o))))
        = (List.range' (t + 1) m).flatMap (fun i =>
            [Event.loaded Operand.A i, Event.loaded Operand.B i, Event.barrier,
             Event.computed (some (i - 1)) (some (i - 1)), Event.barrier,
             Event.stored Operand.A (some i), Event.stored Operand.B (some i)]) ∧
      (run s ((List.range' (t + 1) m).flatMap (fun i =>
          [Op.globalLoad Operand.A KLoop.iv, Op.globalLoad Operand.B KLoop.iv,
           Op.ldsBarrier, Op.blockwiseGemm v, Op.ldsBarrier,
           Op.ldsStore Operand.A KLoop.iv, Op.ldsStore Operand.B KLoop.iv].map
            (fun o => (some i, o))))).ldsA = some (t + m) ∧
      (run s ((List.range' (t + 1) m).flatMap (fun i =>
          [Op.globalLoad Operand.A KLoop.iv, Op.globalLoad Operand.B KLoop.iv,
           Op.ldsBarrier, Op.blockwiseGemm v, Op.ldsBarrier,
           Op.ldsStore Operand.A KLoop.iv, Op.ldsStore Operand.B KLoop.iv].map
            (fun o => (some i, o))))).ldsB = some (t + m) := by
  induction m with
  | zero => intro t s hA hB; exact ⟨rfl, hA, hB⟩
  | succ m ih =>
    intro t s hA hB
    obtain ⟨e1, a1, b1⟩ := steady_iteration v s (t + 1)
    obtain ⟨e2, a2, b2⟩ := ih (t + 1) _ a1 b1
    rw [List.range'_succ, List.flatMap_cons, List.flatMap_cons, events_append, run_append,
      e1, e2, a2, b2, hA, hB]
    refine ⟨?_, ?_, ?_⟩
    · simp
    · congr 1; omega
    · congr 1; omega

theorem filterMap_flatMap_single {β : Type} (f : Event → Option β) (g : Nat → List Event)
    (h : Nat → β) (hg : ∀ i, (g i).filterMap f = [h i]) (l : List Nat) :
    (l.flatMap g).filterMap f = l.map h := by
  induction l with
  | nil => rfl
  | cons i l ih => rw [List.flatMap_cons, List.filterMap_append, hg, ih]; rfl

theorem map_pred_range' (β : Type) (f : Nat → β) (m : Nat) :
    (List.range' 1 m).map (fun i => f (i - 1)) = (List.range m).map f := by
  rw [List.range'_eq_map_range, List.map_map]
  apply List.map_congr_left
  intro j _
  simp

/-- Claim C6 (double-buffer data flow), for both rewrite patterns and
`n = K / kPerBlock >= 1`.  The execution is: load and store of tile `0`; then for
`i = 1, ..., n - 1` load of tile `i`, barrier, compute on tile `i - 1` (the one staged in
LDS), barrier, store of tile `i`; then barrier and compute on tile `n - 1`.  Hence the
compute steps read the tiles `0, ..., n - 1` in this order, and each operand has each of
these tiles loaded once and stored once. -/
theorem C6_double_buffer_data_flow (v : Variant) (K kPerBlock : Nat)
    (hn : 1 ≤ K / kPerBlock) :
    events ExecState.init (unroll (emitPipeline v K kPerBlock)) =
      [Event.loaded Operand.A 0, Event.loaded Operand.B 0,
       Event.stored Operand.A (some 0), Event.stored Operand.B (some 0)]
      ++ (List.range' 1 (K / kPerBlock - 1)).flatMap (fun i =>
          [Event.loaded Operand.A i, Event.loaded Operand.B i, Event.barrier,
           Event.computed (some (i - 1)) (some (i - 1)), Event.barrier,
           Event.stored Operand.A (some i), Event.stored Operand.B (some i)])
      ++ [Event.barrier,
          Event.computed (some (K / kPerBlock - 1)) (some (K / kPerBlock - 1))] ∧
    computedTiles (events ExecState.init (unroll (emitPipeline v K kPerBlock)))
      = (List.range (K / kPerBlock)).map (fun j => (some j, some j)) ∧
    ∀ x : Operand,
      loadedTiles x (events ExecState.init (unroll (emitPipeline v K kPerBlock)))
        = List.range (K / kPerBlock) ∧
      storedTiles x (events ExecState.init (unroll (emitPipeline v K kPerBlock)))
        = (List.range (K / kPerBlock)).map some := by
  obtain ⟨m, hm⟩ : ∃ m, K / kPerBlock = m + 1 := ⟨K / kPerBlock - 1, by omega⟩
  have hpro : run ExecState.init
      [(none, Op.globalLoad Operand.A KLoop.zero), (none, Op.globalLoad Operand.B KLoop.zero),
       (none, Op.ldsStore Operand.A KLoop.zero), (none, Op.ldsStore Operand.B KLoop.zero)]
      = { loadA0 := some 0, loadB0 := some 0, loadAiv := none, loadBiv := none,
          ldsA := some 0, ldsB := some 0 } := rfl
  obtain ⟨e, a, b⟩ := steady_loop v m 0 _
    (show (run ExecState.init
      [(none, Op.globalLoad Operand.A KLoop.zero), (none, Op.globalLoad Operand.B KLoop.zero),
       (none, Op.ldsStore Operand.A KLoop.zero),
       (none, Op.ldsStore Operand.B KLoop.zero)]).ldsA = some 0 from rfl)
    (show (run ExecState.init
      [(none, Op.globalLoad Operand.A KLoop.zero), (none, Op.globalLoad Operand.B KLoop.zero),
       (none, Op.ldsStore Operand.A KLoop.zero),
       (none, Op.ldsStore Operand.B KLoop.zero)]).ldsB = some 0 from rfl)
  have hev : events ExecState.init (unroll (emitPipeline v K kPerBlock)) =
      [Event.loaded Operand.A 0, Event.loaded Operand.B 0,
       Event.stored Operand.A (some 0), Event.stored Operand.B (some 0)]
      ++ (List.range' 1 m).flatMap (fun i =>
          [Event.loaded Operand.A i, Event.loaded Operand.B i, Event.barrier,
           Event.computed (some (i - 1)) (some (i - 1)), Event.barrier,
           Event.stored Operand.A (some i), Event.stored Operand.B (some i)])
      ++ [Event.barrier, Event.computed (some m) (some m)] := by
    rw [unroll_emitPipeline, hm, Nat.add_sub_cancel, events_append, events_append, run_append]
    simp only [Nat.zero_add] at e a b
    rw [e]
    simp only [events, step, a, b]
  rw [hm, Nat.add_sub_cancel]
  refine ⟨hev, ?_, ?_⟩
  · rw [hev]
    simp only [computedTiles, List.filterMap_append]
    rw [filterMap_flatMap_single _ _ (fun i => (some (i - 1), some (i - 1))) (by intro i; rfl),
      map_pred_range' _ (fun j => (some j, some j)), List.range_succ, List.map_append]
    rfl
  · intro x
    rw [hev]
    constructor
    · simp only [loadedTiles, List.filterMap_append]
      rw [filterMap_flatMap_single _ _ (fun i => i) (by intro i; cases x <;> rfl),
        List.map_id', List.range_eq_range', List.range'_succ]
      cases x <;> simp
    · simp only [storedTiles, List.filterMap_append]
      rw [filterMap_flatMap_single _ _ (fun i => some i) (by intro i; cases x <;> rfl),
        List.range_eq_range', List.range'_succ]
      cases x <;> simp

/-! ## Vectorization and copy shape: theorems -/

/-- Claim C7 (vectorization selection rule).  With
`kLen = min (maxVec K) kPerBlock` and `dLen = min (maxVec MorN) dPerBlock`,
`bestVectorization` returns `(K, kLen)` when `kLen > dLen`, `(MorN, dLen)` when
`dLen > kLen` and `(tiebreaker, kLen)` when they are equal; the returned width is
`max kLen dLen` and is at most the per-block extent along the returned axis. -/
theorem C7_vectorization_selection (getMaxVectorization : GemmDimension → Nat → Nat)
    (dataPerThread : Nat) (tiebreaker : GemmDimension) (kPerBlock dPerBlock : Nat) :
    (min (getMaxVectorization GemmDimension.K dataPerThread) kPerBlock
        > min (getMaxVectorization GemmDimension.MorN dataPerThread) dPerBlock →
      bestVectorization getMaxVectorization dataPerThread tiebreaker kPerBlock dPerBlock
        = (GemmDimension.K, min (getMaxVectorization GemmDimension.K dataPerThread) kPerBlock)) ∧
    (min (getMaxVectorization GemmDimension.MorN dataPerThread) dPerBlock
        > min (getMaxVectorization GemmDimension.K dataPerThread) kPerBlock →
      bestVectorization getMaxVectorization dataPerThread tiebreaker kPerBlock dPerBlock
        = (GemmDimension.MorN,
            min (getMaxVectorization GemmDimension.MorN dataPerThread) dPerBlock)) ∧
    (min (getMaxVectorization GemmDimension.K dataPerThread) kPerBlock
        = min (getMaxVectorization GemmDimension.MorN dataPerThread) dPerBlock →
      bestVectorization getMaxVectorization dataPerThread tiebreaker kPerBlock dPerBlock
        = (tiebreaker, min (getMaxVectorization GemmDimension.K dataPerThread) kPerBlock)) ∧
    (bestVectorization getMaxVectorization dataPerThread tiebreaker kPerBlock dPerBlock).2
      = max (min (getMaxVectorization GemmDimension.K dataPerThread) kPerBlock)
          (min (getMaxVectorization GemmDimension.MorN dataPerThread) dPerBlock) ∧
    (bestVectorization getMaxVectorization dataPerThread tiebreaker kPerBlock dPerBlock).2
      ≤ perBlockExtent
          (bestVectorization getMaxVectorization dataPerThread tiebreaker kPerBlock dPerBlock).1
          kPerBlock dPerBlock := by
  simp only [bestVectorization]
  generalize getMaxVectorization GemmDimension.K dataPerThread = vk
  generalize getMaxVectorization GemmDimension.MorN dataPerThread = vd
  have hk : min vk kPerBlock ≤ kPerBlock := Nat.min_le_right _ _
  have hd : min vd dPerBlock ≤ dPerBlock := Nat.min_le_right _ _
  generalize min vk kPerBlock = a at *
  generalize min vd dPerBlock = b at *
  rcases Nat.lt_trichotomy a b with h | h | h
  · have h1 : ¬ (a > b) := by omega
    have h2 : b > a := h
    rw [if_neg h1, if_pos h2, Nat.max_eq_right (Nat.le_of_lt h)]
    exact ⟨fun h' => absurd h' h1, fun _ => rfl, fun h' => by omega, rfl, hd⟩
  · subst h
    have h1 : ¬ (a > a) := by omega
    simp only [if_neg h1, Nat.max_self]
    refine ⟨fun h' => absurd h' h1, fun h' => absurd h' h1, fun _ => trivial, trivial, ?_⟩
    cases tiebreaker
    · exact hk
    · exact hd
  · have h1 : a > b := h
    rw [if_pos h1, Nat.max_eq_left (Nat.le_of_lt h)]
    exact ⟨fun _ => rfl, fun h' => by omega, fun h' => by omega, rfl, hk⟩

theorem min_dvd_of_chain (a b q : Nat) (hq : q ≠ 0) (ha : a ∣ q) (hb : 0 < b)
    (h : a ∣ b ∨ b ∣ a) : min a b ∣ q ∧ min a b ∣ b := by
  have ha0 : 0 < a := by
    rcases Nat.eq_zero_or_pos a with h0 | h0
    · subst h0; simp at ha; exact absurd ha hq
    · exact h0
  rcases h with h | h
  · rw [Nat.min_eq_left (Nat.le_of_dvd hb h)]; exact ⟨ha, h⟩
  · rw [Nat.min_eq_right (Nat.le_of_dvd ha0 h)]; exact ⟨Nat.dvd_trans h ha, Nat.dvd_refl _⟩

/-- Claim C8, amended.  Under the divisibility invariants, with the contiguity query
returning a divisor of the per-thread quota, and if moreover on each axis the value of
the query divides the per-block extent or is a multiple of it, the width returned by
`bestVectorization` divides the per-thread quota and the per-block extent along the
returned axis. -/
theorem C8_width_divides_under_chain (getMaxVectorization : GemmDimension → Nat → Nat)
    (K D kPerBlock dPerBlock blockSize dataPerThread : Nat) (tiebreaker : GemmDimension)
    (hK : kPerBlock ∣ K) (hD : dPerBlock ∣ D)
    (hblock : blockSize ∣ kPerBlock * dPerBlock)
    (hquota : dataPerThread = kPerBlock * dPerBlock / blockSize)
    (hpos : dataPerThread ≠ 0)
    (hvec : ∀ dim, getMaxVectorization dim dataPerThread ∣ dataPerThread)
    (hchain : ∀ dim,
      getMaxVectorization dim dataPerThread ∣ perBlockExtent dim kPerBlock dPerBlock ∨
      perBlockExtent dim kPerBlock dPerBlock ∣ getMaxVectorization dim dataPerThread) :
    (bestVectorization getMaxVectorization dataPerThread tiebreaker kPerBlock dPerBlock).2
      ∣ dataPerThread ∧
    (bestVectorization getMaxVectorization dataPerThread tiebreaker kPerBlock dPerBlock).2
      ∣ perBlockExtent
          (bestVectorization getMaxVectorization dataPerThread tiebreaker kPerBlock dPerBlock).1
          kPerBlock dPerBlock := by
  have hprod : 0 < kPerBlock * dPerBlock := by
    rcases Nat.eq_zero_or_pos (kPerBlock * dPerBlock) with h0 | h0
    · rw [h0, Nat.zero_div] at hquota; exact absurd hquota hpos
    · exact h0
  have hk0 : 0 < kPerBlock := Nat.pos_of_mul_pos_right hprod
  have hd0 : 0 < dPerBlock := Nat.pos_of_mul_pos_left hprod
  obtain ⟨k1, k2⟩ := min_dvd_of_chain _ _ _ hpos (hvec GemmDimension.K) hk0
    (hchain GemmDimension.K)
  obtain ⟨d1, d2⟩ := min_dvd_of_chain _ _ _ hpos (hvec GemmDimension.MorN) hd0
    (hchain GemmDimension.MorN)
  simp only [bestVectorization]
  split_ifs with h1 h2
  · exact ⟨k1, k2⟩
  · exact ⟨d1, d2⟩
  · have e : min (getMaxVectorization GemmDimension.K dataPerThread) kPerBlock
        = min (getMaxVectorization GemmDimension.MorN dataPerThread) dPerBlock := by omega
    refine ⟨k1, ?_⟩
    cases tiebreaker
    · exact k2
    · simp only [perBlockExtent]; rw [e]; exact d2


/-- Claim C8 fails as stated.  With `K = 24`, `kPerBlock = 6`, `dPerBlock = 8`,
`blockSize = 6` (quota `8`) and a contiguity query returning the divisors `8` (along K)
and `1` of the quota, `bestVectorization` returns the width `6`, which does not divide
the quota `8`; with the query returning `4` along K it returns the width `4`, which does
not divide the per-block extent `6`. -/
theorem C8_counterexample :
    ((6 : Nat) ∣ 24 ∧ (8 : Nat) ∣ 8 ∧ (6 : Nat) ∣ 6 * 8 ∧ (8 : Nat) = 6 * 8 / 6 ∧ (8 : Nat) ≠ 0) ∧
    (∀ dim, (fun (d : GemmDimension) (_ : Nat) => if d = GemmDimension.K then 8 else 1) dim 8
      ∣ 8) ∧
    bestVectorization (fun d _ => if d = GemmDimension.K then 8 else 1) 8 GemmDimension.K 6 8
      = (GemmDimension.K, 6) ∧
    ¬ ((6 : Nat) ∣ 8) ∧
    (∀ dim, (fun (d : GemmDimension) (_ : Nat) => if d = GemmDimension.K then 4 else 1) dim 8
      ∣ 8) ∧
    bestVectorization (fun d _ => if d = GemmDimension.K then 4 else 1) 8 GemmDimension.K 6 8
      = (GemmDimension.K, 4) ∧
    ¬ ((4 : Nat) ∣ perBlockExtent GemmDimension.K 6 8) := by
  refine ⟨by decide, ?_, by decide, by decide, ?_, by decide, by decide⟩
  · intro dim; cases dim <;> decide
  · intro dim; cases dim <;> decide

/-- Claim C9 fails as stated.  For the axis `K` and width `6` selected for the quota
`8` (`kPerBlock = 6`, `dPerBlock = 8`), `computeCopyPerThread` succeeds with the shape
`(6, 1)`, whose product is `6`, not the quota `8`. -/
theorem C9_counterexample :
    bestVectorization (fun d _ => if d = GemmDimension.K then 8 else 1) 8 GemmDimension.K 6 8
      = (GemmDimension.K, 6) ∧
    computeCopyPerThread GemmDimension.K 6 8 6 8 = Except.ok (6, 1) ∧
    (6 : Nat) * 1 ≠ 8 := by
  refine ⟨by decide, rfl, by decide⟩

/-- Claim C9, amended.  Whenever `computeCopyPerThread` succeeds, the product of the
two per-thread extents equals the quota if and only if the width divides the quota; it
never exceeds the quota. -/
theorem C9_copy_shape_product (dim : GemmDimension)
    (vectorLen copyPerThread kPerBlock dPerBlock copyKPerThread copyDPerThread : Nat)
    (h : computeCopyPerThread dim vectorLen copyPerThread kPerBlock dPerBlock
      = Except.ok (copyKPerThread, copyDPerThread)) :
    copyKPerThread * copyDPerThread ≤ copyPerThread ∧
    (copyKPerThread * copyDPerThread = copyPerThread ↔ vectorLen ∣ copyPerThread) := by
  cases dim
  · simp only [computeCopyPerThread, if_true] at h
    split_ifs at h with h1 h2
    simp only [Except.ok.injEq, Prod.mk.injEq] at h
    obtain ⟨rfl, rfl⟩ := h
    exact ⟨Nat.mul_div_le _ _, Nat.mul_div_eq_iff_dvd⟩
  · simp only [computeCopyPerThread, reduceCtorEq, if_false] at h
    split_ifs at h with h1 h2
    simp only [Except.ok.injEq, Prod.mk.injEq] at h
    obtain ⟨rfl, rfl⟩ := h
    rw [Nat.mul_comm]
    exact ⟨Nat.mul_div_le _ _, Nat.mul_div_eq_iff_dvd⟩

/-- Claim C10 (failure condition of `computeCopyPerThread`), for a width `>= 1`.  Along
`K` the extents are `(width, quota / width)`, along `M`/`N` they are
`(quota / width, width)`, always in the order (K, D); the function fails if and only if
one of the extents is zero, or `kPerBlock` is less than the K extent, or `dPerBlock` is
less than the D extent; when it does not fail it returns the two extents. -/
theorem C10_copy_shape_failure (vectorLen copyPerThread kPerBlock dPerBlock : Nat)
    (hw : 1 ≤ vectorLen) :
    ((∃ e, computeCopyPerThread GemmDimension.K vectorLen copyPerThread kPerBlock dPerBlock
          = Except.error e) ↔
      (vectorLen = 0 ∨ copyPerThread / vectorLen = 0 ∨ kPerBlock < vectorLen ∨
        dPerBlock < copyPerThread / vectorLen)) ∧
    ((∀ e, computeCopyPerThread GemmDimension.K vectorLen copyPerThread kPerBlock dPerBlock
          ≠ Except.error e) →
      computeCopyPerThread GemmDimension.K vectorLen copyPerThread kPerBlock dPerBlock
        = Except.ok (vectorLen, copyPerThread / vectorLen)) ∧
    ((∃ e, computeCopyPerThread GemmDimension.MorN vectorLen copyPerThread kPerBlock dPerBlock
          = Except.error e) ↔
      (copyPerThread / vectorLen = 0 ∨ vectorLen = 0 ∨ kPerBlock < copyPerThread / vectorLen ∨
        dPerBlock < vectorLen)) ∧
    ((∀ e, computeCopyPerThread GemmDimension.MorN vectorLen copyPerThread kPerBlock dPerBlock
          ≠ Except.error e) →
      computeCopyPerThread GemmDimension.MorN vectorLen copyPerThread kPerBlock dPerBlock
        = Except.ok (copyPerThread / vectorLen, vectorLen)) := by
  simp only [computeCopyPerThread, if_true, reduceCtorEq, if_false]
  refine ⟨?_, ?_, ?_, ?_⟩
  · split_ifs with h1 h2
    · simp only [Except.error.injEq, exists_eq', true_iff]; tauto
    · simp only [Except.error.injEq, exists_eq', true_iff]; tauto
    · simp only [reduceCtorEq, exists_false, false_iff]; tauto
  · split_ifs with h1 h2
    · intro h; exact absurd rfl (h _)
    · intro h; exact absurd rfl (h _)
    · intro _; rfl
  · split_ifs with h1 h2
    · simp only [Except.error.injEq, exists_eq', true_iff]; tauto
    · simp only [Except.error.injEq, exists_eq', true_iff]; tauto
    · simp only [reduceCtorEq, exists_false, false_iff]; tauto
  · split_ifs with h1 h2
    · intro h; exact absurd rfl (h _)
    · intro h; exact absurd rfl (h _)
    · intro _; rfl


/-! ## Shared-memory sizes (C11 - C14) -/

/-- the padded value is the least multiple of the alignment that is not below `a` -/
theorem integer_least_multiple_isLeast (a b : Nat) (hb : 0 < b) :
    IsLeast {y | b ∣ y ∧ a ≤ y} (integer_least_multiple a b) := by
  unfold integer_least_multiple integer_divide_ceil
  refine ⟨⟨Nat.dvd_mul_right _ _, ?_⟩, ?_⟩
  · have h := Nat.lt_mul_div_succ (a + b - 1) hb
    have e : b * ((a + b - 1) / b + 1) = b * ((a + b - 1) / b) + b := by ring
    omega
  · rintro y ⟨⟨c, rfl⟩, hy⟩
    apply Nat.mul_le_mul_left
    calc (a + b - 1) / b ≤ (b * c + (b - 1)) / b := Nat.div_le_div_right (by omega)
      _ = c := by
        rw [Nat.mul_add_div hb, Nat.div_eq_of_lt (by omega), Nat.add_zero]

theorem integer_least_multiple_eq (pad : Nat → Nat) (b : Nat) (hb : 0 < b)
    (hpad : ∀ x, IsLeast {y | b ∣ y ∧ x ≤ y} (pad x)) (a : Nat) :
    integer_least_multiple a b = pad a :=
  (integer_least_multiple_isLeast a b hb).unique (hpad a)

theorem integer_divide_ceil_mono (a a' b : Nat) (h : a ≤ a') :
    integer_divide_ceil a b ≤ integer_divide_ceil a' b := by
  unfold integer_divide_ceil
  exact Nat.div_le_div_right (by omega)

theorem integer_least_multiple_mono (a a' b : Nat) (h : a ≤ a') :
    integer_least_multiple a b ≤ integer_least_multiple a' b :=
  Nat.mul_le_mul_left _ (integer_divide_ceil_mono a a' b h)

/-! ## The two rewrites: how they end -/

set_option maxHeartbeats 1000000 in
/-- the generic rewrite ends at the first check that fails, in the order of the source -/
theorem generic_matchAndRewrite_cases
    (gA gB : GemmDimension → Nat → Nat) (s : GeneralGemmBlockStructure) (op : GridwiseGemmOp) :
    (GridwiseGemmRewritePattern.matchAndRewrite gA gB s op
        = Except.error RewriteError.mismatchedG ∧
      (op.b.shape.getD 0 0 ≠ op.a.shape.getD 0 0 ∨ op.c.shape.getD 0 0 ≠ op.a.shape.getD 0 0)) ∨
    (GridwiseGemmRewritePattern.matchAndRewrite gA gB s op
        = Except.error RewriteError.mismatchedM ∧
      ¬ (op.b.shape.getD 0 0 ≠ op.a.shape.getD 0 0 ∨ op.c.shape.getD 0 0 ≠ op.a.shape.getD 0 0) ∧
      op.c.shape.getD 1 0 ≠ op.a.shape.getD 2 0) ∨
    (GridwiseGemmRewritePattern.matchAndRewrite gA gB s op
        = Except.error RewriteError.mismatchedK ∧
      ¬ (op.b.shape.getD 0 0 ≠ op.a.shape.getD 0 0 ∨ op.c.shape.getD 0 0 ≠ op.a.shape.getD 0 0) ∧
      ¬ op.c.shape.getD 1 0 ≠ op.a.shape.getD 2 0 ∧
      op.b.shape.getD 1 0 ≠ op.a.shape.getD 1 0) ∨
    (GridwiseGemmRewritePattern.matchAndRewrite gA gB s op
        = Except.error RewriteError.mismatchedN ∧
      ¬ (op.b.shape.getD 0 0 ≠ op.a.shape.getD 0 0 ∨ op.c.shape.getD 0 0 ≠ op.a.shape.getD 0 0) ∧
      ¬ op.c.shape.getD 1 0 ≠ op.a.shape.getD 2 0 ∧
      ¬ op.b.shape.getD 1 0 ≠ op.a.shape.getD 1 0 ∧
      op.c.shape.getD 2 0 ≠ op.b.shape.getD 2 0) ∨
    ((¬ (op.b.shape.getD 0 0 ≠ op.a.shape.getD 0 0 ∨ op.c.shape.getD 0 0 ≠ op.a.shape.getD 0 0) ∧
      ¬ op.c.shape.getD 1 0 ≠ op.a.shape.getD 2 0 ∧
      ¬ op.b.shape.getD 1 0 ≠ op.a.shape.getD 1 0 ∧
      ¬ op.c.shape.getD 2 0 ≠ op.b.shape.getD 2 0) ∧
     ((GridwiseGemmRewritePattern.matchAndRewrite gA gB s op
          = Except.error RewriteError.ldsBlockSizes ∧
        (GridwiseGemmRewritePattern.computeLDSBlockSizes op op.params.kpack).result
          = LogicalResult.failure) ∨
      ((GridwiseGemmRewritePattern.computeLDSBlockSizes op op.params.kpack).result
          ≠ LogicalResult.failure ∧
       ((GridwiseGemmRewritePattern.matchAndRewrite gA gB s op
            = Except.error RewriteError.blockSizeTooLarge ∧
          (op.params.kPerBlock * op.params.kpack * op.params.mPerBlock / op.params.blockSize = 0 ∨
           op.params.kPerBlock * op.params.kpack * op.params.nPerBlock / op.params.blockSize = 0)) ∨
        (¬ (op.params.kPerBlock * op.params.kpack * op.params.mPerBlock / op.params.blockSize = 0 ∨
            op.params.kPerBlock * op.params.kpack * op.params.nPerBlock / op.params.blockSize = 0) ∧
         ((∃ e, GridwiseGemmRewritePattern.matchAndRewrite gA gB s op
              = Except.error (RewriteError.copyPerThread e)) ∨
          GridwiseGemmRewritePattern.matchAndRewrite gA gB s op
              = Except.error RewriteError.wrapMatrix ∨
          GridwiseGemmRewritePattern.matchAndRewrite gA gB s op
              = Except.error RewriteError.wrapLDSBuffer ∨
          ∃ l, GridwiseGemmRewritePattern.matchAndRewrite gA gB s op = Except.ok l ∧
            l.accumulatorType = obtainAccumulatorType op.b.elementType op.c.elementType ∧
            l.ldsBlockSize
              = (GridwiseGemmRewritePattern.computeLDSBlockSizes op op.params.kpack).block_space ∧
            l.ldsBlockASubview = sliceBufferSubview 0
              (GridwiseGemmRewritePattern.computeLDSBlockSizes op op.params.kpack).a_block_space ∧
            l.ldsBlockBSubview = sliceBufferSubview
              (GridwiseGemmRewritePattern.computeLDSBlockSizes op op.params.kpack).a_block_space
              (GridwiseGemmRewritePattern.computeLDSBlockSizes op op.params.kpack).b_block_space ∧
            l.aCopyPerThread
              = op.params.kPerBlock * op.params.kpack * op.params.mPerBlock / op.params.blockSize ∧
            l.bCopyPerThread
              = op.params.kPerBlock * op.params.kpack * op.params.nPerBlock / op.params.blockSize ∧
            l.pipeline = emitPipeline Variant.gridwiseGemm (op.a.shape.getD 1 0)
              (op.params.kPerBlock * op.params.kpack))))))) := by
  unfold GridwiseGemmRewritePattern.matchAndRewrite
  simp only []
  by_cases c1 : (op.b.shape.getD 0 0 ≠ op.a.shape.getD 0 0 ∨
      op.c.shape.getD 0 0 ≠ op.a.shape.getD 0 0)
  · rw [if_pos c1]; exact Or.inl ⟨rfl, c1⟩
  rw [if_neg c1]
  by_cases c2 : op.c.shape.getD 1 0 ≠ op.a.shape.getD 2 0
  · rw [if_pos c2]; exact Or.inr (Or.inl ⟨rfl, c1, c2⟩)
  rw [if_neg c2]
  by_cases c3 : op.b.shape.getD 1 0 ≠ op.a.shape.getD 1 0
  · rw [if_pos c3]; exact Or.inr (Or.inr (Or.inl ⟨rfl, c1, c2, c3⟩))
  rw [if_neg c3]
  by_cases c4 : op.c.shape.getD 2 0 ≠ op.b.shape.getD 2 0
  · rw [if_pos c4]; exact Or.inr (Or.inr (Or.inr (Or.inl ⟨rfl, c1, c2, c3, c4⟩)))
  rw [if_neg c4]
  refine Or.inr (Or.inr (Or.inr (Or.inr ⟨⟨c1, c2, c3, c4⟩, ?_⟩)))
  by_cases c5 : (GridwiseGemmRewritePattern.computeLDSBlockSizes op op.params.kpack).result
      = LogicalResult.failure
  · rw [if_pos c5]; exact Or.inl ⟨rfl, c5⟩
  rw [if_neg c5]
  refine Or.inr ⟨c5, ?_⟩
  by_cases c6 : (op.params.kPerBlock * op.params.kpack * op.params.mPerBlock
        / op.params.blockSize = 0 ∨
      op.params.kPerBlock * op.params.kpack * op.params.nPerBlock / op.params.blockSize = 0)
  · rw [if_pos c6]; exact Or.inl ⟨rfl, c6⟩
  rw [if_neg c6]
  refine Or.inr ⟨c6, ?_⟩
  split
  · exact Or.inl ⟨_, rfl⟩
  split
  · exact Or.inl ⟨_, rfl⟩
  split_ifs <;> first
    | exact Or.inr (Or.inl rfl)
    | exact Or.inr (Or.inr (Or.inl rfl))
    | exact Or.inr (Or.inr (Or.inr ⟨_, rfl, rfl, rfl, rfl, rfl, rfl, rfl, rfl⟩))

set_option maxHeartbeats 1000000 in
/-- the matrix-core rewrite ends at the first check that fails, in the order of the
source; no check reads the shape of `C` or the first two extents of `B` -/
theorem v2_matchAndRewrite_cases
    (gA gB : GemmDimension → Nat → Nat) (xcsIsValid : Ty → Nat → Nat → Nat → Nat → Bool)
    (op : GridwiseGemmV2Op) :
    (GridwiseGemmV2RewritePattern.matchAndRewrite gA gB xcsIsValid op
        = Except.error RewriteError.blockSizeTooLarge ∧
      (op.params.kPerBlock * op.params.kpack * op.params.mPerBlock / op.blockSize = 0 ∨
       op.params.kPerBlock * op.params.kpack * op.params.nPerBlock / op.blockSize = 0)) ∨
    (¬ (op.params.kPerBlock * op.params.kpack * op.params.mPerBlock / op.blockSize = 0 ∨
        op.params.kPerBlock * op.params.kpack * op.params.nPerBlock / op.blockSize = 0) ∧
     ((∃ e, GridwiseGemmV2RewritePattern.matchAndRewrite gA gB xcsIsValid op
          = Except.error (RewriteError.copyPerThread e)) ∨
      GridwiseGemmV2RewritePattern.matchAndRewrite gA gB xcsIsValid op
          = Except.error RewriteError.wrapMatrix ∨
      (GridwiseGemmV2RewritePattern.matchAndRewrite gA gB xcsIsValid op
          = Except.error RewriteError.ldsBlockSizes ∧
        (GridwiseGemmV2RewritePattern.computeLDSBlockSizes op op.params.kpack).result
          = LogicalResult.failure) ∨
      ((GridwiseGemmV2RewritePattern.computeLDSBlockSizes op op.params.kpack).result
          ≠ LogicalResult.failure ∧
       (GridwiseGemmV2RewritePattern.matchAndRewrite gA gB xcsIsValid op
            = Except.error RewriteError.wrapLDSBuffer ∨
        (GridwiseGemmV2RewritePattern.matchAndRewrite gA gB xcsIsValid op
            = Except.error RewriteError.xdlopsCodeSelection ∧
          xcsIsValid op.b.elementType op.params.mPerWave op.params.nPerWave op.params.kpack
            (op.params.kPerBlock * op.params.kpack) = false) ∨
        ∃ l, GridwiseGemmV2RewritePattern.matchAndRewrite gA gB xcsIsValid op = Except.ok l ∧
          l.accumulatorType = obtainAccumulatorType op.b.elementType op.c.elementType ∧
          l.ldsBlockSize
            = (GridwiseGemmV2RewritePattern.computeLDSBlockSizes op op.params.kpack).block_space ∧
          l.ldsBlockASubview = sliceBufferSubview 0
            (GridwiseGemmV2RewritePattern.computeLDSBlockSizes op op.params.kpack).a_block_space ∧
          l.ldsBlockBSubview = sliceBufferSubview
            (GridwiseGemmV2RewritePattern.computeLDSBlockSizes op op.params.kpack).a_block_space
            (GridwiseGemmV2RewritePattern.computeLDSBlockSizes op op.params.kpack).b_block_space ∧
          l.aCopyPerThread
            = op.params.kPerBlock * op.params.kpack * op.params.mPerBlock / op.blockSize ∧
          l.bCopyPerThread
            = op.params.kPerBlock * op.params.kpack * op.params.nPerBlock / op.blockSize ∧
          l.pipeline = emitPipeline Variant.gridwiseGemmV2 (op.a.shape.getD 1 0)
            (op.params.kPerBlock * op.params.kpack))))) := by
  unfold GridwiseGemmV2RewritePattern.matchAndRewrite
  simp only []
  by_cases c6 : (op.params.kPerBlock * op.params.kpack * op.params.mPerBlock
        / op.blockSize = 0 ∨
      op.params.kPerBlock * op.params.kpack * op.params.nPerBlock / op.blockSize = 0)
  · rw [if_pos c6]; exact Or.inl ⟨rfl, c6⟩
  rw [if_neg c6]
  refine Or.inr ⟨c6, ?_⟩
  split
  · exact Or.inl ⟨_, rfl⟩
  split
  · exact Or.inl ⟨_, rfl⟩
  split_ifs <;> first
    | exact Or.inr (Or.inl rfl)
    | exact Or.inr (Or.inr (Or.inl ⟨rfl, by assumption⟩))
    | exact Or.inr (Or.inr (Or.inr ⟨by assumption, Or.inl rfl⟩))
    | exact Or.inr (Or.inr (Or.inr ⟨by assumption,
        Or.inr (Or.inl ⟨rfl, Bool.eq_false_iff.2 (by assumption)⟩)⟩))
    | exact Or.inr (Or.inr (Or.inr ⟨by assumption, Or.inr (Or.inr
        ⟨_, rfl, rfl, rfl, rfl, rfl, rfl, rfl, rfl⟩)⟩))

/-- Claim C11 (shared-memory size formula).  Let `pad x` be the least multiple of the
alignment that is at least `x`, the alignment being `lcm(mPerThread, nPerThread)` in the
generic path and `1` in the matrix-core path.  Then `computeLDSBlockSizes` yields
`sizeA = pad (kPerBlock * pad mPerBlock) * kpack`,
`sizeB = pad (kPerBlock * pad nPerBlock) * kpack` and `total = sizeA + sizeB`, and in
every successful rewrite the buffer has `total` elements, the A region is the slice from
offset `0` to `sizeA` and the B region the slice from offset `sizeA` to `sizeA + sizeB`. -/
theorem C11_lds_size_formula (op : GridwiseGemmOp) (opV2 : GridwiseGemmV2Op) (kpack : Nat)
    (hm : 0 < op.params.mPerThread) (hn : 0 < op.params.nPerThread) :
    (∀ pad : Nat → Nat,
      (∀ x, IsLeast {y | Nat.lcm op.params.mPerThread op.params.nPerThread ∣ y ∧ x ≤ y}
        (pad x)) →
      (GridwiseGemmRewritePattern.computeLDSBlockSizes op kpack).a_block_space
        = pad (op.params.kPerBlock * pad op.params.mPerBlock) * kpack ∧
      (GridwiseGemmRewritePattern.computeLDSBlockSizes op kpack).b_block_space
        = pad (op.params.kPerBlock * pad op.params.nPerBlock) * kpack) ∧
    (GridwiseGemmRewritePattern.computeLDSBlockSizes op kpack).block_space
      = (GridwiseGemmRewritePattern.computeLDSBlockSizes op kpack).a_block_space
        + (GridwiseGemmRewritePattern.computeLDSBlockSizes op kpack).b_block_space ∧
    (∀ pad : Nat → Nat, (∀ x, IsLeast {y | 1 ∣ y ∧ x ≤ y} (pad x)) →
      (GridwiseGemmV2RewritePattern.computeLDSBlockSizes opV2 kpack).a_block_space
        = pad (opV2.params.kPerBlock * pad opV2.params.mPerBlock) * kpack ∧
      (GridwiseGemmV2RewritePattern.computeLDSBlockSizes opV2 kpack).b_block_space
        = pad (opV2.params.kPerBlock * pad opV2.params.nPerBlock) * kpack) ∧
    (GridwiseGemmV2RewritePattern.computeLDSBlockSizes opV2 kpack).block_space
      = (GridwiseGemmV2RewritePattern.computeLDSBlockSizes opV2 kpack).a_block_space
        + (GridwiseGemmV2RewritePattern.computeLDSBlockSizes opV2 kpack).b_block_space ∧
    (∀ (gA gB : GemmDimension → Nat → Nat) (s : GeneralGemmBlockStructure) (l : Lowered),
      GridwiseGemmRewritePattern.matchAndRewrite gA gB s op = Except.ok l →
      l.ldsBlockASubview
        = (0, (GridwiseGemmRewritePattern.computeLDSBlockSizes op op.params.kpack).a_block_space) ∧
      l.ldsBlockBSubview
        = ((GridwiseGemmRewritePattern.computeLDSBlockSizes op op.params.kpack).a_block_space,
           (GridwiseGemmRewritePattern.computeLDSBlockSizes op op.params.kpack).block_space) ∧
      l.ldsBlockSize
        = (GridwiseGemmRewritePattern.computeLDSBlockSizes op op.params.kpack).block_space) ∧
    (∀ (gA gB : GemmDimension → Nat → Nat) (xcsIsValid : Ty → Nat → Nat → Nat → Nat → Bool)
        (l : Lowered),
      GridwiseGemmV2RewritePattern.matchAndRewrite gA gB xcsIsValid opV2 = Except.ok l →
      l.ldsBlockASubview
        = (0, (GridwiseGemmV2RewritePattern.computeLDSBlockSizes opV2
                opV2.params.kpack).a_block_space) ∧
      l.ldsBlockBSubview
        = ((GridwiseGemmV2RewritePattern.computeLDSBlockSizes opV2
              opV2.params.kpack).a_block_space,
           (GridwiseGemmV2RewritePattern.computeLDSBlockSizes opV2
              opV2.params.kpack).block_space) ∧
      l.ldsBlockSize
        = (GridwiseGemmV2RewritePattern.computeLDSBlockSizes opV2
            opV2.params.kpack).block_space) := by
  have hal : 0 < Nat.lcm op.params.mPerThread op.params.nPerThread := Nat.lcm_pos hm hn
  refine ⟨?_, rfl, ?_, rfl, ?_, ?_⟩
  · intro pad hpad
    have e : ∀ a, integer_least_multiple a (lcm op.params.mPerThread op.params.nPerThread)
        = pad a := integer_least_multiple_eq pad _ hal hpad
    constructor
    · show integer_least_multiple (op.params.kPerBlock
          * integer_least_multiple op.params.mPerBlock _) _ * kpack = _
      rw [e, e]
    · show integer_least_multiple (op.params.kPerBlock
          * integer_least_multiple op.params.nPerBlock _) _ * kpack = _
      rw [e, e]
  · intro pad hpad
    have e := integer_least_multiple_eq pad 1 Nat.one_pos hpad
    constructor
    · show integer_least_multiple (opV2.params.kPerBlock
          * integer_least_multiple opV2.params.mPerBlock 1) 1 * kpack = _
      rw [e, e]
    · show integer_least_multiple (opV2.params.kPerBlock
          * integer_least_multiple opV2.params.nPerBlock 1) 1 * kpack = _
      rw [e, e]
  · intro gA gB s l h
    rcases generic_matchAndRewrite_cases gA gB s op with
      ⟨e, -⟩ | ⟨e, -⟩ | ⟨e, -⟩ | ⟨e, -⟩ | ⟨-, ⟨e, -⟩ | ⟨-, ⟨e, -⟩ | ⟨-, ⟨_, e⟩ | e | e |
        ⟨l', e, -, h1, h2, h3, -⟩⟩⟩⟩
    all_goals rw [e] at h
    all_goals cases h
    refine ⟨?_, ?_, h1⟩
    · rw [h2]; simp [sliceBufferSubview]
    · rw [h3]; rfl
  · intro gA gB xcsIsValid l h
    rcases v2_matchAndRewrite_cases gA gB xcsIsValid opV2 with
      ⟨e, -⟩ | ⟨-, ⟨_, e⟩ | e | ⟨e, -⟩ | ⟨-, e | ⟨e, -⟩ | ⟨l', e, -, h1, h2, h3, -⟩⟩⟩
    all_goals rw [e] at h
    all_goals cases h
    refine ⟨?_, ?_, h1⟩
    · rw [h2]; simp [sliceBufferSubview]
    · rw [h3]; rfl

/-- the generic budget check counts four bytes for each element -/
theorem generic_lds_result (op : GridwiseGemmOp) (kpack : Nat) :
    (GridwiseGemmRewritePattern.computeLDSBlockSizes op kpack).result = LogicalResult.failure ↔
      ((GridwiseGemmRewritePattern.computeLDSBlockSizes op kpack).a_block_space
        + (GridwiseGemmRewritePattern.computeLDSBlockSizes op kpack).b_block_space) * 4
          > 65536 := by
  simp only [GridwiseGemmRewritePattern.computeLDSBlockSizes, sizeofFloat]
  split_ifs with h
  · simp only [true_iff]; exact h
  · simp only [reduceCtorEq, false_iff]; exact h

/-- the matrix-core budget check counts four bytes for each element -/
theorem v2_lds_result (op : GridwiseGemmV2Op) (kpack : Nat) :
    (GridwiseGemmV2RewritePattern.computeLDSBlockSizes op kpack).result
        = LogicalResult.failure ↔
      ((GridwiseGemmV2RewritePattern.computeLDSBlockSizes op kpack).a_block_space
        + (GridwiseGemmV2RewritePattern.computeLDSBlockSizes op kpack).b_block_space) * 4
          > 65536 := by
  simp only [GridwiseGemmV2RewritePattern.computeLDSBlockSizes, sizeofFloat]
  split_ifs with h
  · simp only [true_iff]; exact h
  · simp only [reduceCtorEq, false_iff]; exact h

/-- Claim C13 (the budget check multiplies by a fixed 4 bytes).  In both
`computeLDSBlockSizes` the result is failure exactly when `(sizeA + sizeB) * 4 > 65536`,
and replacing the element types of the three operands changes nothing in the result: two
operations that differ only in element type get the same outcome. -/
theorem C13_budget_check_fixed_four_bytes (op : GridwiseGemmOp) (opV2 : GridwiseGemmV2Op)
    (kpack : Nat) :
    ((GridwiseGemmRewritePattern.computeLDSBlockSizes op kpack).result = LogicalResult.failure ↔
      ((GridwiseGemmRewritePattern.computeLDSBlockSizes op kpack).a_block_space
        + (GridwiseGemmRewritePattern.computeLDSBlockSizes op kpack).b_block_space) * 4
          > 65536) ∧
    ((GridwiseGemmV2RewritePattern.computeLDSBlockSizes opV2 kpack).result
        = LogicalResult.failure ↔
      ((GridwiseGemmV2RewritePattern.computeLDSBlockSizes opV2 kpack).a_block_space
        + (GridwiseGemmV2RewritePattern.computeLDSBlockSizes opV2 kpack).b_block_space) * 4
          > 65536) ∧
    (∀ ta tb tc : Ty,
      GridwiseGemmRewritePattern.computeLDSBlockSizes
          ⟨⟨op.a.shape, ta⟩, ⟨op.b.shape, tb⟩, ⟨op.c.shape, tc⟩, op.gridSize, op.params⟩ kpack
        = GridwiseGemmRewritePattern.computeLDSBlockSizes op kpack) ∧
    (∀ ta tb tc : Ty,
      GridwiseGemmV2RewritePattern.computeLDSBlockSizes
          ⟨⟨opV2.a.shape, ta⟩, ⟨opV2.b.shape, tb⟩, ⟨opV2.c.shape, tc⟩, opV2.blockSize,
            opV2.gridSize, opV2.params⟩ kpack
        = GridwiseGemmV2RewritePattern.computeLDSBlockSizes opV2 kpack) := by
  exact ⟨generic_lds_result op kpack, v2_lds_result opV2 kpack, fun _ _ _ => rfl,
    fun _ _ _ => rfl⟩

/-- Claim C12 (budget invariant in true bytes), evaluated where it fails: for operands
of 16-bit floats, two bytes an element, with `kPerBlock = 16`, `mPerBlock = nPerBlock = 128`
and `kpack = 8`, both `computeLDSBlockSizes` compute `sizeA = sizeB = 16384`, that is
`32768` elements or `65536` bytes, which is within the budget, and both return failure. -/
theorem C12_budget_counts_four_bytes_for_f16 :
    (GridwiseGemmRewritePattern.computeLDSBlockSizes
        ⟨⟨[1, 256, 256], Ty.f16⟩, ⟨[1, 256, 256], Ty.f16⟩, ⟨[1, 256, 256], Ty.f16⟩, 4,
          ⟨256, 16, 128, 128, 8, 4, 4⟩⟩ 8)
      = ⟨16384, 16384, 32768, LogicalResult.failure⟩ ∧
    32768 * 2 ≤ 65536 ∧
    (GridwiseGemmV2RewritePattern.computeLDSBlockSizes
        ⟨⟨[1, 256, 256], Ty.f16⟩, ⟨[1, 256, 256], Ty.f16⟩, ⟨[1, 256, 256], Ty.f16⟩, 256, 4,
          ⟨16, 128, 128, 8, 64, 64⟩⟩ 8)
      = ⟨16384, 16384, 32768, LogicalResult.failure⟩ := by
  refine ⟨by decide, by decide, by decide⟩

/-- Claim C14 (shared-memory sizing is monotonic).  For the same `mPerThread`,
`nPerThread` and `kPerBlock`, if `kpack`, `mPerBlock` and `nPerBlock` do not decrease then
`sizeA`, `sizeB` and the total computed by `computeLDSBlockSizes` do not decrease, in the
generic and in the matrix-core path; so a plan the budget check rejects stays rejected. -/
theorem C14_lds_sizes_monotonic (op op' : GridwiseGemmOp) (opV2 opV2' : GridwiseGemmV2Op)
    (kpack kpack' : Nat)
    (hmt : op'.params.mPerThread = op.params.mPerThread)
    (hnt : op'.params.nPerThread = op.params.nPerThread)
    (hk : op'.params.kPerBlock = op.params.kPerBlock)
    (hm : op.params.mPerBlock ≤ op'.params.mPerBlock)
    (hn : op.params.nPerBlock ≤ op'.params.nPerBlock)
    (hk2 : opV2'.params.kPerBlock = opV2.params.kPerBlock)
    (hm2 : opV2.params.mPerBlock ≤ opV2'.params.mPerBlock)
    (hn2 : opV2.params.nPerBlock ≤ opV2'.params.nPerBlock)
    (hkpack : kpack ≤ kpack') :
    ((GridwiseGemmRewritePattern.computeLDSBlockSizes op kpack).a_block_space
        ≤ (GridwiseGemmRewritePattern.computeLDSBlockSizes op' kpack').a_block_space ∧
     (GridwiseGemmRewritePattern.computeLDSBlockSizes op kpack).b_block_space
        ≤ (GridwiseGemmRewritePattern.computeLDSBlockSizes op' kpack').b_block_space ∧
     (GridwiseGemmRewritePattern.computeLDSBlockSizes op kpack).block_space
        ≤ (GridwiseGemmRewritePattern.computeLDSBlockSizes op' kpack').block_space ∧
     ((GridwiseGemmRewritePattern.computeLDSBlockSizes op kpack).result
          = LogicalResult.failure →
      (GridwiseGemmRewritePattern.computeLDSBlockSizes op' kpack').result
          = LogicalResult.failure)) ∧
    ((GridwiseGemmV2RewritePattern.computeLDSBlockSizes opV2 kpack).a_block_space
        ≤ (GridwiseGemmV2RewritePattern.computeLDSBlockSizes opV2' kpack').a_block_space ∧
     (GridwiseGemmV2RewritePattern.computeLDSBlockSizes opV2 kpack).b_block_space
        ≤ (GridwiseGemmV2RewritePattern.computeLDSBlockSizes opV2' kpack').b_block_space ∧
     (GridwiseGemmV2RewritePattern.computeLDSBlockSizes opV2 kpack).block_space
        ≤ (GridwiseGemmV2RewritePattern.computeLDSBlockSizes opV2' kpack').block_space ∧
     ((GridwiseGemmV2RewritePattern.computeLDSBlockSizes opV2 kpack).result
          = LogicalResult.failure →
      (GridwiseGemmV2RewritePattern.computeLDSBlockSizes opV2' kpack').result
          = LogicalResult.failure)) := by
  have ha : (GridwiseGemmRewritePattern.computeLDSBlockSizes op kpack).a_block_space
      ≤ (GridwiseGemmRewritePattern.computeLDSBlockSizes op' kpack').a_block_space := by
    simp only [GridwiseGemmRewritePattern.computeLDSBlockSizes, hmt, hnt, hk]
    exact Nat.mul_le_mul (integer_least_multiple_mono _ _ _
      (Nat.mul_le_mul_left _ (integer_least_multiple_mono _ _ _ hm))) hkpack
  have hb : (GridwiseGemmRewritePattern.computeLDSBlockSizes op kpack).b_block_space
      ≤ (GridwiseGemmRewritePattern.computeLDSBlockSizes op' kpack').b_block_space := by
    simp only [GridwiseGemmRewritePattern.computeLDSBlockSizes, hmt, hnt, hk]
    exact Nat.mul_le_mul (integer_least_multiple_mono _ _ _
      (Nat.mul_le_mul_left _ (integer_least_multiple_mono _ _ _ hn))) hkpack
  have ha2 : (GridwiseGemmV2RewritePattern.computeLDSBlockSizes opV2 kpack).a_block_space
      ≤ (GridwiseGemmV2RewritePattern.computeLDSBlockSizes opV2' kpack').a_block_space := by
    simp only [GridwiseGemmV2RewritePattern.computeLDSBlockSizes, hk2]
    exact Nat.mul_le_mul (integer_least_multiple_mono _ _ _
      (Nat.mul_le_mul_left _ (integer_least_multiple_mono _ _ _ hm2))) hkpack
  have hb2 : (GridwiseGemmV2RewritePattern.computeLDSBlockSizes opV2 kpack).b_block_space
      ≤ (GridwiseGemmV2RewritePattern.computeLDSBlockSizes opV2' kpack').b_block_space := by
    simp only [GridwiseGemmV2RewritePattern.computeLDSBlockSizes, hk2]
    exact Nat.mul_le_mul (integer_least_multiple_mono _ _ _
      (Nat.mul_le_mul_left _ (integer_least_multiple_mono _ _ _ hn2))) hkpack
  refine ⟨⟨ha, hb, Nat.add_le_add ha hb, ?_⟩, ⟨ha2, hb2, Nat.add_le_add ha2 hb2, ?_⟩⟩
  · rw [generic_lds_result, generic_lds_result]
    intro h
    have := Nat.mul_le_mul_right 4 (Nat.add_le_add ha hb)
    omega
  · rw [v2_lds_result, v2_lds_result]
    intro h
    have := Nat.mul_le_mul_right 4 (Nat.add_le_add ha2 hb2)
    omega

/-! ## Validation in the two rewrites (C15 - C17) -/

/-- Claim C15 (shape validation in the generic rewrite).  With `A` of shape `[G, K, M]`,
for all shapes of `B` and `C`: the generic `matchAndRewrite` ends with one of the four
mismatch diagnostics if and only if `B[0] != G` or `C[0] != G` or `C[1] != M` or
`B[1] != K` or `C[2] != B[2]`; when the five equalities hold the shape checks pass and
the result is decided by the later planning steps. -/
theorem C15_generic_shape_validation (gA gB : GemmDimension → Nat → Nat)
    (s : GeneralGemmBlockStructure) (op : GridwiseGemmOp) :
    ((GridwiseGemmRewritePattern.matchAndRewrite gA gB s op
          = Except.error RewriteError.mismatchedG ∨
      GridwiseGemmRewritePattern.matchAndRewrite gA gB s op
          = Except.error RewriteError.mismatchedM ∨
      GridwiseGemmRewritePattern.matchAndRewrite gA gB s op
          = Except.error RewriteError.mismatchedK ∨
      GridwiseGemmRewritePattern.matchAndRewrite gA gB s op
          = Except.error RewriteError.mismatchedN) ↔
      (op.b.shape.getD 0 0 ≠ op.a.shape.getD 0 0 ∨ op.c.shape.getD 0 0 ≠ op.a.shape.getD 0 0 ∨
       op.c.shape.getD 1 0 ≠ op.a.shape.getD 2 0 ∨ op.b.shape.getD 1 0 ≠ op.a.shape.getD 1 0 ∨
       op.c.shape.getD 2 0 ≠ op.b.shape.getD 2 0)) ∧
    ((op.b.shape.getD 0 0 = op.a.shape.getD 0 0 ∧ op.c.shape.getD 0 0 = op.a.shape.getD 0 0 ∧
      op.c.shape.getD 1 0 = op.a.shape.getD 2 0 ∧ op.b.shape.getD 1 0 = op.a.shape.getD 1 0 ∧
      op.c.shape.getD 2 0 = op.b.shape.getD 2 0) →
      GridwiseGemmRewritePattern.matchAndRewrite gA gB s op
          = Except.error RewriteError.ldsBlockSizes ∨
      GridwiseGemmRewritePattern.matchAndRewrite gA gB s op
          = Except.error RewriteError.blockSizeTooLarge ∨
      (∃ e, GridwiseGemmRewritePattern.matchAndRewrite gA gB s op
          = Except.error (RewriteError.copyPerThread e)) ∨
      GridwiseGemmRewritePattern.matchAndRewrite gA gB s op
          = Except.error RewriteError.wrapMatrix ∨
      GridwiseGemmRewritePattern.matchAndRewrite gA gB s op
          = Except.error RewriteError.wrapLDSBuffer ∨
      ∃ l, GridwiseGemmRewritePattern.matchAndRewrite gA gB s op = Except.ok l) := by
  rcases generic_matchAndRewrite_cases gA gB s op with
    ⟨e, c⟩ | ⟨e, c1, c⟩ | ⟨e, c1, c2, c⟩ | ⟨e, c1, c2, c3, c⟩ | ⟨⟨c1, c2, c3, c4⟩, ⟨e, -⟩ |
      ⟨-, ⟨e, -⟩ | ⟨-, ⟨_, e⟩ | e | e | ⟨l', e, -⟩⟩⟩⟩
  all_goals rw [e]
  all_goals simp only [Except.error.injEq, reduceCtorEq, or_false, false_or, or_true, true_or,
    true_iff, false_iff, exists_false, exists_eq', RewriteError.copyPerThread.injEq,
    implies_true, and_true, true_and]
  all_goals tauto

/-- Claim C17 (an oversized block is rejected).  With `kPerBlock = kpacksPerBlock * kpack`,
whenever `kPerBlock * mPerBlock / blockSize = 0` or `kPerBlock * nPerBlock / blockSize = 0`
both rewrites return a failure and so no pipeline: the matrix-core rewrite fails at this
very check, the generic one at this check or at one of the checks the source makes before
it (shape mismatch, shared-memory budget). -/
theorem C17_oversized_block_rejected (gA gB : GemmDimension → Nat → Nat)
    (s : GeneralGemmBlockStructure) (xcsIsValid : Ty → Nat → Nat → Nat → Nat → Bool)
    (op : GridwiseGemmOp) (opV2 : GridwiseGemmV2Op) :
    ((op.params.kPerBlock * op.params.kpack * op.params.mPerBlock / op.params.blockSize = 0 ∨
      op.params.kPerBlock * op.params.kpack * op.params.nPerBlock / op.params.blockSize = 0) →
      (∃ e, GridwiseGemmRewritePattern.matchAndRewrite gA gB s op = Except.error e) ∧
      (GridwiseGemmRewritePattern.matchAndRewrite gA gB s op
          = Except.error RewriteError.mismatchedG ∨
       GridwiseGemmRewritePattern.matchAndRewrite gA gB s op
          = Except.error RewriteError.mismatchedM ∨
       GridwiseGemmRewritePattern.matchAndRewrite gA gB s op
          = Except.error RewriteError.mismatchedK ∨
       GridwiseGemmRewritePattern.matchAndRewrite gA gB s op
          = Except.error RewriteError.mismatchedN ∨
       GridwiseGemmRewritePattern.matchAndRewrite gA gB s op
          = Except.error RewriteError.ldsBlockSizes ∨
       GridwiseGemmRewritePattern.matchAndRewrite gA gB s op
          = Except.error RewriteError.blockSizeTooLarge)) ∧
    ((opV2.params.kPerBlock * opV2.params.kpack * opV2.params.mPerBlock / opV2.blockSize = 0 ∨
      opV2.params.kPerBlock * opV2.params.kpack * opV2.params.nPerBlock / opV2.blockSize = 0) →
      GridwiseGemmV2RewritePattern.matchAndRewrite gA gB xcsIsValid opV2
        = Except.error RewriteError.blockSizeTooLarge) := by
  constructor
  · intro h
    rcases generic_matchAndRewrite_cases gA gB s op with
      ⟨e, -⟩ | ⟨e, -⟩ | ⟨e, -⟩ | ⟨e, -⟩ | ⟨-, ⟨e, -⟩ | ⟨-, ⟨e, -⟩ | ⟨c, -⟩⟩⟩
    · exact ⟨⟨_, e⟩, Or.inl e⟩
    · exact ⟨⟨_, e⟩, Or.inr (Or.inl e)⟩
    · exact ⟨⟨_, e⟩, Or.inr (Or.inr (Or.inl e))⟩
    · exact ⟨⟨_, e⟩, Or.inr (Or.inr (Or.inr (Or.inl e)))⟩
    · exact ⟨⟨_, e⟩, Or.inr (Or.inr (Or.inr (Or.inr (Or.inl e))))⟩
    · exact ⟨⟨_, e⟩, Or.inr (Or.inr (Or.inr (Or.inr (Or.inr e))))⟩
    · exact absurd h c
  · intro h
    rcases v2_matchAndRewrite_cases gA gB xcsIsValid opV2 with ⟨e, -⟩ | ⟨c, -⟩
    · exact e
    · exact absurd h c

/-- Claim C16 (shape validation in the matrix-core rewrite), evaluated where it fails:
for `A : [1, 64, 128]`, `B : [2, 32, 128]`, `C : [3, 256, 512]`, whose batch, reduction and
free extents all disagree, the matrix-core `matchAndRewrite` succeeds and plans its
pipeline with `K = 64` read from `A`, while the generic `matchAndRewrite` rejects the same
three shapes with the batch mismatch diagnostic. -/
theorem C16_v2_accepts_mismatched_shapes :
    (∃ l, GridwiseGemmV2RewritePattern.matchAndRewrite
        (fun d _ => if d = GemmDimension.K then 1 else 4)
        (fun d _ => if d = GemmDimension.K then 1 else 4)
        (fun _ _ _ _ _ => true)
        ⟨⟨[1, 64, 128], Ty.f16⟩, ⟨[2, 32, 128], Ty.f16⟩, ⟨[3, 256, 512], Ty.f16⟩, 256, 4,
          ⟨4, 64, 64, 4, 32, 32⟩⟩ = Except.ok l ∧
      l.pipeline = emitPipeline Variant.gridwiseGemmV2 64 16) ∧
    GridwiseGemmRewritePattern.matchAndRewrite
        (fun d _ => if d = GemmDimension.K then 1 else 4)
        (fun d _ => if d = GemmDimension.K then 1 else 4)
        ⟨8, 8, 2, 2⟩
        ⟨⟨[1, 64, 128], Ty.f16⟩, ⟨[2, 32, 128], Ty.f16⟩, ⟨[3, 256, 512], Ty.f16⟩, 4,
          ⟨256, 4, 64, 64, 4, 4, 4⟩⟩ = Except.error RewriteError.mismatchedG := by
  refine ⟨⟨_, rfl, rfl⟩, rfl⟩

/-! ## Accumulator type (C18) -/

/-- Claim C18 (accumulator type selection).  The function `obtainAccumulatorType` returns
the 32-bit float type when the element type is `f16` or `bf16`, whatever the destination
type; the 32-bit integer type when the element type is an 8-bit integer of any
signedness, whatever the destination type; and the destination type in every other case,
whatever the element type. -/
theorem C18_accumulator_type (elementType destType : Ty) :
    ((elementType = Ty.f16 ∨ elementType = Ty.bf16) →
      obtainAccumulatorType elementType destType = Ty.f32) ∧
    ((∃ s, elementType = Ty.integer 8 s) →
      obtainAccumulatorType elementType destType = Ty.integer 32 Signedness.signless) ∧
    ((elementType ≠ Ty.f16 ∧ elementType ≠ Ty.bf16 ∧ ∀ s, elementType ≠ Ty.integer 8 s) →
      obtainAccumulatorType elementType destType = destType) := by
  refine ⟨?_, ?_, ?_⟩
  · rintro (rfl | rfl) <;> rfl
  · rintro ⟨s, rfl⟩; rfl
  · rintro ⟨h1, h2, h3⟩
    cases elementType with
    | f16 => exact absurd rfl h1
    | bf16 => exact absurd rfl h2
    | f32 => rfl
    | other n => rfl
    | integer w s =>
      have hw : w ≠ 8 := fun h => h3 s (by rw [h])
      simp [obtainAccumulatorType, Ty.isF16, Ty.isBF16, Ty.isInteger, hw]

/-! ## Global-load view: iteration split and block axes (C19, C20) -/

/-- a copy shape returned by `computeCopyPerThread` has the vector width as its extent
along the vectorized axis -/
theorem computeCopyPerThread_vector_extent (dim : GemmDimension)
    (vectorLen copyPerThread kPerBlock dPerBlock kPerThread dPerThread : Nat)
    (h : computeCopyPerThread dim vectorLen copyPerThread kPerBlock dPerBlock
      = Except.ok (kPerThread, dPerThread)) :
    (dim = GemmDimension.K → kPerThread = vectorLen) ∧
    (dim = GemmDimension.MorN → dPerThread = vectorLen) := by
  unfold computeCopyPerThread at h
  cases dim
  · simp only [if_true] at h
    split_ifs at h
    simp only [Except.ok.injEq, Prod.mk.injEq] at h
    exact ⟨fun _ => h.1.symm, fun c => nomatch c⟩
  · simp only [reduceCtorEq, if_false] at h
    split_ifs at h
    simp only [Except.ok.injEq, Prod.mk.injEq] at h
    exact ⟨fun c => (nomatch c), fun _ => h.2.symm⟩

/-- Claim C19 (the vectorized axis is innermost in the global-load iteration space).
In `wrapMatrixForGlobalLoad`, for every `iter` (in particular every
`iter < kPerThread * dPerThread`): when `vectorDim` is `K` the iteration is split as
`(d_iter, k_iter) = (iter / kPerThread, iter % kPerThread)`, otherwise as
`(k_iter, d_iter) = (iter / dPerThread, iter % dPerThread)`, and these two digits are
what is added to the thread's base position along `k` and along `d`.  Hence, for a
per-thread shape returned by `computeCopyPerThread` for the width `w`, the `w` iterations
`j * w + t` with `t < w` address the positions `t` further along the vectorized axis than
iteration `j * w` does, at the same batch and the same position along the other axis. -/
theorem C19_vectorized_axis_innermost (kGlobal dGlobal : Nat) (dName : String)
    (bidGridOrder : List String) (bidGridLengths : List Nat)
    (gridSize blockSize kPerBlock dPerBlock kPerThread dPerThread : Nat)
    (vectorDim : GemmDimension) (k_loop bid tid : Nat)
    (hname : dName = "m" ∨ dName = "n") :
    (∀ iter,
      merge [dPerThread, kPerThread] iter = [iter / kPerThread, iter % kPerThread] ∧
      merge [kPerThread, dPerThread] iter = [iter / dPerThread, iter % dPerThread] ∧
      (vectorDim = GemmDimension.K →
        wrapMatrixForGlobalLoad kGlobal dGlobal dName bidGridOrder bidGridLengths gridSize
            blockSize kPerBlock dPerBlock kPerThread dPerThread vectorDim k_loop bid tid iter
          = some (lookupDim bidGridOrder (merge bidGridLengths bid) "g_block",
              k_loop * (kPerBlock / kPerThread * kPerThread)
                + (tid % (kPerBlock / kPerThread) * kPerThread + iter % kPerThread),
              lookupDim bidGridOrder (merge bidGridLengths bid)
                  (if dName = "m" then "m_block" else "n_block")
                  * (dPerBlock / dPerThread * dPerThread)
                + (tid / (kPerBlock / kPerThread) * dPerThread + iter / kPerThread))) ∧
      (vectorDim = GemmDimension.MorN →
        wrapMatrixForGlobalLoad kGlobal dGlobal dName bidGridOrder bidGridLengths gridSize
            blockSize kPerBlock dPerBlock kPerThread dPerThread vectorDim k_loop bid tid iter
          = some (lookupDim bidGridOrder (merge bidGridLengths bid) "g_block",
              k_loop * (kPerBlock / kPerThread * kPerThread)
                + (tid % (kPerBlock / kPerThread) * kPerThread + iter / dPerThread),
              lookupDim bidGridOrder (merge bidGridLengths bid)
                  (if dName = "m" then "m_block" else "n_block")
                  * (dPerBlock / dPerThread * dPerThread)
                + (tid / (kPerBlock / kPerThread) * dPerThread + iter % dPerThread)))) ∧
    (∀ w quota,
      computeCopyPerThread vectorDim w quota kPerBlock dPerBlock
        = Except.ok (kPerThread, dPerThread) →
      ∀ j t, t < w →
        ∃ g k d,
          wrapMatrixForGlobalLoad kGlobal dGlobal dName bidGridOrder bidGridLengths gridSize
              blockSize kPerBlock dPerBlock kPerThread dPerThread vectorDim k_loop bid tid
              (j * w) = some (g, k, d) ∧
          wrapMatrixForGlobalLoad kGlobal dGlobal dName bidGridOrder bidGridLengths gridSize
              blockSize kPerBlock dPerBlock kPerThread dPerThread vectorDim k_loop bid tid
              (j * w + t)
            = some (if vectorDim = GemmDimension.K then (g, k + t, d) else (g, k, d + t))) := by
  constructor
  · intro iter
    refine ⟨by simp [merge], by simp [merge], ?_, ?_⟩
    · intro hv
      rw [wrapMatrixForGlobalLoad_eq _ _ _ _ _ _ _ _ _ _ _ _ _ _ _ _ hname, if_pos hv, if_pos hv]
    · intro hv
      have hv2 : ¬ vectorDim = GemmDimension.K := by rw [hv]; decide
      rw [wrapMatrixForGlobalLoad_eq _ _ _ _ _ _ _ _ _ _ _ _ _ _ _ _ hname, if_neg hv2,
        if_neg hv2]
  · intro w quota hcopy j t ht
    have hw : 0 < w := Nat.lt_of_le_of_lt (Nat.zero_le t) ht
    have hext := computeCopyPerThread_vector_extent _ _ _ _ _ _ _ hcopy
    rw [wrapMatrixForGlobalLoad_eq _ _ _ _ _ _ _ _ _ _ _ _ _ _ _ _ hname,
      wrapMatrixForGlobalLoad_eq _ _ _ _ _ _ _ _ _ _ _ _ _ _ _ _ hname]
    refine ⟨_, _, _, rfl, ?_⟩
    cases vectorDim
    · have e : kPerThread = w := hext.1 rfl
      subst e
      simp only [if_true]
      rw [div_mul_add_lt j kPerThread t ht, mod_mul_add_lt j kPerThread t ht,
        Nat.mul_mod_left, Nat.mul_div_cancel j hw]
      simp only [Nat.add_zero, Nat.add_assoc]
    · have e : dPerThread = w := hext.2 rfl
      subst e
      simp only [reduceCtorEq, if_false]
      rw [div_mul_add_lt j dPerThread t ht, mod_mul_add_lt j dPerThread t ht,
        Nat.mul_mod_left, Nat.mul_div_cancel j hw]
      simp only [Nat.add_zero, Nat.add_assoc]

/-- Claim C20 (the other operand's block axis is ignored by the global-load mapping).
For two block ids whose decompositions have the same `g_block`: if they also have the
same `m_block`, the `(g, k, m)` coordinate that `wrapMatrixForGlobalLoad` produces for
operand A (`dName` is `m`) is the same for both, whatever their `n_block`; if they have
the same `n_block`, the `(g, k, n)` coordinate produced for operand B (`dName` is `n`) is
the same for both, whatever their `m_block`.  For all `k_loop`, `tid` and `iter`. -/
theorem C20_other_block_axis_ignored (kGlobal dGlobal : Nat)
    (bidGridOrder : List String) (bidGridLengths : List Nat)
    (gridSize blockSize kPerBlock dPerBlock kPerThread dPerThread : Nat)
    (vectorDim : GemmDimension) (bid bid' : Nat)
    (hg : lookupDim bidGridOrder (merge bidGridLengths bid) "g_block"
      = lookupDim bidGridOrder (merge bidGridLengths bid') "g_block") :
    (lookupDim bidGridOrder (merge bidGridLengths bid) "m_block"
        = lookupDim bidGridOrder (merge bidGridLengths bid') "m_block" →
      ∀ k_loop tid iter,
        wrapMatrixForGlobalLoad kGlobal dGlobal "m" bidGridOrder bidGridLengths gridSize
            blockSize kPerBlock dPerBlock kPerThread dPerThread vectorDim k_loop bid tid iter
          = wrapMatrixForGlobalLoad kGlobal dGlobal "m" bidGridOrder bidGridLengths gridSize
            blockSize kPerBlock dPerBlock kPerThread dPerThread vectorDim k_loop bid' tid
            iter) ∧
    (lookupDim bidGridOrder (merge bidGridLengths bid) "n_block"
        = lookupDim bidGridOrder (merge bidGridLengths bid') "n_block" →
      ∀ k_loop tid iter,
        wrapMatrixForGlobalLoad kGlobal dGlobal "n" bidGridOrder bidGridLengths gridSize
            blockSize kPerBlock dPerBlock kPerThread dPerThread vectorDim k_loop bid tid iter
          = wrapMatrixForGlobalLoad kGlobal dGlobal "n" bidGridOrder bidGridLengths gridSize
            blockSize kPerBlock dPerBlock kPerThread dPerThread vectorDim k_loop bid' tid
            iter) := by
  constructor
  · intro hm k_loop tid iter
    have e : (if ("m" : String) = "m" then "m_block" else "n_block") = "m_block" :=
      if_pos rfl
    rw [wrapMatrixForGlobalLoad_eq _ _ _ _ _ _ _ _ _ _ _ _ _ _ _ _ (Or.inl rfl),
      wrapMatrixForGlobalLoad_eq _ _ _ _ _ _ _ _ _ _ _ _ _ _ _ _ (Or.inl rfl), e, hg, hm]
  · intro hn k_loop tid iter
    have e : (if ("n" : String) = "m" then "m_block" else "n_block") = "n_block" :=
      if_neg (by decide)
    rw [wrapMatrixForGlobalLoad_eq _ _ _ _ _ _ _ _ _ _ _ _ _ _ _ _ (Or.inr rfl),
      wrapMatrixForGlobalLoad_eq _ _ _ _ _ _ _ _ _ _ _ _ _ _ _ _ (Or.inr rfl), e, hg, hn]

/-! ## Axis names and the output swizzle (C21, C22, C26) -/

/-- Claim C21 (axis-name validation).  The function `wrapMatrixForGlobalLoad` fails if
and only if `dName` is neither `m` nor `n`; for `dName` equal to `m` or to `n` it returns
a mapping (a coordinate for every input), whatever the numeric parameters. -/
theorem C21_axis_name_validation (kGlobal dGlobal : Nat) (dName : String)
    (bidGridOrder : List String) (bidGridLengths : List Nat)
    (gridSize blockSize kPerBlock dPerBlock kPerThread dPerThread : Nat)
    (vectorDim : GemmDimension) (k_loop bid tid iter : Nat) :
    (wrapMatrixForGlobalLoad kGlobal dGlobal dName bidGridOrder bidGridLengths gridSize
        blockSize kPerBlock dPerBlock kPerThread dPerThread vectorDim k_loop bid tid iter
        = none ↔ (dName ≠ "m" ∧ dName ≠ "n")) ∧
    ((dName = "m" ∨ dName = "n") →
      ∃ c, wrapMatrixForGlobalLoad kGlobal dGlobal dName bidGridOrder bidGridLengths gridSize
        blockSize kPerBlock dPerBlock kPerThread dPerThread vectorDim k_loop bid tid iter
        = some c) := by
  constructor
  · constructor
    · intro h
      by_contra hc
      have hn : dName = "m" ∨ dName = "n" := by
        by_cases h1 : dName = "m"
        · exact Or.inl h1
        · by_cases h2 : dName = "n"
          · exact Or.inr h2
          · exact absurd ⟨h1, h2⟩ hc
      rw [wrapMatrixForGlobalLoad_eq _ _ _ _ _ _ _ _ _ _ _ _ _ _ _ _ hn] at h
      cases h
    · intro h
      unfold wrapMatrixForGlobalLoad
      rw [if_pos h]
  · intro hn
    exact ⟨_, wrapMatrixForGlobalLoad_eq _ _ _ _ _ _ _ _ _ _ _ _ _ _ _ _ hn⟩

/-- Claim C22 (the output swizzle is win-or-noop).  With `w0` the contiguity of the
output along the register index and `w1` the contiguity along the thread id for the group
of `4`: the swizzle is applied if and only if `w0 = 1` and `w1 = 4`; when it is applied
the store width is `4`, more than `w0`; when it is not, the store width is `w0` and the
coordinate maps are the ones given; and the store width is never less than `w0`. -/
theorem C22_swizzle_win_or_noop {γ : Type} (getMaxVectorization : Nat → Nat → Nat)
    (blockSize numElements : Nat) (idToTensorCMaps : Nat × Nat × Nat → γ) :
    ((GridwiseGemmV2RewritePattern.outputStore getMaxVectorization blockSize numElements
        idToTensorCMaps).enableOutSwizzles = true ↔
      (getMaxVectorization 2 numElements = 1 ∧ getMaxVectorization 1 4 = 4)) ∧
    ((GridwiseGemmV2RewritePattern.outputStore getMaxVectorization blockSize numElements
        idToTensorCMaps).enableOutSwizzles = true →
      (GridwiseGemmV2RewritePattern.outputStore getMaxVectorization blockSize numElements
        idToTensorCMaps).tensorCDataPerCopy = 4 ∧
      getMaxVectorization 2 numElements
        < (GridwiseGemmV2RewritePattern.outputStore getMaxVectorization blockSize numElements
            idToTensorCMaps).tensorCDataPerCopy ∧
      (GridwiseGemmV2RewritePattern.outputStore getMaxVectorization blockSize numElements
        idToTensorCMaps).idToTensorCMaps
        = fun x => idToTensorCMaps
            (indexCombine (indexSplit blockSize numElements x.1 x.2.1 x.2.2))) ∧
    ((GridwiseGemmV2RewritePattern.outputStore getMaxVectorization blockSize numElements
        idToTensorCMaps).enableOutSwizzles = false →
      (GridwiseGemmV2RewritePattern.outputStore getMaxVectorization blockSize numElements
        idToTensorCMaps).tensorCDataPerCopy = getMaxVectorization 2 numElements ∧
      (GridwiseGemmV2RewritePattern.outputStore getMaxVectorization blockSize numElements
        idToTensorCMaps).idToTensorCMaps = idToTensorCMaps) ∧
    getMaxVectorization 2 numElements
      ≤ (GridwiseGemmV2RewritePattern.outputStore getMaxVectorization blockSize numElements
          idToTensorCMaps).tensorCDataPerCopy := by
  unfold GridwiseGemmV2RewritePattern.outputStore
  simp only [swizzleGroup]
  by_cases h : ((getMaxVectorization 2 numElements == 1)
      && (getMaxVectorization 1 4 == 4)) = true
  · rw [if_pos h]
    simp only [Bool.and_eq_true, beq_iff_eq] at h
    refine ⟨⟨fun _ => h, fun _ => rfl⟩, fun _ => ⟨h.2, ?_, rfl⟩, fun c => ?_, ?_⟩
    · show _ < getMaxVectorization 1 4
      rw [h.1, h.2]; decide
    · cases c
    · show _ ≤ getMaxVectorization 1 4
      rw [h.1, h.2]; decide
  · rw [if_neg h]
    simp only [Bool.and_eq_true, beq_iff_eq] at h
    refine ⟨⟨fun c => ?_, fun c => absurd c h⟩, fun c => ?_, fun _ => ⟨rfl, rfl⟩,
      Nat.le_refl _⟩
    · cases c
    · cases c

/-- the composed swizzle map in closed form -/
theorem indexCombine_indexSplit (blockSize numElements bid tid iter : Nat) :
    indexCombine (indexSplit blockSize numElements bid tid iter)
      = (bid, 4 * (tid / 4) + iter % 4, 4 * (iter / 4) + tid % 4) := by
  simp [indexCombine, indexSplit, merge, embed]

/-- Claim C26 (the coordinate transform of the output swizzle is a transpose inside
`4 x 4` groups).  The composed map of `indexSplit` and `indexCombine` sends
`(bid, tid, iter)` to `(bid, 4 * (tid / 4) + iter % 4, 4 * (iter / 4) + tid % 4)`;
applying it twice gives back `(bid, tid, iter)`; and for `blockSize` and `numElements`
both divisible by `4` it is a bijection of
`[0, gridSize) x [0, blockSize) x [0, numElements)` onto itself that leaves `bid`
unchanged. -/
theorem C26_swizzle_is_transpose (gridSize blockSize numElements : Nat)
    (hb : 4 ∣ blockSize) (hn : 4 ∣ numElements) :
    (∀ bid tid iter,
      indexCombine (indexSplit blockSize numElements bid tid iter)
        = (bid, 4 * (tid / 4) + iter % 4, 4 * (iter / 4) + tid % 4)) ∧
    (∀ bid tid iter,
      indexCombine (indexSplit blockSize numElements
        (indexCombine (indexSplit blockSize numElements bid tid iter)).1
        (indexCombine (indexSplit blockSize numElements bid tid iter)).2.1
        (indexCombine (indexSplit blockSize numElements bid tid iter)).2.2)
        = (bid, tid, iter)) ∧
    Set.BijOn
      (fun x : Nat × Nat × Nat => indexCombine (indexSplit blockSize numElements x.1 x.2.1 x.2.2))
      {x | x.1 < gridSize ∧ x.2.1 < blockSize ∧ x.2.2 < numElements}
      {x | x.1 < gridSize ∧ x.2.1 < blockSize ∧ x.2.2 < numElements} ∧
    (∀ bid tid iter,
      (indexCombine (indexSplit blockSize numElements bid tid iter)).1 = bid) := by
  have inv : ∀ bid tid iter,
      indexCombine (indexSplit blockSize numElements
        (indexCombine (indexSplit blockSize numElements bid tid iter)).1
        (indexCombine (indexSplit blockSize numElements bid tid iter)).2.1
        (indexCombine (indexSplit blockSize numElements bid tid iter)).2.2)
        = (bid, tid, iter) := by
    intro bid tid iter
    simp only [indexCombine_indexSplit, Prod.mk.injEq, true_and]
    constructor <;> omega
  have maps : Set.MapsTo
      (fun x : Nat × Nat × Nat => indexCombine (indexSplit blockSize numElements x.1 x.2.1 x.2.2))
      {x | x.1 < gridSize ∧ x.2.1 < blockSize ∧ x.2.2 < numElements}
      {x | x.1 < gridSize ∧ x.2.1 < blockSize ∧ x.2.2 < numElements} := by
    rintro ⟨bid, tid, iter⟩ ⟨h1, h2, h3⟩
    simp only [indexCombine_indexSplit, Set.mem_setOf_eq] at h1 h2 h3 ⊢
    obtain ⟨a, rfl⟩ := hb
    obtain ⟨c, rfl⟩ := hn
    refine ⟨h1, ?_, ?_⟩ <;> omega
  refine ⟨indexCombine_indexSplit blockSize numElements, inv, ⟨maps, ?_, ?_⟩,
    fun bid tid iter => by rw [indexCombine_indexSplit]⟩
  · rintro ⟨bid, tid, iter⟩ _ ⟨bid', tid', iter'⟩ _ h
    have e1 := inv bid tid iter
    have e2 := inv bid' tid' iter'
    simp only at h
    rw [h, e2] at e1
    exact e1.symm
  · rintro ⟨bid, tid, iter⟩ hx
    refine ⟨indexCombine (indexSplit blockSize numElements bid tid iter), maps hx, ?_⟩
    exact inv bid tid iter

/-! ## Steady iterations of the pipeline (C24) -/

/-- the quotient rounded up, by quotient and remainder -/
theorem ceil_div_eq (K p : Nat) (hp : 1 ≤ p) :
    (K + p - 1) / p = K / p + (if K % p = 0 then 0 else 1) := by
  have hK : K + p - 1 = (K % p + p - 1) + K / p * p := by
    have := Nat.div_add_mod K p
    have e : p * (K / p) = K / p * p := Nat.mul_comm _ _
    omega
  have hr : K % p < p := Nat.mod_lt _ hp
  rw [hK, Nat.add_mul_div_right _ _ hp]
  split_ifs with h0
  · rw [h0, Nat.div_eq_of_lt (by omega)]; omega
  · have : (K % p + p - 1) / p = 1 :=
      Nat.div_eq_of_lt_le (by omega) (by omega)
    rw [this]; omega

/-- Claim C24 as stated fails at `K = 17`, `kPerBlock = 4 * 4 = 16`, for both rewrite
patterns: the quotient rounded up is `2`, so the claim has one steady iteration, and the
emitted pipeline has none (`nIterations = 17 / 16 = 1` and the loop is erased). -/
theorem C24_counterexample :
    1 ≤ 17 ∧ 1 ≤ 4 * 4 ∧ (17 + 4 * 4 - 1) / (4 * 4) - 1 = 1 ∧
    (steadyIvs (emitPipeline Variant.gridwiseGemm 17 (4 * 4))).length = 0 ∧
    (steadyIvs (emitPipeline Variant.gridwiseGemmV2 17 (4 * 4))).length = 0 ∧
    (steadyIvs (emitPipeline Variant.gridwiseGemm 17 (4 * 4))).length
      ≠ (17 + 4 * 4 - 1) / (4 * 4) - 1 := by
  decide

/-- Claim C24, amended (steady-state count as a floor).  For every `K >= 1` and
`kPerBlock = kpacksPerBlock * kpack >= 1`, in both rewrite patterns: the body of the
steady loop is executed `K / kPerBlock - 1` times, the quotient being rounded down (and
no time when the quotient is `0`); the drain compute step is executed exactly once; and
the number of steady iterations is the quotient rounded up minus one if and only if
`kPerBlock` divides `K` or `K < kPerBlock`. -/
theorem C24_steady_count_floor (v : Variant) (K kpacksPerBlock kpack : Nat)
    (hK : 1 ≤ K) (hk : 1 ≤ kpacksPerBlock * kpack) :
    (steadyIvs (emitPipeline v K (kpacksPerBlock * kpack))).length
        = K / (kpacksPerBlock * kpack) - 1 ∧
    ((unroll (emitPipeline v K (kpacksPerBlock * kpack))).filter
        (fun d => d.1.isSome && d.2.isCompute)).length
        = K / (kpacksPerBlock * kpack) - 1 ∧
    ((unroll (emitPipeline v K (kpacksPerBlock * kpack))).filter
        (fun d => d.1.isNone && d.2.isCompute)).length = 1 ∧
    ((steadyIvs (emitPipeline v K (kpacksPerBlock * kpack))).length
        = (K + kpacksPerBlock * kpack - 1) / (kpacksPerBlock * kpack) - 1 ↔
      (kpacksPerBlock * kpack ∣ K ∨ K < kpacksPerBlock * kpack)) := by
  generalize kpacksPerBlock * kpack = p at hk ⊢
  have hlen : (steadyIvs (emitPipeline v K p)).length = K / p - 1 := by
    rw [steadyIvs_emitPipeline, List.length_range']
  refine ⟨hlen, ?_, ?_, ?_⟩
  · rw [unroll_emitPipeline]
    simp only [List.filter_append, List.length_append]
    rw [filter_flatMap_body _ _ _ 1 (by intro i; simp [Op.isCompute]), List.length_range']
    simp [Op.isCompute]
  · rw [unroll_emitPipeline]
    simp only [List.filter_append, List.length_append]
    rw [filter_flatMap_body _ _ _ 0 (by intro i; simp [Op.isCompute])]
    simp [Op.isCompute]
  · rw [hlen, ceil_div_eq K p hk, Nat.dvd_iff_mod_eq_zero]
    have hq : K < p ↔ K / p = 0 := by
      rw [Nat.div_eq_zero_iff (by omega)]
    rw [hq]
    generalize K / p = q
    split_ifs with h0
    · simp [h0]
    · simp only [h0, false_or]
      omega

/-! ## Thread grid, padding and the copy shape after the selector (C25, C29, C30) -/

/-- Claim C25 (thread-grid identity asserted in `wrapMatrixForGlobalLoad`), evaluated
where it fails: for `kPerBlock = 1`, `dPerBlock = 96`, `blockSize = 64` the quota is
`1 * 96 / 64 = 1`, the selector returns the width `1`, `computeCopyPerThread` returns the
shape `(1, 1)`, and `kThreads * dThreads = 1 * 96 = 96`, which is not `blockSize`; the
generic rewrite accepts an operation with these parameters, and no thread of the block
loads the element `(k, d) = (0, 80)` of the first tile. -/
theorem C25_thread_grid_not_block_size :
    bestVectorization (fun _ _ => 1) (1 * 96 / 64) GemmDimension.K 1 96
      = (GemmDimension.K, 1) ∧
    computeCopyPerThread GemmDimension.K 1 (1 * 96 / 64) 1 96 = Except.ok (1, 1) ∧
    (1 / 1) * (96 / 1) = 96 ∧ 1 * 96 / (1 * 96 / 64) = 96 ∧ (1 / 1) * (96 / 1) ≠ 64 ∧
    (∃ l, GridwiseGemmRewritePattern.matchAndRewrite (fun _ _ => 1) (fun _ _ => 1)
        ⟨4, 4, 2, 2⟩
        ⟨⟨[1, 64, 192], Ty.f32⟩, ⟨[1, 64, 192], Ty.f32⟩, ⟨[1, 192, 192], Ty.f32⟩, 4,
          ⟨64, 1, 96, 96, 1, 4, 4⟩⟩ = Except.ok l ∧
      l.aCopyPerThread = 1 ∧ l.aCopyShape = (1, 1) ∧ l.bCopyShape = (1, 1)) ∧
    (∀ tid iter, tid < 64 → iter < 1 * 1 →
      wrapMatrixForGlobalLoad 64 192 "m" ["g_block", "m_block", "n_block"] [1, 2, 2] 4 64
        1 96 1 1 GemmDimension.K 0 0 tid iter ≠ some (0, 0, 80)) := by
  refine ⟨rfl, rfl, by decide, by decide, by decide, ⟨_, rfl, rfl, rfl, rfl⟩, ?_⟩
  intro tid iter ht hi
  rw [wrapMatrixForGlobalLoad_eq _ _ _ _ _ _ _ _ _ _ _ _ _ _ _ _ (Or.inl rfl)]
  simp only [if_true, ne_eq, Option.some.injEq, Prod.mk.injEq, not_and]
  intro _ _
  omega

/-- the padded value is its argument exactly when the alignment divides the argument -/
theorem integer_least_multiple_eq_self_iff (a b : Nat) (hb : 0 < b) :
    integer_least_multiple a b = a ↔ b ∣ a := by
  have h := integer_least_multiple_isLeast a b hb
  constructor
  · intro e
    have := h.1.1
    rw [e] at this
    exact this
  · intro hd
    exact Nat.le_antisymm (h.2 ⟨hd, Nat.le_refl a⟩) h.1.2

/-- the outer rounding of `computeLDSBlockSizes` changes nothing -/
theorem integer_least_multiple_outer (k a b : Nat) (hb : 0 < b) :
    integer_least_multiple (k * integer_least_multiple a b) b
      = k * integer_least_multiple a b :=
  (integer_least_multiple_eq_self_iff _ b hb).2
    (Dvd.dvd.mul_left (integer_least_multiple_isLeast a b hb).1.1 k)

/-- a region of `k * pad d * kpack` elements against the `k * d * kpack` of its view -/
theorem padded_region (k d kpack b : Nat) (hb : 0 < b) (hk : 0 < k) (hkpack : 0 < kpack) :
    k * d * kpack ≤ k * integer_least_multiple d b * kpack ∧
    (k * integer_least_multiple d b * kpack = k * d * kpack ↔ b ∣ d) := by
  have hle : d ≤ integer_least_multiple d b := (integer_least_multiple_isLeast d b hb).1.2
  refine ⟨Nat.mul_le_mul_right _ (Nat.mul_le_mul_left _ hle), ?_⟩
  rw [← integer_least_multiple_eq_self_iff d b hb]
  constructor
  · intro h
    have h1 := Nat.eq_of_mul_eq_mul_right hkpack h
    exact Nat.eq_of_mul_eq_mul_left hk h1
  · intro h
    rw [h]

/-- Claim C29 (the padded LDS region holds the tile view laid over it, and the outer
padding is a no-op).  With `pad x` the least multiple of the alignment that is at least
`x`, the alignment being `lcm(mPerThread, nPerThread)` in the generic path and `1` in the
matrix-core path, and for positive parameters: `computeLDSBlockSizes` gives
`sizeA = kPerBlock * pad mPerBlock * kpack`, so `sizeA >= kPerBlock * mPerBlock * kpack`,
the element count of the view laid over the A region, with equality if and only if the
alignment divides `mPerBlock`; likewise for `sizeB` with `nPerBlock`. -/
theorem C29_lds_region_holds_tile (op : GridwiseGemmOp) (opV2 : GridwiseGemmV2Op)
    (kpack : Nat)
    (hmt : 0 < op.params.mPerThread) (hnt : 0 < op.params.nPerThread)
    (hk : 0 < op.params.kPerBlock) (hk2 : 0 < opV2.params.kPerBlock) (hkpack : 0 < kpack) :
    ((∀ pad : Nat → Nat,
        (∀ x, IsLeast {y | Nat.lcm op.params.mPerThread op.params.nPerThread ∣ y ∧ x ≤ y}
          (pad x)) →
        (GridwiseGemmRewritePattern.computeLDSBlockSizes op kpack).a_block_space
          = op.params.kPerBlock * pad op.params.mPerBlock * kpack ∧
        (GridwiseGemmRewritePattern.computeLDSBlockSizes op kpack).b_block_space
          = op.params.kPerBlock * pad op.params.nPerBlock * kpack) ∧
      op.params.kPerBlock * op.params.mPerBlock * kpack
        ≤ (GridwiseGemmRewritePattern.computeLDSBlockSizes op kpack).a_block_space ∧
      ((GridwiseGemmRewritePattern.computeLDSBlockSizes op kpack).a_block_space
          = op.params.kPerBlock * op.params.mPerBlock * kpack ↔
        Nat.lcm op.params.mPerThread op.params.nPerThread ∣ op.params.mPerBlock) ∧
      op.params.kPerBlock * op.params.nPerBlock * kpack
        ≤ (GridwiseGemmRewritePattern.computeLDSBlockSizes op kpack).b_block_space ∧
      ((GridwiseGemmRewritePattern.computeLDSBlockSizes op kpack).b_block_space
          = op.params.kPerBlock * op.params.nPerBlock * kpack ↔
        Nat.lcm op.params.mPerThread op.params.nPerThread ∣ op.params.nPerBlock)) ∧
    ((∀ pad : Nat → Nat, (∀ x, IsLeast {y | 1 ∣ y ∧ x ≤ y} (pad x)) →
        (GridwiseGemmV2RewritePattern.computeLDSBlockSizes opV2 kpack).a_block_space
          = opV2.params.kPerBlock * pad opV2.params.mPerBlock * kpack ∧
        (GridwiseGemmV2RewritePattern.computeLDSBlockSizes opV2 kpack).b_block_space
          = opV2.params.kPerBlock * pad opV2.params.nPerBlock * kpack) ∧
      opV2.params.kPerBlock * opV2.params.mPerBlock * kpack
        ≤ (GridwiseGemmV2RewritePattern.computeLDSBlockSizes opV2 kpack).a_block_space ∧
      ((GridwiseGemmV2RewritePattern.computeLDSBlockSizes opV2 kpack).a_block_space
          = opV2.params.kPerBlock * opV2.params.mPerBlock * kpack ↔
        1 ∣ opV2.params.mPerBlock) ∧
      opV2.params.kPerBlock * opV2.params.nPerBlock * kpack
        ≤ (GridwiseGemmV2RewritePattern.computeLDSBlockSizes opV2 kpack).b_block_space ∧
      ((GridwiseGemmV2RewritePattern.computeLDSBlockSizes opV2 kpack).b_block_space
          = opV2.params.kPerBlock * opV2.params.nPerBlock * kpack ↔
        1 ∣ opV2.params.nPerBlock)) := by
  have hal : 0 < Nat.lcm op.params.mPerThread op.params.nPerThread := Nat.lcm_pos hmt hnt
  have ea : (GridwiseGemmRewritePattern.computeLDSBlockSizes op kpack).a_block_space
      = op.params.kPerBlock * integer_least_multiple op.params.mPerBlock
          (Nat.lcm op.params.mPerThread op.params.nPerThread) * kpack := by
    show integer_least_multiple (op.params.kPerBlock
      * integer_least_multiple op.params.mPerBlock
          (Nat.lcm op.params.mPerThread op.params.nPerThread))
      (Nat.lcm op.params.mPerThread op.params.nPerThread) * kpack = _
    rw [integer_least_multiple_outer _ _ _ hal]
  have eb : (GridwiseGemmRewritePattern.computeLDSBlockSizes op kpack).b_block_space
      = op.params.kPerBlock * integer_least_multiple op.params.nPerBlock
          (Nat.lcm op.params.mPerThread op.params.nPerThread) * kpack := by
    show integer_least_multiple (op.params.kPerBlock
      * integer_least_multiple op.params.nPerBlock
          (Nat.lcm op.params.mPerThread op.params.nPerThread))
      (Nat.lcm op.params.mPerThread op.params.nPerThread) * kpack = _
    rw [integer_least_multiple_outer _ _ _ hal]
  have ea2 : (GridwiseGemmV2RewritePattern.computeLDSBlockSizes opV2 kpack).a_block_space
      = opV2.params.kPerBlock * integer_least_multiple opV2.params.mPerBlock 1 * kpack := by
    show integer_least_multiple (opV2.params.kPerBlock
      * integer_least_multiple opV2.params.mPerBlock 1) 1 * kpack = _
    rw [integer_least_multiple_outer _ _ _ Nat.one_pos]
  have eb2 : (GridwiseGemmV2RewritePattern.computeLDSBlockSizes opV2 kpack).b_block_space
      = opV2.params.kPerBlock * integer_least_multiple opV2.params.nPerBlock 1 * kpack := by
    show integer_least_multiple (opV2.params.kPerBlock
      * integer_least_multiple opV2.params.nPerBlock 1) 1 * kpack = _
    rw [integer_least_multiple_outer _ _ _ Nat.one_pos]
  have pa := padded_region op.params.kPerBlock op.params.mPerBlock kpack _ hal hk hkpack
  have pb := padded_region op.params.kPerBlock op.params.nPerBlock kpack _ hal hk hkpack
  have pa2 := padded_region opV2.params.kPerBlock opV2.params.mPerBlock kpack 1 Nat.one_pos
    hk2 hkpack
  have pb2 := padded_region opV2.params.kPerBlock opV2.params.nPerBlock kpack 1 Nat.one_pos
    hk2 hkpack
  rw [ea, eb, ea2, eb2]
  refine ⟨⟨?_, pa.1, pa.2, pb.1, pb.2⟩, ⟨?_, pa2.1, pa2.2, pb2.1, pb2.2⟩⟩
  · intro pad hpad
    rw [integer_least_multiple_eq pad _ hal hpad, integer_least_multiple_eq pad _ hal hpad]
    exact ⟨rfl, rfl⟩
  · intro pad hpad
    rw [integer_least_multiple_eq pad 1 Nat.one_pos hpad,
      integer_least_multiple_eq pad 1 Nat.one_pos hpad]
    exact ⟨rfl, rfl⟩

/-- Claim C30 (the "copy size too small" branch is unreachable after the selector).  If
the contiguity query returns, for both axes, a value between `1` and the quota, and
`kPerBlock`, `dPerBlock` and the quota are at least `1`, then the width `w` that
`bestVectorization` returns satisfies `1 <= w <= quota` and is at most the per-block
extent of the returned axis; the division `quota / w` has a nonzero divisor and a result
of at least `1`; `computeCopyPerThread` does not report "copy size too small"; it fails
exactly when the extent `quota / w` along the other axis exceeds that axis's per-block
extent, with the "per thread copy smaller than per block copy" error; and otherwise it
returns a shape whose two extents are at least `1`. -/
theorem C30_copy_size_branch_unreachable (getMaxVectorization : GemmDimension → Nat → Nat)
    (quota kPerBlock dPerBlock : Nat) (tiebreaker : GemmDimension)
    (hv : ∀ dim, 1 ≤ getMaxVectorization dim quota ∧ getMaxVectorization dim quota ≤ quota)
    (hk : 1 ≤ kPerBlock) (hd : 1 ≤ dPerBlock) (hq : 1 ≤ quota) :
    ∀ dim w, bestVectorization getMaxVectorization quota tiebreaker kPerBlock dPerBlock
        = (dim, w) →
      1 ≤ w ∧ w ≤ quota ∧ w ≠ 0 ∧ 1 ≤ quota / w ∧
      w ≤ perBlockExtent dim kPerBlock dPerBlock ∧
      computeCopyPerThread dim w quota kPerBlock dPerBlock
        ≠ Except.error CopyError.copySizeTooSmall ∧
      (computeCopyPerThread dim w quota kPerBlock dPerBlock
          = Except.error CopyError.incoherentTuning ↔
        (if dim = GemmDimension.K then dPerBlock else kPerBlock) < quota / w) ∧
      (¬ (if dim = GemmDimension.K then dPerBlock else kPerBlock) < quota / w →
        ∃ copyKPerThread copyDPerThread,
          computeCopyPerThread dim w quota kPerBlock dPerBlock
            = Except.ok (copyKPerThread, copyDPerThread) ∧
          1 ≤ copyKPerThread ∧ 1 ≤ copyDPerThread) := by
  intro dim w hbest
  have hvK := hv GemmDimension.K
  have hvD := hv GemmDimension.MorN
  have hw : 1 ≤ w ∧ w ≤ quota ∧ w ≤ perBlockExtent dim kPerBlock dPerBlock := by
    unfold bestVectorization at hbest
    simp only at hbest
    split_ifs at hbest with h1 h2
    · simp only [Prod.mk.injEq] at hbest
      obtain ⟨rfl, rfl⟩ := hbest
      simp only [perBlockExtent]
      omega
    · simp only [Prod.mk.injEq] at hbest
      obtain ⟨rfl, rfl⟩ := hbest
      simp only [perBlockExtent]
      omega
    · simp only [Prod.mk.injEq] at hbest
      obtain ⟨rfl, rfl⟩ := hbest
      cases tiebreaker <;> simp only [perBlockExtent] <;> omega
  obtain ⟨hw1, hw2, hw3⟩ := hw
  have hdiv : 1 ≤ quota / w := Nat.div_pos hw2 hw1
  refine ⟨hw1, hw2, by omega, hdiv, hw3, ?_⟩
  have hcopy : computeCopyPerThread dim w quota kPerBlock dPerBlock
      = (if (if dim = GemmDimension.K then w else quota / w) = 0
            ∨ (if dim = GemmDimension.K then quota / w else w) = 0 then
          Except.error CopyError.copySizeTooSmall
        else if kPerBlock < (if dim = GemmDimension.K then w else quota / w)
            ∨ dPerBlock < (if dim = GemmDimension.K then quota / w else w) then
          Except.error CopyError.incoherentTuning
        else Except.ok ((if dim = GemmDimension.K then w else quota / w),
          (if dim = GemmDimension.K then quota / w else w))) := rfl
  rw [hcopy]
  generalize quota / w = r at hdiv ⊢
  cases dim
  · simp only [perBlockExtent] at hw3
    simp only [if_true]
    have c1 : ¬ (w = 0 ∨ r = 0) := by omega
    rw [if_neg c1]
    by_cases c2 : dPerBlock < r
    · rw [if_pos (Or.inr c2)]
      exact ⟨by simp, by simp [c2], fun h => absurd c2 h⟩
    · have c3 : ¬ (kPerBlock < w ∨ dPerBlock < r) := by omega
      rw [if_neg c3]
      exact ⟨by simp, by simp [c2], fun _ => ⟨w, r, rfl, hw1, hdiv⟩⟩
  · simp only [perBlockExtent] at hw3
    simp only [reduceCtorEq, if_false]
    have c1 : ¬ (r = 0 ∨ w = 0) := by omega
    rw [if_neg c1]
    by_cases c2 : kPerBlock < r
    · rw [if_pos (Or.inl c2)]
      exact ⟨by simp, by simp [c2], fun h => absurd c2 h⟩
    · have c3 : ¬ (kPerBlock < r ∨ dPerBlock < w) := by omega
      rw [if_neg c3]
      exact ⟨by simp, by simp [c2], fun _ => ⟨r, w, rfl, hdiv, hw1⟩⟩

/-! ## Permutation of the load vector and coverage of the tile (C27, C28) -/

/-- two digits are determined by their weighted sum -/
theorem two_digit_inj (b q r q' r' : Nat) (hr : r < b) (hr' : r' < b)
    (h : q * b + r = q' * b + r') : q = q' ∧ r = r' := by
  have h1 := congrArg (· / b) h
  have h2 := congrArg (· % b) h
  simp only [div_mul_add_lt _ _ _ hr, div_mul_add_lt _ _ _ hr', mod_mul_add_lt _ _ _ hr,
    mod_mul_add_lt _ _ _ hr'] at h1 h2
  exact ⟨h1, h2⟩

/-- Claim C27 (the load-vector layout is a permutation).  For `kPerThread`, `dPerThread`,
`kpack` at least `1` with `kpackPerThread = min kPerThread kpack` dividing `kPerThread`,
and for both vectorization axes: the map of `globalVectorLayout` sends every
`iter < kPerThread * dPerThread` to a flat index
`raw = (k * dPerThread + d) * kpackPerThread + kpack_thread` with
`k < kPerThread / kpackPerThread`, `d < dPerThread`, `kpack_thread < kpackPerThread`, and
it is a bijection of `[0, kPerThread * dPerThread)` onto itself. -/
theorem C27_load_vector_layout_permutation (kPerThread dPerThread kpack : Nat)
    (vectorDim : GemmDimension)
    (hk : 1 ≤ kPerThread) (hd : 1 ≤ dPerThread) (hkpack : 1 ≤ kpack)
    (hdiv : min kPerThread kpack ∣ kPerThread) :
    (∀ iter, iter < kPerThread * dPerThread →
      ∃ k d kpack_thread, k < kPerThread / min kPerThread kpack ∧ d < dPerThread ∧
        kpack_thread < min kPerThread kpack ∧
        globalVectorLayout kPerThread dPerThread kpack vectorDim iter
          = (k * dPerThread + d) * min kPerThread kpack + kpack_thread) ∧
    Set.BijOn (globalVectorLayout kPerThread dPerThread kpack vectorDim)
      {iter | iter < kPerThread * dPerThread} {raw | raw < kPerThread * dPerThread} := by
  obtain ⟨o, ho⟩ := hdiv
  generalize hp : min kPerThread kpack = p at ho
  have hp0 : 0 < p := by rw [← hp]; exact Nat.lt_min.2 ⟨hk, hkpack⟩
  have hop : o * p = kPerThread := by rw [ho, Nat.mul_comm]
  have hodiv : kPerThread / p = o := by rw [← hop, Nat.mul_div_cancel _ hp0]
  have hprod : kPerThread * dPerThread = o * (dPerThread * p) := by rw [← hop]; ring
  have dig := fun i (hi : i < kPerThread * dPerThread) =>
    vector_digits kPerThread dPerThread kpack vectorDim i p o hp hop hp0 hi
  have maps : Set.MapsTo (globalVectorLayout kPerThread dPerThread kpack vectorDim)
      {iter | iter < kPerThread * dPerThread} {raw | raw < kPerThread * dPerThread} := by
    intro i hi
    obtain ⟨kv, dv, pv, hdv, hpv, hkv, e, -, -⟩ := dig i hi
    simp only [Set.mem_setOf_eq]
    rw [e, hprod]
    exact mul_add_lt_mul o (dPerThread * p) kv (dv * p + pv) hkv
      (mul_add_lt_mul dPerThread p dv pv hdv hpv)
  refine ⟨?_, (Set.finite_lt_nat _).injOn_iff_bijOn_of_mapsTo maps |>.1 ?_⟩
  · intro i hi
    obtain ⟨kv, dv, pv, hdv, hpv, hkv, e, -, -⟩ := dig i hi
    refine ⟨kv, dv, pv, by rw [hodiv]; exact hkv, hdv, hpv, ?_⟩
    rw [e]; ring
  · intro i hi i' hi'
    obtain ⟨kv, dv, pv, hdv, hpv, hkv, e, ek, ed⟩ := dig i hi
    obtain ⟨kv', dv', pv', hdv', hpv', hkv', e', ek', ed'⟩ := dig i' hi'
    intro h
    rw [e, e'] at h
    obtain ⟨a1, a2⟩ := two_digit_inj (dPerThread * p) kv _ kv' _
      (mul_add_lt_mul dPerThread p dv pv hdv hpv)
      (mul_add_lt_mul dPerThread p dv' pv' hdv' hpv') h
    obtain ⟨b1, b2⟩ := two_digit_inj p dv pv dv' pv' hpv hpv' a2
    subst a1 b1 b2
    rw [← ek'] at ek
    rw [← ed'] at ed
    cases vectorDim
    · simp only [if_true] at ek ed
      rw [← Nat.div_add_mod i kPerThread, ← Nat.div_add_mod i' kPerThread, ek, ed]
    · simp only [reduceCtorEq, if_false] at ek ed
      rw [← Nat.div_add_mod i dPerThread, ← Nat.div_add_mod i' dPerThread, ek, ed]

/-- the two digits of an index below `a * b` -/
theorem two_digit_split (a b x : Nat) (h : x < a * b) :
    x / b < a ∧ x % b < b ∧ x / b * b + x % b = x := by
  have hb : 0 < b := by
    rcases Nat.eq_zero_or_pos b with h0 | h0
    · rw [h0] at h; simp at h
    · exact h0
  refine ⟨Nat.div_lt_of_lt_mul (by rw [Nat.mul_comm]; exact h), Nat.mod_lt _ hb, ?_⟩
  rw [Nat.mul_comm]; exact Nat.div_add_mod x b

/-- the global-load view on an in-range `(tid, iter)`, by thread digits and iteration
digits -/
theorem wrapMatrixForGlobalLoad_digits (kGlobal dGlobal : Nat) (dName : String)
    (bidGridOrder : List String) (bidGridLengths : List Nat)
    (gridSize blockSize kPerBlock dPerBlock kPerThread dPerThread : Nat)
    (vectorDim : GemmDimension) (k_loop bid tid iter : Nat)
    (hname : dName = "m" ∨ dName = "n")
    (ht : tid < kPerBlock / kPerThread * (dPerBlock / dPerThread))
    (hi : iter < kPerThread * dPerThread) :
    ∃ kt dt ki di, kt < kPerBlock / kPerThread ∧ dt < dPerBlock / dPerThread ∧
      ki < kPerThread ∧ di < dPerThread ∧
      wrapMatrixForGlobalLoad kGlobal dGlobal dName bidGridOrder bidGridLengths gridSize
          blockSize kPerBlock dPerBlock kPerThread dPerThread vectorDim k_loop bid tid iter
        = some (lookupDim bidGridOrder (merge bidGridLengths bid) "g_block",
            k_loop * (kPerBlock / kPerThread * kPerThread) + (kt * kPerThread + ki),
            lookupDim bidGridOrder (merge bidGridLengths bid)
                (if dName = "m" then "m_block" else "n_block")
                * (dPerBlock / dPerThread * dPerThread)
              + (dt * dPerThread + di)) ∧
      tid = dt * (kPerBlock / kPerThread) + kt ∧
      iter = (if vectorDim = GemmDimension.K then di * kPerThread + ki
              else ki * dPerThread + di) := by
  rw [wrapMatrixForGlobalLoad_eq _ _ _ _ _ _ _ _ _ _ _ _ _ _ _ _ hname]
  obtain ⟨t1, t2, t3⟩ := two_digit_split (dPerBlock / dPerThread) (kPerBlock / kPerThread) tid
    (by rw [Nat.mul_comm]; exact ht)
  cases vectorDim
  · obtain ⟨i1, i2, i3⟩ := two_digit_split dPerThread kPerThread iter
      (by rw [Nat.mul_comm]; exact hi)
    exact ⟨tid % (kPerBlock / kPerThread), tid / (kPerBlock / kPerThread), iter % kPerThread,
      iter / kPerThread, t2, t1, i2, i1, by simp, t3.symm, by simp [i3]⟩
  · obtain ⟨i1, i2, i3⟩ := two_digit_split kPerThread dPerThread iter hi
    exact ⟨tid % (kPerBlock / kPerThread), tid / (kPerBlock / kPerThread), iter / dPerThread,
      iter % dPerThread, t2, t1, i1, i2, by simp, t3.symm, by simp [i3]⟩

/-- the global-load view at the `(tid, iter)` made of given in-range digits -/
theorem wrapMatrixForGlobalLoad_at_digits (kGlobal dGlobal : Nat) (dName : String)
    (bidGridOrder : List String) (bidGridLengths : List Nat)
    (gridSize blockSize kPerBlock dPerBlock kPerThread dPerThread : Nat)
    (vectorDim : GemmDimension) (k_loop bid kt dt ki di : Nat)
    (hname : dName = "m" ∨ dName = "n")
    (hkt : kt < kPerBlock / kPerThread) (hdt : dt < dPerBlock / dPerThread)
    (hki : ki < kPerThread) (hdi : di < dPerThread) :
    dt * (kPerBlock / kPerThread) + kt < kPerBlock / kPerThread * (dPerBlock / dPerThread) ∧
    (if vectorDim = GemmDimension.K then di * kPerThread + ki else ki * dPerThread + di)
      < kPerThread * dPerThread ∧
    wrapMatrixForGlobalLoad kGlobal dGlobal dName bidGridOrder bidGridLengths gridSize
        blockSize kPerBlock dPerBlock kPerThread dPerThread vectorDim k_loop bid
        (dt * (kPerBlock / kPerThread) + kt)
        (if vectorDim = GemmDimension.K then di * kPerThread + ki else ki * dPerThread + di)
      = some (lookupDim bidGridOrder (merge bidGridLengths bid) "g_block",
          k_loop * (kPerBlock / kPerThread * kPerThread) + (kt * kPerThread + ki),
          lookupDim bidGridOrder (merge bidGridLengths bid)
              (if dName = "m" then "m_block" else "n_block")
              * (dPerBlock / dPerThread * dPerThread)
            + (dt * dPerThread + di)) := by
  rw [wrapMatrixForGlobalLoad_eq _ _ _ _ _ _ _ _ _ _ _ _ _ _ _ _ hname]
  refine ⟨by rw [Nat.mul_comm (kPerBlock / kPerThread)]; exact mul_add_lt_mul _ _ _ _ hdt hkt,
    ?_, ?_⟩
  · cases vectorDim
    · simp only [if_true]
      rw [Nat.mul_comm kPerThread]; exact mul_add_lt_mul _ _ _ _ hdi hki
    · simp only [reduceCtorEq, if_false]
      exact mul_add_lt_mul _ _ _ _ hki hdi
  · rw [div_mul_add_lt _ _ _ hkt, mod_mul_add_lt _ _ _ hkt]
    cases vectorDim
    · simp only [if_true]
      rw [div_mul_add_lt _ _ _ hki, mod_mul_add_lt _ _ _ hki]
    · simp only [reduceCtorEq, if_false]
      rw [div_mul_add_lt _ _ _ hdi, mod_mul_add_lt _ _ _ hdi]

/-- Claim C28 (global-load tile coverage).  For every `k_loop` and block id, with
`kPerThread` dividing `kPerBlock`, `dPerThread` dividing `dPerBlock` and
`(kPerBlock / kPerThread) * (dPerBlock / dPerThread) = blockSize`: the view of
`wrapMatrixForGlobalLoad` sends `(tid, iter)` to
`k = (k_loop * kThreads + k_thread) * kPerThread + k_iter` and
`d = (d_block * dThreads + d_thread) * dPerThread + d_iter`, where
`tid = d_thread * kThreads + k_thread`, and it is a bijection from
`[0, blockSize) x [0, kPerThread * dPerThread)` onto the coordinates of the block's tile
`[k_loop * kPerBlock, (k_loop + 1) * kPerBlock) x
[d_block * dPerBlock, (d_block + 1) * dPerBlock)` of the block's batch: every element of
the tile is loaded by exactly one thread in exactly one iteration, and nothing outside
the tile is. -/
theorem C28_global_load_tile_coverage (kGlobal dGlobal : Nat) (dName : String)
    (bidGridOrder : List String) (bidGridLengths : List Nat)
    (gridSize blockSize kPerBlock dPerBlock kPerThread dPerThread : Nat)
    (vectorDim : GemmDimension) (k_loop bid : Nat)
    (hname : dName = "m" ∨ dName = "n")
    (hkt : kPerThread ∣ kPerBlock) (hdt : dPerThread ∣ dPerBlock)
    (hbs : kPerBlock / kPerThread * (dPerBlock / dPerThread) = blockSize) :
    (∀ tid iter,
      wrapMatrixForGlobalLoad kGlobal dGlobal dName bidGridOrder bidGridLengths gridSize
          blockSize kPerBlock dPerBlock kPerThread dPerThread vectorDim k_loop bid tid iter
        = some (lookupDim bidGridOrder (merge bidGridLengths bid) "g_block",
            (k_loop * (kPerBlock / kPerThread) + tid % (kPerBlock / kPerThread)) * kPerThread
              + (if vectorDim = GemmDimension.K then iter % kPerThread
                 else iter / dPerThread),
            (lookupDim bidGridOrder (merge bidGridLengths bid)
                  (if dName = "m" then "m_block" else "n_block") * (dPerBlock / dPerThread)
                + tid / (kPerBlock / kPerThread)) * dPerThread
              + (if vectorDim = GemmDimension.K then iter / kPerThread
                 else iter % dPerThread)) ∧
      tid = tid / (kPerBlock / kPerThread) * (kPerBlock / kPerThread)
        + tid % (kPerBlock / kPerThread)) ∧
    Set.BijOn
      (fun x : Nat × Nat =>
        wrapMatrixForGlobalLoad kGlobal dGlobal dName bidGridOrder bidGridLengths gridSize
          blockSize kPerBlock dPerBlock kPerThread dPerThread vectorDim k_loop bid x.1 x.2)
      {x | x.1 < blockSize ∧ x.2 < kPerThread * dPerThread}
      (Set.image some {y : Nat × Nat × Nat |
        y.1 = lookupDim bidGridOrder (merge bidGridLengths bid) "g_block" ∧
        k_loop * kPerBlock ≤ y.2.1 ∧ y.2.1 < (k_loop + 1) * kPerBlock ∧
        lookupDim bidGridOrder (merge bidGridLengths bid)
            (if dName = "m" then "m_block" else "n_block") * dPerBlock ≤ y.2.2 ∧
        y.2.2 < (lookupDim bidGridOrder (merge bidGridLengths bid)
            (if dName = "m" then "m_block" else "n_block") + 1) * dPerBlock}) := by
  have eK : kPerBlock / kPerThread * kPerThread = kPerBlock := Nat.div_mul_cancel hkt
  have eD : dPerBlock / dPerThread * dPerThread = dPerBlock := Nat.div_mul_cancel hdt
  subst hbs
  generalize hg : lookupDim bidGridOrder (merge bidGridLengths bid) "g_block" = g
  generalize hdb : lookupDim bidGridOrder (merge bidGridLengths bid)
    (if dName = "m" then "m_block" else "n_block") = db
  have hdig := fun tid iter ht hi =>
    wrapMatrixForGlobalLoad_digits kGlobal dGlobal dName bidGridOrder bidGridLengths gridSize
      (kPerBlock / kPerThread * (dPerBlock / dPerThread)) kPerBlock dPerBlock kPerThread
      dPerThread vectorDim k_loop bid tid iter hname ht hi
  have hat := fun kt dt ki di h1 h2 h3 h4 =>
    wrapMatrixForGlobalLoad_at_digits kGlobal dGlobal dName bidGridOrder bidGridLengths
      gridSize (kPerBlock / kPerThread * (dPerBlock / dPerThread)) kPerBlock dPerBlock
      kPerThread dPerThread vectorDim k_loop bid kt dt ki di hname h1 h2 h3 h4
  rw [hg, hdb] at hdig hat
  rw [eK, eD] at hdig hat
  have e1 : (k_loop + 1) * kPerBlock = k_loop * kPerBlock + kPerBlock := Nat.succ_mul _ _
  have e2 : (db + 1) * dPerBlock = db * dPerBlock + dPerBlock := Nat.succ_mul _ _
  refine ⟨?_, ?_, ?_, ?_⟩
  · intro tid iter
    rw [wrapMatrixForGlobalLoad_eq _ _ _ _ _ _ _ _ _ _ _ _ _ _ _ _ hname, hg, hdb]
    refine ⟨?_, (Nat.div_add_mod' _ _).symm⟩
    congr 3 <;> ring
  · rintro ⟨tid, iter⟩ ⟨ht, hi⟩
    obtain ⟨kt, dt, ki, di, h1, h2, h3, h4, hw, -, -⟩ := hdig tid iter ht hi
    have b1 := mul_add_lt_mul _ _ _ _ h1 h3
    have b2 := mul_add_lt_mul _ _ _ _ h2 h4
    rw [eK] at b1
    rw [eD] at b2
    refine ⟨_, ⟨rfl, ?_, ?_, ?_, ?_⟩, hw.symm⟩ <;> simp only <;> omega
  · rintro ⟨tid, iter⟩ ⟨ht, hi⟩ ⟨tid', iter'⟩ ⟨ht', hi'⟩ heq
    obtain ⟨kt, dt, ki, di, h1, h2, h3, h4, hw, et, ei⟩ := hdig tid iter ht hi
    obtain ⟨kt', dt', ki', di', h1', h2', h3', h4', hw', et', ei'⟩ := hdig tid' iter' ht' hi'
    simp only [hw, hw', Option.some.injEq, Prod.mk.injEq, true_and] at heq
    obtain ⟨a1, a2⟩ := two_digit_inj _ _ _ _ _ h3 h3' (Nat.add_left_cancel heq.1)
    obtain ⟨c1, c2⟩ := two_digit_inj _ _ _ _ _ h4 h4' (Nat.add_left_cancel heq.2)
    rw [et, ei, et', ei', a1, a2, c1, c2]
  · rintro _ ⟨⟨g', k, d⟩, ⟨hg', hk1, hk2, hd1, hd2⟩, rfl⟩
    simp only at hg' hk1 hk2 hd1 hd2
    obtain ⟨h1, h3, ek⟩ := two_digit_split (kPerBlock / kPerThread) kPerThread
      (k - k_loop * kPerBlock) (by rw [eK]; omega)
    obtain ⟨h2, h4, ed⟩ := two_digit_split (dPerBlock / dPerThread) dPerThread
      (d - db * dPerBlock) (by rw [eD]; omega)
    obtain ⟨b1, b2, hw⟩ := hat _ _ _ _ h1 h2 h3 h4
    refine ⟨(_, _), ⟨b1, b2⟩, hw.trans ?_⟩
    simp only [Option.some.injEq, Prod.mk.injEq]
    refine ⟨hg'.symm, ?_, ?_⟩ <;> omega

/-! ## The accepted scenario (C23) -/

/-- Claim C23 (concrete accepted scenario).  For `G = 1`, `K = 64`, `M = N = 128`,
elements of type `f16` or `bf16`, `blockSize = 64`, `mPerBlock = nPerBlock = 64`,
`kPerBlock = 16`, `kpack = 1`, `mPerThread = nPerThread = 4` (and a grid of `4` blocks):
the accumulator type is the 32-bit float type, for every destination type;
`computeLDSBlockSizes` gives `sizeA = sizeB = 1024` and a total of `2048` elements,
counted as `8192 <= 65536` bytes, and succeeds; the generic rewrite fails at none of the
shape, budget and block-size checks; whenever it succeeds it has
`aCopyPerThread = bCopyPerThread = 16`, the LDS regions `[0, 1024)` and `[1024, 2048)`
and a pipeline whose steady loop runs for the induction values `1, 2, 3` and whose drain
compute step runs once; and it does succeed for a contiguity of `1` along `K` and `4`
along `M`/`N`. -/
theorem C23_accepted_scenario (e : Ty) (he : e = Ty.f16 ∨ e = Ty.bf16) :
    (∀ tc, obtainAccumulatorType e tc = Ty.f32) ∧
    GridwiseGemmRewritePattern.computeLDSBlockSizes
        ⟨⟨[1, 64, 128], e⟩, ⟨[1, 64, 128], e⟩, ⟨[1, 128, 128], e⟩, 4,
          ⟨64, 16, 64, 64, 1, 4, 4⟩⟩ 1
      = ⟨1024, 1024, 2048, LogicalResult.success⟩ ∧
    2048 * sizeofFloat = 8192 ∧ 8192 ≤ 64 * 1024 ∧
    (∀ (gA gB : GemmDimension → Nat → Nat) (s : GeneralGemmBlockStructure),
      (∀ err, GridwiseGemmRewritePattern.matchAndRewrite gA gB s
          ⟨⟨[1, 64, 128], e⟩, ⟨[1, 64, 128], e⟩, ⟨[1, 128, 128], e⟩, 4,
            ⟨64, 16, 64, 64, 1, 4, 4⟩⟩ = Except.error err →
        err ≠ RewriteError.mismatchedG ∧ err ≠ RewriteError.mismatchedM ∧
        err ≠ RewriteError.mismatchedK ∧ err ≠ RewriteError.mismatchedN ∧
        err ≠ RewriteError.ldsBlockSizes ∧ err ≠ RewriteError.blockSizeTooLarge) ∧
      (∀ l, GridwiseGemmRewritePattern.matchAndRewrite gA gB s
          ⟨⟨[1, 64, 128], e⟩, ⟨[1, 64, 128], e⟩, ⟨[1, 128, 128], e⟩, 4,
            ⟨64, 16, 64, 64, 1, 4, 4⟩⟩ = Except.ok l →
        l.accumulatorType = Ty.f32 ∧ l.aCopyPerThread = 16 ∧ l.bCopyPerThread = 16 ∧
        l.ldsBlockSize = 2048 ∧ l.ldsBlockASubview = (0, 1024) ∧
        l.ldsBlockBSubview = (1024, 2048) ∧
        steadyIvs l.pipeline = [1, 2, 3] ∧
        (steadyIvs l.pipeline).length = 64 / 16 - 1 ∧
        ((unroll l.pipeline).filter (fun d => d.1.isNone && d.2.isCompute)).length = 1)) ∧
    (∃ l, GridwiseGemmRewritePattern.matchAndRewrite
        (fun d _ => if d = GemmDimension.K then 1 else 4)
        (fun d _ => if d = GemmDimension.K then 1 else 4) ⟨4, 4, 2, 2⟩
        ⟨⟨[1, 64, 128], e⟩, ⟨[1, 64, 128], e⟩, ⟨[1, 128, 128], e⟩, 4,
          ⟨64, 16, 64, 64, 1, 4, 4⟩⟩ = Except.ok l) := by
  rcases he with rfl | rfl
  · refine ⟨fun tc => rfl, by decide, rfl, by decide, ?_, ⟨_, rfl⟩⟩
    intro gA gB s
    rcases generic_matchAndRewrite_cases gA gB s
        ⟨⟨[1, 64, 128], Ty.f16⟩, ⟨[1, 64, 128], Ty.f16⟩, ⟨[1, 128, 128], Ty.f16⟩, 4,
          ⟨64, 16, 64, 64, 1, 4, 4⟩⟩ with
      ⟨-, c⟩ | ⟨-, -, c⟩ | ⟨-, -, -, c⟩ | ⟨-, -, -, -, c⟩ | ⟨-, ⟨-, c⟩ | ⟨-, ⟨-, c⟩ |
        ⟨-, ⟨_, h⟩ | h | h | ⟨l1, h, f1, f2, f3, f4, f5, f6, f7⟩⟩⟩⟩
    · rcases c with c | c <;> exact absurd rfl c
    · exact absurd rfl c
    · exact absurd rfl c
    · exact absurd rfl c
    · exact absurd c (by decide)
    · rcases c with c | c <;> exact absurd c (by decide)
    · rw [h]
      exact ⟨fun err he => (by cases he; simp), fun l hl => (by cases hl)⟩
    · rw [h]
      exact ⟨fun err he => (by cases he; simp), fun l hl => (by cases hl)⟩
    · rw [h]
      exact ⟨fun err he => (by cases he; simp), fun l hl => (by cases hl)⟩
    · rw [h]
      refine ⟨fun err he => (by cases he), fun l hl => ?_⟩
      cases hl
      refine ⟨f1, f5, f6, f2.trans (by decide), f3.trans (by decide), f4.trans (by decide),
        ?_, ?_, ?_⟩
      · rw [f7]; decide
      · rw [f7]; decide
      · rw [f7]; decide
  · refine ⟨fun tc => rfl, by decide, rfl, by decide, ?_, ⟨_, rfl⟩⟩
    intro gA gB s
    rcases generic_matchAndRewrite_cases gA gB s
        ⟨⟨[1, 64, 128], Ty.bf16⟩, ⟨[1, 64, 128], Ty.bf16⟩, ⟨[1, 128, 128], Ty.bf16⟩, 4,
          ⟨64, 16, 64, 64, 1, 4, 4⟩⟩ with
      ⟨-, c⟩ | ⟨-, -, c⟩ | ⟨-, -, -, c⟩ | ⟨-, -, -, -, c⟩ | ⟨-, ⟨-, c⟩ | ⟨-, ⟨-, c⟩ |
        ⟨-, ⟨_, h⟩ | h | h | ⟨l1, h, f1, f2, f3, f4, f5, f6, f7⟩⟩⟩⟩
    · rcases c with c | c <;> exact absurd rfl c
    · exact absurd rfl c
    · exact absurd rfl c
    · exact absurd rfl c
    · exact absurd c (by decide)
    · rcases c with c | c <;> exact absurd c (by decide)
    · rw [h]
      exact ⟨fun err he => (by cases he; simp), fun l hl => (by cases hl)⟩
    · rw [h]
      exact ⟨fun err he => (by cases he; simp), fun l hl => (by cases hl)⟩
    · rw [h]
      exact ⟨fun err he => (by cases he; simp), fun l hl => (by cases hl)⟩
    · rw [h]
      refine ⟨fun err he => (by cases he), fun l hl => ?_⟩
      cases hl
      refine ⟨f1, f5, f6, f2.trans (by decide), f3.trans (by decide), f4.trans (by decide),
        ?_, ?_, ?_⟩
      · rw [f7]; decide
      · rw [f7]; decide
      · rw [f7]; decide

/-! ## Instances -/

/-- Claim C1 at `kpack = 2`, `kPerBlock = 4`, `dPerBlock = 4`, `blockSize = 4`, per-thread
shape `2 x 2`, operand A vectorized along K, `k_loop = 1`, `bid = 2`, `tid = 3`,
iteration `3`. -/
theorem C1_load_store_grouping_witness :
    ∃ g k d,
      wrapMatrixForGlobalLoad 8 8 "m" ["g_block", "m_block", "n_block"] [1, 2, 2] 4
          4 (2 * 2) 4 2 2 GemmDimension.K 1 2 3 3 = some (g, k, d) ∧
      1 * (2 * 2) ≤ k ∧
      lookupDim ["g_block", "m_block", "n_block"] (merge [1, 2, 2] 2)
          (if "m" = "m" then "m_block" else "n_block") * 4 ≤ d ∧
      ∀ r, ldsVectorLayout (2 * 2) 3 r = globalVectorLayout 2 2 2 GemmDimension.K 3 →
        wrapLDSBufferForStore [2, 4, 2] 2 2 3 r =
          some ((k - 1 * (2 * 2)) / 2,
            d - lookupDim ["g_block", "m_block", "n_block"] (merge [1, 2, 2] 2)
                  (if "m" = "m" then "m_block" else "n_block") * 4,
            (k - 1 * (2 * 2)) % 2) :=
  C1_load_store_grouping 2 2 4 4 2 2 8 8 4 "m" ["g_block", "m_block", "n_block"] [1, 2, 2]
    GemmDimension.K 1 2 3 3 (by decide) (Or.inl rfl) (by decide) (by decide) (by decide)
    (Or.inl (by decide)) (by decide) (by decide)

/-- Claim C2 at `G = 1`, `M = 8`, `N = 2` with `mPerBlock = 4`, `nPerBlock = 2`,
`mPerThread = 1`, `nPerThread = 2` and two cu-waves along M. -/
theorem C2_writeback_bijective_witness :
    Set.BijOn
      (idToMatrixC 1 8 2 ⟨2, 1, 4, 2, 1, 1, 2⟩ ⟨1, 1, 2, 1⟩)
      {x | x.1 < 2 ∧ x.2.1 < (⟨2, 1, 4, 2, 1, 1, 2⟩ : GeneralGemmParams).blockSize ∧
        x.2.2 < threadCNumRegisters ⟨2, 1, 4, 2, 1, 1, 2⟩ ⟨1, 1, 2, 1⟩}
      {y | y.1 < 1 ∧ y.2.1 < 8 ∧ y.2.2 < 2} :=
  C2_writeback_bijective 1 8 2 2 ⟨2, 1, 4, 2, 1, 1, 2⟩ ⟨1, 1, 2, 1⟩ (by decide) (by decide)
    (by decide) (by decide) (by decide) (by decide)

/-- Claim C3 at a `4 x 8 x 4` buffer with the per-thread shape `8 x 2`. -/
theorem C3_lds_store_bijective_witness :
    Set.BijOn
      (fun x : Nat × Nat => wrapLDSBufferForStore [4, 8, 4] 8 2 x.1 x.2)
      {x | x.1 < 8 / 2 * (4 / (8 / min 8 4)) * (4 / min 8 4) ∧ x.2 < 8 * 2}
      (Set.image some {y : Nat × Nat × Nat | y.1 < 4 ∧ y.2.1 < 8 ∧ y.2.2 < 4}) :=
  C3_lds_store_bijective 4 8 4 8 2 (by decide) (by decide) (by decide) (by decide)

/-- Claim C6 at `K = 48`, `kPerBlock = 16`: three tiles. -/
theorem C6_double_buffer_data_flow_witness :
    computedTiles (events ExecState.init (unroll (emitPipeline Variant.gridwiseGemmV2 48 16)))
      = (List.range (48 / 16)).map (fun j => (some j, some j)) :=
  (C6_double_buffer_data_flow Variant.gridwiseGemmV2 48 16 (by decide)).2.1

/-- Claim C4 at `K = 48`, `kpacksPerBlock = 4`, `kpack = 4`: two steady iterations and
three loads of each operand. -/
theorem C4_pipeline_iteration_counts_witness :
    (steadyIvs (emitPipeline Variant.gridwiseGemm 48 (4 * 4))).length = 48 / (4 * 4) - 1 :=
  (C4_pipeline_iteration_counts Variant.gridwiseGemm 48 4 4 (by decide) (by decide)).2.1

/-- Claim C8, amended, at `kPerBlock = 4`, `dPerBlock = 64`, `blockSize = 16` and a
contiguity query returning `16` along K and `1` along M/N. -/
theorem C8_width_divides_under_chain_witness :
    (bestVectorization (fun d _ => if d = GemmDimension.K then 16 else 1) 16
        GemmDimension.MorN 4 64).2 ∣ 16 ∧
    (bestVectorization (fun d _ => if d = GemmDimension.K then 16 else 1) 16
        GemmDimension.MorN 4 64).2
      ∣ perBlockExtent
          (bestVectorization (fun d _ => if d = GemmDimension.K then 16 else 1) 16
            GemmDimension.MorN 4 64).1 4 64 :=
  C8_width_divides_under_chain (fun d _ => if d = GemmDimension.K then 16 else 1)
    64 128 4 64 16 16 GemmDimension.MorN (by decide) (by decide) (by decide) (by decide)
    (by decide) (by intro dim; cases dim <;> decide) (by intro dim; cases dim <;> decide)

/-- Claim C9, amended, at the axis `K`, width `4`, quota `16`, `kPerBlock = 4`,
`dPerBlock = 64`. -/
theorem C9_copy_shape_product_witness :
    computeCopyPerThread GemmDimension.K 4 16 4 64 = Except.ok (4, 4) ∧
    4 * 4 ≤ 16 ∧ (4 * 4 = 16 ↔ 4 ∣ 16) :=
  ⟨rfl, C9_copy_shape_product GemmDimension.K 4 16 4 64 4 4 rfl⟩

/-- Claim C10 at width `4`, quota `16`, `kPerBlock = 4`, `dPerBlock = 64`, along `M`/`N`:
no failure condition holds and the shape `(16 / 4, 4)` is returned. -/
theorem C10_copy_shape_failure_witness :
    1 ≤ 4 ∧
    ¬ (16 / 4 = 0 ∨ 4 = 0 ∨ 4 < 16 / 4 ∨ 64 < 4) ∧
    computeCopyPerThread GemmDimension.MorN 4 16 4 64 = Except.ok (16 / 4, 4) :=
  ⟨by decide, by decide,
    (C10_copy_shape_failure 4 16 4 64 (by decide)).2.2.2
      (by
        intro e h
        have h2 : computeCopyPerThread GemmDimension.MorN 4 16 4 64 = Except.ok (4, 4) := rfl
        rw [h2] at h
        cases h)⟩

/-- Claim C11 in the generic path at `mPerThread = 4`, `nPerThread = 6` (alignment `12`),
`kPerBlock = 4`, `mPerBlock = nPerBlock = 64`, `kpack = 4`: both regions have
`pad (4 * pad 64) * 4 = 1152` elements. -/
theorem C11_lds_size_formula_witness :
    ((GridwiseGemmRewritePattern.computeLDSBlockSizes
        ⟨⟨[1, 64, 128], Ty.f32⟩, ⟨[1, 64, 128], Ty.f32⟩, ⟨[1, 128, 128], Ty.f32⟩, 4,
          ⟨256, 4, 64, 64, 4, 4, 6⟩⟩ 4).a_block_space
        = integer_least_multiple (4 * integer_least_multiple 64 12) 12 * 4 ∧
      (GridwiseGemmRewritePattern.computeLDSBlockSizes
        ⟨⟨[1, 64, 128], Ty.f32⟩, ⟨[1, 64, 128], Ty.f32⟩, ⟨[1, 128, 128], Ty.f32⟩, 4,
          ⟨256, 4, 64, 64, 4, 4, 6⟩⟩ 4).b_block_space
        = integer_least_multiple (4 * integer_least_multiple 64 12) 12 * 4) ∧
    integer_least_multiple (4 * integer_least_multiple 64 12) 12 * 4 = 1152 :=
  ⟨(C11_lds_size_formula
      ⟨⟨[1, 64, 128], Ty.f32⟩, ⟨[1, 64, 128], Ty.f32⟩, ⟨[1, 128, 128], Ty.f32⟩, 4,
        ⟨256, 4, 64, 64, 4, 4, 6⟩⟩
      ⟨⟨[1, 64, 128], Ty.f32⟩, ⟨[1, 64, 128], Ty.f32⟩, ⟨[1, 128, 128], Ty.f32⟩, 256, 4,
        ⟨4, 64, 64, 4, 32, 32⟩⟩ 4 (by decide) (by decide)).1
      (fun x => integer_least_multiple x 12)
      (fun x => integer_least_multiple_isLeast x 12 (by decide)),
    by decide⟩

/-- Claim C14 in the generic path, from `mPerBlock = nPerBlock = 64`, `kpack = 4` to
`mPerBlock = 128`, `nPerBlock = 64`, `kpack = 8`, with `kPerBlock = 4` and
`mPerThread = nPerThread = 4` unchanged: the total does not decrease. -/
theorem C14_lds_sizes_monotonic_witness :
    (GridwiseGemmRewritePattern.computeLDSBlockSizes
        ⟨⟨[1, 64, 128], Ty.f32⟩, ⟨[1, 64, 128], Ty.f32⟩, ⟨[1, 128, 128], Ty.f32⟩, 4,
          ⟨256, 4, 64, 64, 4, 4, 4⟩⟩ 4).block_space
      ≤ (GridwiseGemmRewritePattern.computeLDSBlockSizes
        ⟨⟨[1, 64, 128], Ty.f32⟩, ⟨[1, 64, 128], Ty.f32⟩, ⟨[1, 128, 128], Ty.f32⟩, 4,
          ⟨256, 4, 128, 64, 8, 4, 4⟩⟩ 8).block_space :=
  (C14_lds_sizes_monotonic
    ⟨⟨[1, 64, 128], Ty.f32⟩, ⟨[1, 64, 128], Ty.f32⟩, ⟨[1, 128, 128], Ty.f32⟩, 4,
      ⟨256, 4, 64, 64, 4, 4, 4⟩⟩
    ⟨⟨[1, 64, 128], Ty.f32⟩, ⟨[1, 64, 128], Ty.f32⟩, ⟨[1, 128, 128], Ty.f32⟩, 4,
      ⟨256, 4, 128, 64, 8, 4, 4⟩⟩
    ⟨⟨[1, 64, 128], Ty.f32⟩, ⟨[1, 64, 128], Ty.f32⟩, ⟨[1, 128, 128], Ty.f32⟩, 256, 4,
      ⟨4, 64, 64, 4, 32, 32⟩⟩
    ⟨⟨[1, 64, 128], Ty.f32⟩, ⟨[1, 64, 128], Ty.f32⟩, ⟨[1, 128, 128], Ty.f32⟩, 256, 4,
      ⟨4, 128, 64, 8, 32, 32⟩⟩
    4 8 rfl rfl rfl (by decide) (by decide) rfl (by decide) (by decide) (by decide)).1.2.2.1

/-- Claim C15 at `A : [1, 64, 128]`, `B : [1, 32, 128]`, `C : [1, 128, 128]`, where only
the reduction extents disagree: the generic rewrite ends with a mismatch diagnostic. -/
theorem C15_generic_shape_validation_witness :
    GridwiseGemmRewritePattern.matchAndRewrite
        (fun d _ => if d = GemmDimension.K then 1 else 4)
        (fun d _ => if d = GemmDimension.K then 1 else 4) ⟨8, 8, 2, 2⟩
        ⟨⟨[1, 64, 128], Ty.f32⟩, ⟨[1, 32, 128], Ty.f32⟩, ⟨[1, 128, 128], Ty.f32⟩, 4,
          ⟨256, 4, 64, 64, 4, 4, 4⟩⟩ = Except.error RewriteError.mismatchedG ∨
    GridwiseGemmRewritePattern.matchAndRewrite
        (fun d _ => if d = GemmDimension.K then 1 else 4)
        (fun d _ => if d = GemmDimension.K then 1 else 4) ⟨8, 8, 2, 2⟩
        ⟨⟨[1, 64, 128], Ty.f32⟩, ⟨[1, 32, 128], Ty.f32⟩, ⟨[1, 128, 128], Ty.f32⟩, 4,
          ⟨256, 4, 64, 64, 4, 4, 4⟩⟩ = Except.error RewriteError.mismatchedM ∨
    GridwiseGemmRewritePattern.matchAndRewrite
        (fun d _ => if d = GemmDimension.K then 1 else 4)
        (fun d _ => if d = GemmDimension.K then 1 else 4) ⟨8, 8, 2, 2⟩
        ⟨⟨[1, 64, 128], Ty.f32⟩, ⟨[1, 32, 128], Ty.f32⟩, ⟨[1, 128, 128], Ty.f32⟩, 4,
          ⟨256, 4, 64, 64, 4, 4, 4⟩⟩ = Except.error RewriteError.mismatchedK ∨
    GridwiseGemmRewritePattern.matchAndRewrite
        (fun d _ => if d = GemmDimension.K then 1 else 4)
        (fun d _ => if d = GemmDimension.K then 1 else 4) ⟨8, 8, 2, 2⟩
        ⟨⟨[1, 64, 128], Ty.f32⟩, ⟨[1, 32, 128], Ty.f32⟩, ⟨[1, 128, 128], Ty.f32⟩, 4,
          ⟨256, 4, 64, 64, 4, 4, 4⟩⟩ = Except.error RewriteError.mismatchedN :=
  (C15_generic_shape_validation
    (fun d _ => if d = GemmDimension.K then 1 else 4)
    (fun d _ => if d = GemmDimension.K then 1 else 4) ⟨8, 8, 2, 2⟩
    ⟨⟨[1, 64, 128], Ty.f32⟩, ⟨[1, 32, 128], Ty.f32⟩, ⟨[1, 128, 128], Ty.f32⟩, 4,
      ⟨256, 4, 64, 64, 4, 4, 4⟩⟩).1.2 (Or.inr (Or.inr (Or.inr (Or.inl (by decide)))))

/-- Claim C17 at `kPerBlock = 4 * 4 = 16`, `mPerBlock = nPerBlock = 64`,
`blockSize = 8192`, where `aCopyPerThread = 16 * 64 / 8192 = 0`: the matrix-core rewrite
fails, and the generic rewrite, on matching shapes, fails at the same check. -/
theorem C17_oversized_block_rejected_witness :
    GridwiseGemmV2RewritePattern.matchAndRewrite
        (fun d _ => if d = GemmDimension.K then 1 else 4)
        (fun d _ => if d = GemmDimension.K then 1 else 4) (fun _ _ _ _ _ => true)
        ⟨⟨[1, 64, 128], Ty.f32⟩, ⟨[1, 64, 128], Ty.f32⟩, ⟨[1, 128, 128], Ty.f32⟩, 8192, 4,
          ⟨4, 64, 64, 4, 32, 32⟩⟩ = Except.error RewriteError.blockSizeTooLarge ∧
    GridwiseGemmRewritePattern.matchAndRewrite
        (fun d _ => if d = GemmDimension.K then 1 else 4)
        (fun d _ => if d = GemmDimension.K then 1 else 4) ⟨8, 8, 2, 2⟩
        ⟨⟨[1, 64, 128], Ty.f32⟩, ⟨[1, 64, 128], Ty.f32⟩, ⟨[1, 128, 128], Ty.f32⟩, 4,
          ⟨8192, 4, 64, 64, 4, 4, 4⟩⟩ = Except.error RewriteError.blockSizeTooLarge :=
  ⟨(C17_oversized_block_rejected
      (fun d _ => if d = GemmDimension.K then 1 else 4)
      (fun d _ => if d = GemmDimension.K then 1 else 4) ⟨8, 8, 2, 2⟩ (fun _ _ _ _ _ => true)
      ⟨⟨[1, 64, 128], Ty.f32⟩, ⟨[1, 64, 128], Ty.f32⟩, ⟨[1, 128, 128], Ty.f32⟩, 4,
        ⟨8192, 4, 64, 64, 4, 4, 4⟩⟩
      ⟨⟨[1, 64, 128], Ty.f32⟩, ⟨[1, 64, 128], Ty.f32⟩, ⟨[1, 128, 128], Ty.f32⟩, 8192, 4,
        ⟨4, 64, 64, 4, 32, 32⟩⟩).2 (Or.inl (by decide)),
    rfl⟩

/-- Claim C18 at the element type `f16` with an `f16` destination: the accumulator is
the 32-bit float type. -/
theorem C18_accumulator_type_witness :
    obtainAccumulatorType Ty.f16 Ty.f16 = Ty.f32 :=
  (C18_accumulator_type Ty.f16 Ty.f16).1 (Or.inl rfl)

/-- Claim C19 for operand A vectorized along K with width `4`, quota `8`, `kPerBlock = 16`,
`dPerBlock = 64` (per-thread shape `4 x 2`): iteration `1 * 4 + 3` addresses the position
`3` further along `k` than iteration `1 * 4`. -/
theorem C19_vectorized_axis_innermost_witness :
    ∃ g k d,
      wrapMatrixForGlobalLoad 64 128 "m" ["g_block", "m_block", "n_block"] [1, 2, 2] 4 128
          16 64 4 2 GemmDimension.K 1 2 3 (1 * 4) = some (g, k, d) ∧
      wrapMatrixForGlobalLoad 64 128 "m" ["g_block", "m_block", "n_block"] [1, 2, 2] 4 128
          16 64 4 2 GemmDimension.K 1 2 3 (1 * 4 + 3)
        = some (if GemmDimension.K = GemmDimension.K then (g, k + 3, d) else (g, k, d + 3)) :=
  (C19_vectorized_axis_innermost 64 128 "m" ["g_block", "m_block", "n_block"] [1, 2, 2] 4 128
    16 64 4 2 GemmDimension.K 1 2 3 (Or.inl rfl)).2 4 8 rfl 1 3 (by decide)

/-- Claim C20 for operand A and the block ids `0` and `1` of a `1 x 2 x 2` grid, which
differ in `n_block` only: both give the same coordinate. -/
theorem C20_other_block_axis_ignored_witness :
    lookupDim ["g_block", "m_block", "n_block"] (merge [1, 2, 2] 0) "n_block"
      ≠ lookupDim ["g_block", "m_block", "n_block"] (merge [1, 2, 2] 1) "n_block" ∧
    wrapMatrixForGlobalLoad 8 8 "m" ["g_block", "m_block", "n_block"] [1, 2, 2] 4 4 4 4 2 2
        GemmDimension.K 1 0 3 3
      = wrapMatrixForGlobalLoad 8 8 "m" ["g_block", "m_block", "n_block"] [1, 2, 2] 4 4 4 4 2
        2 GemmDimension.K 1 1 3 3 :=
  ⟨by decide,
    (C20_other_block_axis_ignored 8 8 ["g_block", "m_block", "n_block"] [1, 2, 2] 4 4 4 4 2 2
      GemmDimension.K 0 1 rfl).1 rfl 1 3 3⟩

/-- Claim C21 at the axis names `k` (rejected) and `m` (accepted). -/
theorem C21_axis_name_validation_witness :
    wrapMatrixForGlobalLoad 64 128 "k" ["g_block", "m_block", "n_block"] [1, 2, 2] 4 64 16 64
        4 4 GemmDimension.K 0 0 0 0 = none ∧
    ∃ c, wrapMatrixForGlobalLoad 64 128 "m" ["g_block", "m_block", "n_block"] [1, 2, 2] 4 64
        16 64 4 4 GemmDimension.K 0 0 0 0 = some c :=
  ⟨(C21_axis_name_validation 64 128 "k" ["g_block", "m_block", "n_block"] [1, 2, 2] 4 64 16
      64 4 4 GemmDimension.K 0 0 0 0).1.2 (by decide),
    (C21_axis_name_validation 64 128 "m" ["g_block", "m_block", "n_block"] [1, 2, 2] 4 64 16
      64 4 4 GemmDimension.K 0 0 0 0).2 (Or.inl rfl)⟩

/-- Claim C22 for an output of contiguity `1` along the register index and `4` along the
thread id: the swizzle is applied. -/
theorem C22_swizzle_win_or_noop_witness :
    (GridwiseGemmV2RewritePattern.outputStore (fun dim _ => if dim = 2 then 1 else 4) 64 16
      (fun x : Nat × Nat × Nat => x)).enableOutSwizzles = true :=
  (C22_swizzle_win_or_noop (fun dim _ => if dim = 2 then 1 else 4) 64 16
    (fun x : Nat × Nat × Nat => x)).1.2 ⟨by decide, by decide⟩

/-- Claim C23 for `f16` elements: the sizes of the two LDS regions. -/
theorem C23_accepted_scenario_witness :
    GridwiseGemmRewritePattern.computeLDSBlockSizes
        ⟨⟨[1, 64, 128], Ty.f16⟩, ⟨[1, 64, 128], Ty.f16⟩, ⟨[1, 128, 128], Ty.f16⟩, 4,
          ⟨64, 16, 64, 64, 1, 4, 4⟩⟩ 1
      = ⟨1024, 1024, 2048, LogicalResult.success⟩ :=
  (C23_accepted_scenario Ty.f16 (Or.inl rfl)).2.1

/-- Claim C24, amended, at `K = 64`, `kpacksPerBlock = 16`, `kpack = 1`: three steady
iterations. -/
theorem C24_steady_count_floor_witness :
    (steadyIvs (emitPipeline Variant.gridwiseGemm 64 (16 * 1))).length = 64 / (16 * 1) - 1 :=
  (C24_steady_count_floor Variant.gridwiseGemm 64 16 1 (by decide) (by decide)).1

/-- Claim C26 at `blockSize = 64`, `numElements = 16`, thread `5`, iteration `6`. -/
theorem C26_swizzle_is_transpose_witness :
    indexCombine (indexSplit 64 16 0 5 6) = (0, 4 * (5 / 4) + 6 % 4, 4 * (6 / 4) + 5 % 4) :=
  (C26_swizzle_is_transpose 4 64 16 (by decide) (by decide)).1 0 5 6

/-- Claim C27 at the per-thread shape `4 x 2` with `kpack = 2`, vectorized along K. -/
theorem C27_load_vector_layout_permutation_witness :
    Set.BijOn (globalVectorLayout 4 2 2 GemmDimension.K)
      {iter | iter < 4 * 2} {raw | raw < 4 * 2} :=
  (C27_load_vector_layout_permutation 4 2 2 GemmDimension.K (by decide) (by decide)
    (by decide) (by decide)).2

/-- Claim C28 for operand A with `kPerBlock = 16`, `mPerBlock = 64`, the per-thread shape
`4 x 4`, `blockSize = 64`, in the tile of `k_loop = 1` and block id `2`. -/
theorem C28_global_load_tile_coverage_witness :
    Set.BijOn
      (fun x : Nat × Nat =>
        wrapMatrixForGlobalLoad 64 128 "m" ["g_block", "m_block", "n_block"] [1, 2, 2] 4 64
          16 64 4 4 GemmDimension.K 1 2 x.1 x.2)
      {x | x.1 < 64 ∧ x.2 < 4 * 4}
      (Set.image some {y : Nat × Nat × Nat |
        y.1 = lookupDim ["g_block", "m_block", "n_block"] (merge [1, 2, 2] 2) "g_block" ∧
        1 * 16 ≤ y.2.1 ∧ y.2.1 < (1 + 1) * 16 ∧
        lookupDim ["g_block", "m_block", "n_block"] (merge [1, 2, 2] 2)
            (if "m" = "m" then "m_block" else "n_block") * 64 ≤ y.2.2 ∧
        y.2.2 < (lookupDim ["g_block", "m_block", "n_block"] (merge [1, 2, 2] 2)
            (if "m" = "m" then "m_block" else "n_block") + 1) * 64}) :=
  (C28_global_load_tile_coverage 64 128 "m" ["g_block", "m_block", "n_block"] [1, 2, 2] 4 64
    16 64 4 4 GemmDimension.K 1 2 (Or.inl rfl) (by decide) (by decide) (by decide)).2

/-- Claim C29 in the generic path at `mPerThread = 4`, `nPerThread = 6` (alignment `12`),
`kPerBlock = 4`, `mPerBlock = 64`, `kpack = 4`: the A region holds the `4 x 64 x 4`
view. -/
theorem C29_lds_region_holds_tile_witness :
    4 * 64 * 4 ≤ (GridwiseGemmRewritePattern.computeLDSBlockSizes
        ⟨⟨[1, 64, 128], Ty.f32⟩, ⟨[1, 64, 128], Ty.f32⟩, ⟨[1, 128, 128], Ty.f32⟩, 4,
          ⟨256, 4, 64, 64, 4, 4, 6⟩⟩ 4).a_block_space :=
  (C29_lds_region_holds_tile
    ⟨⟨[1, 64, 128], Ty.f32⟩, ⟨[1, 64, 128], Ty.f32⟩, ⟨[1, 128, 128], Ty.f32⟩, 4,
      ⟨256, 4, 64, 64, 4, 4, 6⟩⟩
    ⟨⟨[1, 64, 128], Ty.f32⟩, ⟨[1, 64, 128], Ty.f32⟩, ⟨[1, 128, 128], Ty.f32⟩, 256, 4,
      ⟨4, 64, 64, 4, 32, 32⟩⟩
    4 (by decide) (by decide) (by decide) (by decide) (by decide)).1.2.1

/-- Claim C30 at the quota `16`, `kPerBlock = 16`, `dPerBlock = 64` and a contiguity of
`1` along K and `4` along M/N: the selector returns the width `4` along M/N and the copy
shape is not rejected as too small. -/
theorem C30_copy_size_branch_unreachable_witness :
    computeCopyPerThread GemmDimension.MorN 4 16 16 64
      ≠ Except.error CopyError.copySizeTooSmall :=
  (C30_copy_size_branch_unreachable (fun d _ => if d = GemmDimension.K then 1 else 4)
    16 16 64 GemmDimension.K (by intro dim; cases dim <;> decide) (by decide) (by decide)
    (by decide) GemmDimension.MorN 4 rfl).2.2.2.2.2.1

end Rock
